import Mathlib

/-! DDS container loader (`DDSImage.cpp`)

A shallow embedding of `Code/CryEngine/RenderDll/Common/Textures/Image/DDSImage.cpp`: the
chunk planner (`MakeName`, `GetFilesToRead`, `LoadMipRequests`), the synchronous loader
(`LoadMipsFromRequests`), the header reader (`SetHeaderFromMemory`), `LoadFromFile`,
`PostLoad`, the streaming handler (`Stream`, `StreamAsyncOnComplete`) and the
attached-image locator (`SeekToAttachedImage`); and of `TImage::RotateOrt` and
`TImage::SetSubImage` of
`Code/Sandbox/Plugins/EditorCommon/Util/Image.h`.

Conventions of the embedding.

* `uint32` locals are natural numbers reduced with `u32` at every assignment;
  `int8` locals are integers reduced with `i8` at every assignment.
* The members `m_Width`, `m_Height`, `m_Depth` are `int` (they are operands of
  `std::max(1, ...)` and initialise `const int` locals): a `uint32` header field is
  converted with `i32` when it is stored in them. When `LoadFromFile` stores the members
  in a `DDSDesc`, the extents are converted to `uint16` and the mip counts to `int8`.
* A shift `x >> n` of a 32-bit operand in `CImageDDSFile` takes the count modulo 32, as the
  shift instructions of the x86 targets do; for counts 0 to 31 this is the value C++
  defines. The shifts of the `uint16` extents in the planner (`maxU16`) are exact shifts,
  which is also the value C++ defines for counts 0 to 31.
* A `char` buffer is a list of byte values; `cstr` reads it up to the first NUL,
  as `append(const char*)` does.
* A destination pointer `pDst + k` is represented by the byte offset `k` from the
  start of the destination buffer.
* `CTexture::TextureDataSize`, the `FIM_*` and `EIF_*` masks, the console variables, the
  file primitives and the helpers of `CImageExtensionHelper` and `DDSFormats` are declared
  outside `DDSImage.cpp`; they are parameters of the definitions below.
* Output arrays are represented by the list of entries written, in index order; calls on
  collaborators are recorded as lists of effects in program order.
* Completion handlers are run one after the other; the pending counter is the only state
  they share and the source decrements it atomically.
-/

/-! ## Machine integers -/

/-- Value of an expression after assignment to a `uint32`. -/
def u32 (x : Nat) : Nat := x % 4294967296

/-- Value of a signed expression after conversion to `uint32`. -/
def u32OfInt (x : Int) : Nat := (x % 4294967296).toNat

/-- Value of an expression after assignment to an `int8` (two's complement wrap). -/
def i8 (x : Int) : Int := (x + 128) % 256 - 128

/-- Value of `a - b` computed on `uint32` operands. -/
def u32sub (a b : Nat) : Nat := (a + 4294967296 - b % 4294967296) % 4294967296

/-- The expression `std::max<uint16>(1U, v >> mip)`: both operands are converted to `uint16`. -/
def maxU16 (v : Nat) (mip : Int) : Nat := max 1 ((v >>> mip.toNat) % 65536)

/-- The expression `std::max(1U, (uint32)v >> mip)`, the shift count taken modulo 32. -/
def maxU32 (v : Nat) (mip : Int) : Nat := max 1 ((v % 4294967296) >>> (mip % 32).toNat)

/-- Value of an expression after assignment to an `int` (32-bit two's complement wrap): the
value whose low 32 bits are those of `x`. -/
def i32 (x : Int) : Int :=
  if u32OfInt x < 2147483648 then (u32OfInt x : Int) else (u32OfInt x : Int) - 4294967296

/-- The expression `x >> n` on an `int` operand: the arithmetic shift, the count taken
modulo 32. -/
def sar32 (x n : Int) : Int := x >>> (n % 32).toNat

/-- Value of an `int` after assignment to a `uint16`. -/
def u16OfInt (x : Int) : Nat := (x % 65536).toNat

/-! ## Types declared in headers -/

/-- Tiling modes named in `DDSImage.cpp`. -/
inductive ETEX_TileMode where
  | eTM_None
  | eTM_LinearPadded
  | eTM_Optimal
  deriving DecidableEq, Repr

/-- Texel format: the numeric value of the `ETEX_Format` enumerator. -/
abbrev ETEX_Format := Nat

/-- Signature of `CTexture::TextureDataSize(nWidth, nHeight, nDepth, nMips, nSlices, eTF, eTM)`. -/
abbrev TextureDataSizeFn :=
  Nat → Nat → Nat → Int → Nat → ETEX_Format → ETEX_TileMode → Nat

/-- The `FIM_*` masks tested by the planner and the loader; their values are defined
outside `DDSImage.cpp`. -/
structure FlagMasks where
  FIM_SPLITTED : Nat
  FIM_ALPHA : Nat
  FIM_STREAM_PREPARE : Nat
  FIM_SUPPRESS_DOWNSCALING : Nat
  deriving Repr

/-- The split and alpha masks are one bit each and the two bits differ. -/
def FlagMasks.SingleBits (fm : FlagMasks) : Prop :=
  ∃ i j : Nat, i ≠ j ∧ fm.FIM_SPLITTED = 2 ^ i ∧ fm.FIM_ALPHA = 2 ^ j

/-- The test `nFlags & mask` used as a condition. -/
def hasFlag (nFlags mask : Nat) : Prop := nFlags &&& mask ≠ 0

instance (nFlags mask : Nat) : Decidable (hasFlag nFlags mask) := by
  unfold hasFlag; infer_instance

namespace DDSSplitted

/-- Descriptor `DDSSplitted::DDSDesc`. -/
structure DDSDesc where
  pName : String
  nBaseOffset : Nat
  nWidth : Nat
  nHeight : Nat
  nDepth : Nat
  nSides : Nat
  nMips : Int
  nMipsPersistent : Int
  eFormat : ETEX_Format
  eTileMode : ETEX_TileMode
  nFlags : Nat
  deriving Repr

/-- Planner output entry `DDSSplitted::ChunkInfo`. -/
structure ChunkInfo where
  fileName : String
  nOffsetInFile : Nat
  nSizeInFile : Nat
  nSideDelta : Nat
  nMipLevel : Int
  deriving DecidableEq, Repr

/-- Read request `DDSSplitted::RequestInfo`; `pOut` is the offset into the destination buffer. -/
structure RequestInfo where
  fileName : String
  pOut : Nat
  nOffs : Nat
  nRead : Nat
  deriving DecidableEq, Repr

/-- Contents of a `char` buffer read as a C string: the bytes before the first NUL. -/
def cstr (buffer : List Nat) : String :=
  String.mk ((buffer.takeWhile (fun b => b != 0)).map Char.ofNat)

/-- The suffix buffer filled by `MakeName` (lines 723-742). -/
def MakeName_buffer (fm : FlagMasks) (nChunk nFlags : Nat) : List Nat :=
  if hasFlag nFlags fm.FIM_SPLITTED ∧ nChunk > 0 then
    if nChunk < 10 then
      [46, (48 + nChunk) % 256, 0]
    else
      [46, (48 + nChunk / 10) % 256, (48 + nChunk % 10) % 256, 0]
  else
    [0]

/-- Function `DDSSplitted::MakeName` (lines 717-755); the result is the value left in `sOut`. -/
def MakeName (fm : FlagMasks) (sOriginalName : String) (nChunk nFlags : Nat) : String :=
  let buffer := MakeName_buffer fm nChunk nFlags
  let sOut := sOriginalName ++ cstr buffer
  if nFlags &&& (fm.FIM_SPLITTED ||| fm.FIM_ALPHA) = (fm.FIM_SPLITTED ||| fm.FIM_ALPHA) then
    if buffer.headD 0 ≠ 0 then sOut ++ "a" else sOut ++ ".a"
  else
    sOut

/-- The mips visited by `for (int8 mip = nStartMip; mip <= nEndMip; ++mip)`, in order.
For `nEndMip = 127` the counter wraps and the source loop does not end; the asserts
`nEndMip < desc.nMips` exclude that value. -/
def mipRange (nStartMip nEndMip : Int) : List Int :=
  (List.range (nEndMip + 1 - nStartMip).toNat).map (fun (k : Nat) => nStartMip + (k : Int))

/-- The single-face, single-mip size `TextureDataSize(max<uint16>(1, w >> mip), ..., 1, 1, ...)`
as stored in a `uint32` local. -/
def surfaceSize16 (tds : TextureDataSizeFn) (desc : DDSDesc) (mip : Int) : Nat :=
  u32 (tds (maxU16 desc.nWidth mip) (maxU16 desc.nHeight mip) (maxU16 desc.nDepth mip)
    1 1 desc.eFormat desc.eTileMode)

/-- One iteration of the loop of `GetFilesToRead_Split` (lines 770-812): the entry written
for `mip`. -/
def GetFilesToRead_Split_chunk (fm : FlagMasks) (tds : TextureDataSizeFn) (desc : DDSDesc)
    (nFirstPersistentMip mip : Int) : ChunkInfo :=
  let chunkNumber : Nat :=
    if nFirstPersistentMip ≤ mip then 0 else u32OfInt (nFirstPersistentMip - mip)
  let fileName := MakeName fm desc.pName chunkNumber desc.nFlags
  if chunkNumber ≠ 0 then
    { fileName := fileName, nMipLevel := mip,
      nOffsetInFile := 0, nSizeInFile := 0, nSideDelta := 0 }
  else
    let nSurfaceSize := surfaceSize16 tds desc mip
    let nSidePitch := u32 (tds
      (maxU16 desc.nWidth nFirstPersistentMip)
      (maxU16 desc.nHeight nFirstPersistentMip)
      (maxU16 desc.nDepth nFirstPersistentMip)
      desc.nMipsPersistent 1 desc.eFormat desc.eTileMode)
    let nStartOffset := u32 (tds
      (maxU16 desc.nWidth nFirstPersistentMip)
      (maxU16 desc.nHeight nFirstPersistentMip)
      (maxU16 desc.nDepth nFirstPersistentMip)
      (mip - nFirstPersistentMip) 1 desc.eFormat desc.eTileMode)
    { fileName := fileName, nMipLevel := mip,
      nOffsetInFile := u32 (desc.nBaseOffset + nStartOffset),
      nSizeInFile := u32 (nSidePitch * u32OfInt ((desc.nSides : Int) - 1) + nSurfaceSize),
      nSideDelta := u32sub nSidePitch nSurfaceSize }

/-- Function `DDSSplitted::GetFilesToRead_Split` (lines 757-818): the entries written to `pFiles`
(entry `k` at index `k`; the function does not consult `nFilesCapacity`) and the returned
count. -/
def GetFilesToRead_Split (fm : FlagMasks) (tds : TextureDataSizeFn) (nFilesCapacity : Nat)
    (desc : DDSDesc) (nStartMip nEndMip : Int) : List ChunkInfo × Nat :=
  let _ := nFilesCapacity
  let nFirstPersistentMip := i8 (desc.nMips - desc.nMipsPersistent)
  (mipRange nStartMip nEndMip).foldl
    (fun (st : List ChunkInfo × Nat) mip =>
      (st.1 ++ [GetFilesToRead_Split_chunk fm tds desc nFirstPersistentMip mip], st.2 + 1))
    ([], 0)

/-- Loop variables of `GetFilesToRead_UnSplit`. `pFiles` holds the entries written so far;
writes happen at index `nNumFiles` and only while `nNumFiles < nFilesCapacity`, so the
entry at list position `k` is `pFiles[k]`. -/
structure UnSplitState where
  pFiles : List ChunkInfo
  nNumFiles : Nat
  nSideStart : Nat
  deriving Repr

/-- One iteration of the loop of `GetFilesToRead_UnSplit` (lines 835-852). -/
def GetFilesToRead_UnSplit_step (tds : TextureDataSizeFn) (nFilesCapacity : Nat)
    (desc : DDSDesc) (nSidePitch : Nat) (st : UnSplitState) (nMip : Int) : UnSplitState :=
  let nOffset := u32 (desc.nBaseOffset + st.nSideStart)
  let nSurfaceSize := surfaceSize16 tds desc nMip
  let pFiles :=
    if st.nNumFiles < nFilesCapacity then
      st.pFiles ++ [{ fileName := desc.pName, nMipLevel := nMip, nOffsetInFile := nOffset,
                      nSizeInFile :=
                        u32 (nSidePitch * u32OfInt ((desc.nSides : Int) - 1) + nSurfaceSize),
                      nSideDelta := u32sub nSidePitch nSurfaceSize }]
    else
      st.pFiles
  { pFiles := pFiles, nNumFiles := st.nNumFiles + 1,
    nSideStart := u32 (st.nSideStart + nSurfaceSize) }

/-- Function `DDSSplitted::GetFilesToRead_UnSplit` (lines 820-856): the entries written to `pFiles`
and the returned count. -/
def GetFilesToRead_UnSplit (tds : TextureDataSizeFn) (nFilesCapacity : Nat)
    (desc : DDSDesc) (nStartMip nEndMip : Int) : List ChunkInfo × Nat :=
  let nSideStart := u32 (tds desc.nWidth desc.nHeight desc.nDepth nStartMip 1
    desc.eFormat desc.eTileMode)
  let nSidePitch := u32 (tds desc.nWidth desc.nHeight desc.nDepth desc.nMips 1
    desc.eFormat desc.eTileMode)
  let st := (mipRange nStartMip nEndMip).foldl
    (GetFilesToRead_UnSplit_step tds nFilesCapacity desc nSidePitch)
    { pFiles := [], nNumFiles := 0, nSideStart := nSideStart }
  (st.pFiles, st.nNumFiles)

/-- Function `DDSSplitted::GetFilesToRead` (lines 858-863). -/
def GetFilesToRead (fm : FlagMasks) (tds : TextureDataSizeFn) (nFilesCapacity : Nat)
    (desc : DDSDesc) (nStartMip nEndMip : Int) : List ChunkInfo × Nat :=
  if hasFlag desc.nFlags fm.FIM_SPLITTED then
    GetFilesToRead_Split fm tds nFilesCapacity desc nStartMip nEndMip
  else
    GetFilesToRead_UnSplit tds nFilesCapacity desc nStartMip nEndMip

/-- Loop variables of the inner (per side) loop of `LoadMipRequests`. -/
structure SideLoopState where
  pReqs : List RequestInfo
  nSrcOffset : Nat
  deriving Repr

/-- The body of the chunk loop of `LoadMipRequests` (lines 943-973): the requests appended
for one chunk. `nDstOffset` is declared inside this body, so it is `0` whenever a request
is built and the final `nDstOffset += nSideSizeToRead` has no later reader. -/
def LoadMipRequests_chunk (tds : TextureDataSizeFn) (desc : DDSDesc) (pBuffer : Nat)
    (pReqs : List RequestInfo) (chunk : ChunkInfo) : List RequestInfo :=
  let nSideSize := u32 (tds desc.nWidth desc.nHeight desc.nDepth desc.nMips 1
    desc.eFormat desc.eTileMode)
  let nSideSizeToRead := surfaceSize16 tds desc chunk.nMipLevel
  let sFileName := chunk.fileName
  let nDstOffset := 0
  let st := (List.range desc.nSides).foldl
    (fun (st : SideLoopState) iSide =>
      { pReqs := st.pReqs ++ [{ fileName := sFileName, nOffs := st.nSrcOffset,
                                nRead := nSideSizeToRead,
                                pOut := pBuffer + u32 (nSideSize * iSide) + nDstOffset }],
        nSrcOffset := u32 (st.nSrcOffset + nSideSizeToRead + chunk.nSideDelta) })
    { pReqs := pReqs, nSrcOffset := chunk.nOffsetInFile }
  st.pReqs

/-- Function `DDSSplitted::LoadMipRequests` (lines 931-978): the requests written to
`pReqs`, in index order; the returned `nReqs` is their number. The chunk loop runs over the
`nNumNames` leading entries of the 16-entry array `names`; where `nNumNames` exceeds the
entries written, the source reads slots that were never written and the list stops at the
written ones. -/
def LoadMipRequests (fm : FlagMasks) (tds : TextureDataSizeFn) (desc : DDSDesc)
    (pBuffer : Nat) (nStartMip nEndMip : Int) : List RequestInfo :=
  let names := GetFilesToRead fm tds 16 desc nStartMip nEndMip
  (names.1.take names.2).foldl (LoadMipRequests_chunk tds desc pBuffer) []

end DDSSplitted

/-! ## The loader `CImageDDSFile` -/

/-- The console variables read by `AdjustHeader` (static members of `CRenderer`). -/
structure CRenderer where
  CV_r_texturesstreamingMinUsableMips : Int
  CV_r_texturesstreamingSkipMips : Int
  deriving Repr

/-- The members of `CImageDDSFile` used by `AdjustHeader` and `LoadFromFile`, as they stand
after `SetHeaderFromMemory` has accepted the header. -/
structure CImageDDSFile where
  m_FileName : String
  m_Width : Int
  m_Height : Int
  m_Depth : Int
  m_NumMips : Int
  m_NumPersistantMips : Int
  m_Sides : Nat
  m_eFormat : ETEX_Format
  m_eTileMode : ETEX_TileMode
  m_Flags : Nat
  m_nStartSeek : Nat
  deriving Repr

/-- Modelled from the spec: `crymath::clamp_to<int8, int8>(x, lo, hi)` (CryMath is not among
the sources), the value `x` clamped to `[lo, hi]`, stored in an `int8`. -/
def clamp_to (x lo hi : Int) : Int := i8 (min (max x lo) hi)

/-- Modelled from the spec: `CTexture::TextureDataSize` (declared outside `DDSImage.cpp`) for
an uncompressed, untiled format of `bpp` bytes per texel: the sum of the per-mip sizes of one
face, every mip dimension being the base dimension shifted right by the mip level and never
below 1, times the number of faces. -/
def TextureDataSize_uncompressed (bpp : Nat) : TextureDataSizeFn :=
  fun nWidth nHeight nDepth nMips nSlices _ _ =>
    nSlices * ((List.range nMips.toNat).map (fun i =>
      max 1 (nWidth >>> i) * max 1 (nHeight >>> i) * max 1 (nDepth >>> i) * bpp)).sum

/-- An assignment of distinct bits to the `FIM_*` masks, for evaluating the definitions on
concrete flag words. -/
def exampleMasks : FlagMasks :=
  { FIM_SPLITTED := 4096, FIM_ALPHA := 8, FIM_STREAM_PREPARE := 128,
    FIM_SUPPRESS_DOWNSCALING := 32768 }

namespace CImageDDSFile

/-- Function `CImageDDSFile::AdjustHeader` (lines 116-136): the image after the call and the returned
`nDeltaMips`. -/
def AdjustHeader (fm : FlagMasks) (cv : CRenderer) (img : CImageDDSFile) :
    CImageDDSFile × Int :=
  if ¬ hasFlag img.m_Flags fm.FIM_SUPPRESS_DOWNSCALING then
    let nUsableMips := max (i8 cv.CV_r_texturesstreamingMinUsableMips)
      (i8 (img.m_NumMips - cv.CV_r_texturesstreamingSkipMips))
    let nFinalMips := clamp_to nUsableMips img.m_NumPersistantMips img.m_NumMips
    let nDeltaMips := i8 (img.m_NumMips - nFinalMips)
    if nDeltaMips > 0 then
      ({ img with
          m_Width := max 1 (sar32 img.m_Width nDeltaMips)
          m_Height := max 1 (sar32 img.m_Height nDeltaMips)
          m_Depth := max 1 (sar32 img.m_Depth nDeltaMips)
          m_NumMips := nFinalMips }, nDeltaMips)
    else
      (img, nDeltaMips)
  else
    (img, 0)

/-- The snapshot `desc` taken by `LoadFromFile` before the header is adjusted
(lines 189-200): the extents are stored in `uint16` fields and the two mip counts in `int8`
fields, as in `mfGet_DDSDesc` (lines 77-80), so the assignments convert. -/
def snapshot (img : CImageDDSFile) : DDSSplitted.DDSDesc :=
  { pName := img.m_FileName, nWidth := u16OfInt img.m_Width,
    nHeight := u16OfInt img.m_Height, nDepth := u16OfInt img.m_Depth,
    nMips := i8 img.m_NumMips,
    nMipsPersistent := i8 img.m_NumPersistantMips, nSides := img.m_Sides,
    eFormat := img.m_eFormat, eTileMode := img.m_eTileMode,
    nBaseOffset := img.m_nStartSeek, nFlags := img.m_Flags }

/-- An effect of the chunk loop of `LoadFromFile`, in program order. -/
inductive LoadAction where
  /-- The assignments `pConts[nConts++] = cont`. -/
  | cont (r : DDSSplitted.RequestInfo)
  /-- The calls `file.Seek(nSeek); file.ReadRaw(pDst + pOut, nRead)`. -/
  | read (nSeek pOut nRead : Nat)
  deriving DecidableEq, Repr

/-- Destination offset of an effect. -/
def LoadAction.pOut : LoadAction → Nat
  | .cont r => r.pOut
  | .read _ pOut _ => pOut

/-- Number of destination bytes of an effect. -/
def LoadAction.nRead : LoadAction → Nat
  | .cont r => r.nRead
  | .read _ _ nRead => nRead

/-- Whether the effect is a continuation request. -/
def LoadAction.isCont : LoadAction → Bool
  | .cont _ => true
  | .read _ _ _ => false

/-- Loop variables of the chunk loop of `LoadFromFile`. -/
structure LoadState where
  nDstOffset : Nat
  trace : List LoadAction
  deriving Repr

/-- The size `nSurfaceSize` computed for a chunk at lines 236-240. -/
def surfaceSize32 (tds : TextureDataSizeFn) (desc : DDSSplitted.DDSDesc) (mip : Int) : Nat :=
  u32 (tds (maxU32 desc.nWidth mip) (maxU32 desc.nHeight mip) (maxU32 desc.nDepth mip)
    1 1 desc.eFormat desc.eTileMode)

/-- The two per-side loops of the chunk loop of `LoadFromFile` (lines 246-266): the effects
for one chunk, entered with the given `nDstOffset`. -/
def LoadFromFile_sides (tds : TextureDataSizeFn) (desc : DDSSplitted.DDSDesc)
    (m_Sides nImageSideSize : Nat) (nDeltaMips nFirstPersistentMip : Int)
    (nDstOffset : Nat) (chunk : DDSSplitted.ChunkInfo) : List LoadAction :=
  let nSurfaceSize := surfaceSize32 tds desc chunk.nMipLevel
  let nSidePitch := u32 (nSurfaceSize + chunk.nSideDelta)
  let nChunkMip := i8 (chunk.nMipLevel - nDeltaMips)
  if nChunkMip < nFirstPersistentMip then
    (List.range m_Sides).map (fun sideIdx =>
      LoadAction.cont
        { fileName := chunk.fileName,
          nOffs := u32 (chunk.nOffsetInFile + sideIdx * nSidePitch),
          nRead := nSurfaceSize,
          pOut := sideIdx * nImageSideSize + nDstOffset })
  else
    (List.range m_Sides).map (fun sideIdx =>
      LoadAction.read (u32 (chunk.nOffsetInFile + sideIdx * nSidePitch))
        (sideIdx * nImageSideSize + nDstOffset) nSurfaceSize)

/-- The body of the chunk loop of `LoadFromFile` (lines 234-268). -/
def LoadFromFile_chunk (tds : TextureDataSizeFn) (desc : DDSSplitted.DDSDesc)
    (m_Sides nImageSideSize : Nat) (nDeltaMips nFirstPersistentMip : Int)
    (st : LoadState) (chunk : DDSSplitted.ChunkInfo) : LoadState :=
  { nDstOffset := u32 (st.nDstOffset + surfaceSize32 tds desc chunk.nMipLevel),
    trace := st.trace ++
      LoadFromFile_sides tds desc m_Sides nImageSideSize nDeltaMips nFirstPersistentMip
        st.nDstOffset chunk }

/-- What `LoadFromFile` leaves behind once the header has been accepted. -/
structure LoadResult where
  img : CImageDDSFile
  nImageSideSize : Nat
  chunks : List DDSSplitted.ChunkInfo
  trace : List LoadAction
  deriving Repr

/-- The part of `CImageDDSFile::LoadFromFile` that follows `SetHeaderFromMemory`
(lines 188-269). `chunks` are the `numChunks` leading entries of the 16-entry array the plan
was written to; where `numChunks` exceeds the entries written, the source reads slots that
were never written and the list stops at the written ones. The `size_t` products are taken
as value preserving. -/
def LoadFromFile_chunks (fm : FlagMasks) (tds : TextureDataSizeFn) (cv : CRenderer)
    (img0 : CImageDDSFile) : LoadResult :=
  let desc := snapshot img0
  let adj := AdjustHeader fm cv img0
  let img := adj.1
  let nDeltaMips := adj.2
  let nMipsToLoad :=
    i8 (if hasFlag img.m_Flags fm.FIM_STREAM_PREPARE then img.m_NumPersistantMips
        else img.m_NumMips)
  let nImageIgnoreMips := i8 (img.m_NumMips - nMipsToLoad)
  let nFirstPersistentMip := i8 (img.m_NumMips - img.m_NumPersistantMips)
  let nImageSideSize := tds
    (max 1 (sar32 img.m_Width nImageIgnoreMips)).toNat
    (max 1 (sar32 img.m_Height nImageIgnoreMips)).toNat
    (max 1 (sar32 img.m_Depth nImageIgnoreMips)).toNat
    nMipsToLoad 1 img.m_eFormat img.m_eTileMode
  let plan := DDSSplitted.GetFilesToRead fm tds 16 desc
    (i8 (nDeltaMips + nImageIgnoreMips)) (i8 (img.m_NumMips + nDeltaMips - 1))
  let chunks := plan.1.take plan.2
  let st := chunks.foldl
    (LoadFromFile_chunk tds desc img.m_Sides nImageSideSize nDeltaMips nFirstPersistentMip)
    { nDstOffset := 0, trace := [] }
  { img := img, nImageSideSize := nImageSideSize, chunks := chunks, trace := st.trace }

/-- The requests left in `pConts`, in index order. -/
def LoadResult.pConts (res : LoadResult) : List DDSSplitted.RequestInfo :=
  res.trace.filterMap (fun a => match a with
    | .cont r => some r
    | .read _ _ _ => none)

/-- The final value of `nConts`. -/
def LoadResult.nConts (res : LoadResult) : Nat := res.pConts.length

end CImageDDSFile

/-! ## Auxiliary definitions used to state the results -/

namespace DDSSplitted

/-- The numeric suffix `MakeName` appends for chunk `n < 100` when the split flag is set. -/
def numericSuffix (n : Nat) : String :=
  if n = 0 then ""
  else if n < 10 then String.mk ['.', Nat.digitChar n]
  else String.mk ['.', Nat.digitChar (n / 10), Nat.digitChar (n % 10)]

end DDSSplitted

namespace CImageDDSFile

/-- The effects of the chunk loop of `LoadFromFile` over the chunks `cs`, entered with the
given `nDstOffset`. -/
def LoadFromFile_trace (tds : TextureDataSizeFn) (desc : DDSSplitted.DDSDesc)
    (m_Sides nImageSideSize : Nat) (nDeltaMips nFirstPersistentMip : Int) :
    Nat → List DDSSplitted.ChunkInfo → List LoadAction
  | _, [] => []
  | d, c :: cs =>
    LoadFromFile_sides tds desc m_Sides nImageSideSize nDeltaMips nFirstPersistentMip d c ++
      LoadFromFile_trace tds desc m_Sides nImageSideSize nDeltaMips nFirstPersistentMip
        (u32 (d + surfaceSize32 tds desc c.nMipLevel)) cs

/-- The example texture as an image whose header has been accepted: the members as
`SetHeaderFromMemory` leaves them for the example header (256 x 256, 9 mips, of which the
3 smallest are persistent, format 1, one face), the pixel data starting at byte 128. -/
def exampleImage : CImageDDSFile :=
  { m_FileName := "base", m_Width := 256, m_Height := 256, m_Depth := 1, m_NumMips := 9,
    m_NumPersistantMips := 3, m_Sides := 1, m_eFormat := 1,
    m_eTileMode := ETEX_TileMode.eTM_None, m_Flags := 0, m_nStartSeek := 128 }

/-- Console variables that ask for no downscaling. -/
def exampleCVars : CRenderer :=
  { CV_r_texturesstreamingMinUsableMips := 0, CV_r_texturesstreamingSkipMips := 0 }

end CImageDDSFile

/-- A 256 x 256 texture of 9 mips, 2 of them persistent, one face, not split, with its pixel
data starting after the 128 bytes of magic tag and header. -/
def exampleDesc : DDSSplitted.DDSDesc :=
  { pName := "base", nBaseOffset := 128, nWidth := 256, nHeight := 256, nDepth := 1,
    nSides := 1, nMips := 9, nMipsPersistent := 2, eFormat := 0,
    eTileMode := ETEX_TileMode.eTM_None, nFlags := 0 }

/-- The same texture split across files. -/
def exampleSplitDesc : DDSSplitted.DDSDesc :=
  { exampleDesc with nFlags := exampleMasks.FIM_SPLITTED }

/-- The example texture with a header that announces 17 mips. -/
def exampleDesc17 : DDSSplitted.DDSDesc :=
  { exampleDesc with nMips := 17 }

namespace DDSSplitted

end DDSSplitted

namespace DDSSplitted

/-- The file primitives used by `LoadMipsFromRequests`, which are defined outside
`DDSImage.cpp`: the result of the `Open` call and of the `ReadRaw` call made while request
`i` of the batch is served. -/
structure CCryFile where
  Open : Nat → String → Bool
  ReadRaw : Nat → RequestInfo → Nat

/-- A call made on the `CCryFile` of `LoadMipsFromRequests`; `i` is the index of the request
being served. -/
inductive FileOp where
  /-- The call `file.Open(req.fileName, "rb")` and its result. -/
  | open (i : Nat) (fileName : String) (ok : Bool)
  /-- The call `file.Seek(req.nOffs, SEEK_SET)`. -/
  | seek (i : Nat) (nOffs : Nat)
  /-- The call `file.ReadRaw(req.pOut, req.nRead)` and the number of bytes it returned. -/
  | read (i : Nat) (pOut nRead readBytes : Nat)
  deriving DecidableEq, Repr

/-- Index of the request a call was made for. -/
def FileOp.index : FileOp → Nat
  | .open i _ _ => i
  | .seek i _ => i
  | .read i _ _ _ => i

/-- The condition `i == 0 || req.fileName != pReqs[i - 1].fileName` of line 991. -/
def needsOpen (pReqs : List RequestInfo) (i : Nat) (req : RequestInfo) : Bool :=
  i == 0 || (pReqs[i - 1]?.map (fun r => r.fileName) != some req.fileName)

/-- The loop of `LoadMipsFromRequests` (lines 987-1009) with `n` iterations left, entered at
index `i` with the given `size` and the calls made so far; the result is the returned value
and all calls made. -/
def LoadMipsFromRequests_loop (file : CCryFile) (pReqs : List RequestInfo) :
    Nat → Nat → Nat → List FileOp → Nat × List FileOp
  | 0, _, size, ops => (size, ops)
  | n + 1, i, size, ops =>
    match pReqs[i]? with
    | none => (size, ops)
    | some req =>
      if needsOpen pReqs i req && !file.Open i req.fileName then
        (0, ops ++ [FileOp.open i req.fileName false])
      else
        let ops1 :=
          if needsOpen pReqs i req then ops ++ [FileOp.open i req.fileName true] else ops
        let readBytes := file.ReadRaw i req
        let ops2 := ops1 ++ [FileOp.seek i req.nOffs, FileOp.read i req.pOut req.nRead readBytes]
        if readBytes = 0 then
          (0, ops2)
        else
          LoadMipsFromRequests_loop file pReqs n (i + 1) (size + readBytes) ops2

/-- Function `DDSSplitted::LoadMipsFromRequests` (lines 980-1012): the returned value and the
calls made on the file, in program order. -/
def LoadMipsFromRequests (file : CCryFile) (pReqs : List RequestInfo) : Nat × List FileOp :=
  LoadMipsFromRequests_loop file pReqs pReqs.length 0 0 []

/-- Whether serving request `i` ends the batch: its file has to be opened and the open
fails, or its read returns zero bytes. -/
def requestFails (file : CCryFile) (pReqs : List RequestInfo) (i : Nat) : Bool :=
  match pReqs[i]? with
  | none => false
  | some req => (needsOpen pReqs i req && !file.Open i req.fileName) || file.ReadRaw i req == 0

/-- The number of bytes the read for request `i` returns. -/
def readAt (file : CCryFile) (pReqs : List RequestInfo) (i : Nat) : Nat :=
  match pReqs[i]? with
  | none => 0
  | some req => file.ReadRaw i req

/-- The calls made for request `i` when it does not end the batch. -/
def opsAt (file : CCryFile) (pReqs : List RequestInfo) (i : Nat) : List FileOp :=
  match pReqs[i]? with
  | none => []
  | some req =>
    (if needsOpen pReqs i req then [FileOp.open i req.fileName true] else []) ++
      [FileOp.seek i req.nOffs, FileOp.read i req.pOut req.nRead (file.ReadRaw i req)]

/-- The calls made for request `i` when it ends the batch. -/
def failingOpsAt (file : CCryFile) (pReqs : List RequestInfo) (i : Nat) : List FileOp :=
  match pReqs[i]? with
  | none => []
  | some req =>
    if needsOpen pReqs i req && !file.Open i req.fileName then
      [FileOp.open i req.fileName false]
    else
      (if needsOpen pReqs i req then [FileOp.open i req.fileName true] else []) ++
        [FileOp.seek i req.nOffs, FileOp.read i req.pOut req.nRead 0]

/-- Two requests for the same file, of 16 and 4 bytes. -/
def exampleRequests : List RequestInfo :=
  [{ fileName := "base", pOut := 0, nOffs := 349632, nRead := 16 },
   { fileName := "base", pOut := 16, nOffs := 349648, nRead := 4 }]

/-- A file whose first read returns one byte of the 16 requested and whose later reads are
complete. -/
def shortReadFile : CCryFile :=
  { Open := fun _ _ => true
    ReadRaw := fun i req => if i = 0 then 1 else req.nRead }

/-- A file every read of which is complete. -/
def completeFile : CCryFile :=
  { Open := fun _ _ => true
    ReadRaw := fun _ req => req.nRead }

end DDSSplitted

namespace DDSSplitted

/-- The name passed to `Open` when the call is an open. -/
def FileOp.openedName : FileOp → Option String
  | .open _ fileName _ => some fileName
  | .seek _ _ => none
  | .read _ _ _ _ => none

end DDSSplitted

namespace DDSSplitted

/-- Three requests: two for the merged file and one for a split chunk file. -/
def exampleRequests3 : List RequestInfo :=
  exampleRequests ++ [{ fileName := "base.1", pOut := 20, nOffs := 0, nRead := 64 }]

/-- A file whose read for request 1 returns zero bytes. -/
def zeroReadFile : CCryFile :=
  { Open := fun _ _ => true
    ReadRaw := fun i req => if i = 1 then 0 else req.nRead }

end DDSSplitted

/-! ## Image buffers and `PostLoad` -/

/-- Error codes `EImFileError` named in `DDSImage.cpp`. -/
inductive EImFileError where
  | eIFE_OK
  | eIFE_IOerror
  | eIFE_OutOfMemory
  | eIFE_BadFormat
  | eIFE_ChunkNotFound
  deriving DecidableEq, Repr

/-- The buffer-side members of the image (base class `CImageFile`): whether
`m_pByteImage[nS]` is non-null, the image size, the recorded error and whether
`m_pFileMemory` is non-null. -/
structure CImageFile where
  m_pByteImage : Nat → Bool
  m_ImgSize : Nat
  m_eError : EImFileError
  m_pFileMemory : Bool

namespace CImageFile

/-- Modelled from the spec: `mfFree_image(nS)` (defined outside `DDSImage.cpp`) drops the
per-face image of face `nS`. -/
def mfFree_image (img : CImageFile) (nS : Nat) : CImageFile :=
  { img with m_pByteImage := fun k => if k = nS then false else img.m_pByteImage k }

/-- Modelled from the spec: `mfGet_image(nS)` (defined outside `DDSImage.cpp`) materializes
the per-face image of face `nS` unless it exists; `alloc nS` tells whether the allocation
succeeds. -/
def mfGet_image (alloc : Nat → Bool) (img : CImageFile) (nS : Nat) : CImageFile :=
  if img.m_pByteImage nS then img
  else { img with m_pByteImage := fun k => if k = nS then alloc nS else img.m_pByteImage k }

/-- Modelled from the spec: `mfSet_error(error, detail)` (defined outside `DDSImage.cpp`)
records the error code. -/
def mfSet_error (img : CImageFile) (error : EImFileError) : CImageFile :=
  { img with m_eError := error }

/-- Modelled from the spec: `mfSet_ImageSize(n)` (defined outside `DDSImage.cpp`) stores the
per-face image size. -/
def mfSet_ImageSize (img : CImageFile) (n : Nat) : CImageFile :=
  { img with m_ImgSize := n }

/-- The face loop of `PostLoad` (lines 549-568) with `n` faces left, entered at face `nS`;
the copy of the face's bytes is not represented. The result is the image after `PostLoad`
and the returned value. -/
def PostLoad_loop (alloc : Nat → Bool) : Nat → Nat → CImageFile → CImageFile × Bool
  | 0, _, img => ({ img with m_pFileMemory := false }, true)
  | n + 1, nS, img =>
    let img1 := mfGet_image alloc (mfFree_image img nS) nS
    if img1.m_pByteImage nS = false then
      let img2 := (List.range nS).foldl mfFree_image img1
      (mfSet_error (mfSet_ImageSize img2 0) EImFileError.eIFE_OutOfMemory, false)
    else
      PostLoad_loop alloc n (nS + 1) img1

/-- Function `CImageDDSFile::PostLoad` (lines 542-574) for an image of `m_Sides` faces. -/
def PostLoad (alloc : Nat → Bool) (m_Sides : Nat) (img : CImageFile) : CImageFile × Bool :=
  PostLoad_loop alloc m_Sides 0 img

/-- An image whose file memory has been filled and of which no face is materialized. -/
def exampleLoaded : CImageFile :=
  { m_pByteImage := fun _ => false, m_ImgSize := 349524,
    m_eError := EImFileError.eIFE_OK, m_pFileMemory := true }

end CImageFile

/-! ## The streaming handler `StreamAsyncOnComplete` -/

/-- What the call of `LoadFromFile` at line 302 leaves behind when it returns true: the
number of continuation requests `nOtherMips`, the face count and the per-face image size. -/
structure LoadOutcome where
  nOtherMips : Nat
  m_Sides : Nat
  m_ImgSize : Nat
  deriving DecidableEq, Repr

/-- The image while it is streamed: its buffers, the face count, the pending counter
`m_pStreamState->m_nPending` and the reference count of the image object. -/
structure StreamingImage where
  file : CImageFile
  m_Sides : Nat
  m_nPending : Int
  nRefCount : Int

/-- An effect of `Stream` or of `StreamAsyncOnComplete`, in program order. -/
inductive StreamEvent where
  /-- The call `AddRef()`. -/
  | AddRef
  /-- The call `Release()`. -/
  | Release
  /-- The call `pStreamEngine->StartRead` with the given `dwUserData`. -/
  | StartRead (dwUserData : Nat)
  /-- The copy of the bytes of continuation `dwUserData` into the destination buffer. -/
  | memcpy (dwUserData : Nat)
  /-- The call `PostLoad()` and its result. -/
  | PostLoad (ok : Bool)
  /-- The call `m_pStreamState->RaiseComplete(pFile)`; `withImage` tells whether `pFile` is
  `this` (true) or `nullptr` (false). -/
  | RaiseComplete (withImage : Bool)
  deriving DecidableEq, Repr

/-- Whether the effect is a call of `RaiseComplete`. -/
def StreamEvent.isRaise : StreamEvent → Bool
  | .RaiseComplete _ => true
  | _ => false

namespace StreamingImage

/-- Function `CImageDDSFile::Stream` (lines 47-68): the pending counter is set to 1, a
reference is taken and the initial read (`dwUserData = 0`) is started. -/
def Stream (img : StreamingImage) : StreamingImage × List StreamEvent :=
  ({ img with m_nPending := 1, nRefCount := img.nRefCount + 1 },
    [StreamEvent.AddRef, StreamEvent.StartRead 0])

/-- The loop of lines 312-333: a reference and a started read per continuation request,
request `nOtherMip` being tagged `nOtherMip + 1`. -/
def issueReads (nOtherMips : Nat) : List StreamEvent :=
  (List.range nOtherMips).flatMap
    (fun nOtherMip => [StreamEvent.AddRef, StreamEvent.StartRead (nOtherMip + 1)])

/-- Function `CImageDDSFile::StreamAsyncOnComplete` (lines 279-391) for the completion of
the read tagged `dwUserData` with error code `nError`. `loadFromFile` is the outcome of the
call of `LoadFromFile` on the delivered bytes (`none` when it returns false), consulted for
the initial read only, and `alloc` tells which per-face allocations of `PostLoad` succeed.
The build is the one in which the copy of lines 346-358 is compiled. `body` holds the image,
the effects up to line 372, `bIsComplete` and `bWasSuccess`. The result is the image after
the handler and the handler's effects. -/
def StreamAsyncOnComplete (alloc : Nat → Bool) (loadFromFile : Option LoadOutcome)
    (img : StreamingImage) (dwUserData nError : Nat) : StreamingImage × List StreamEvent :=
  let nPending := img.m_nPending - 1
  let img1 := { img with m_nPending := nPending }
  let body : StreamingImage × List StreamEvent × Bool × Bool :=
    if nError = 0 then
      if dwUserData = 0 then
        match loadFromFile with
        | some out =>
          let img2 := { img1 with
            file := { img1.file with m_pFileMemory := true, m_ImgSize := out.m_ImgSize }
            m_Sides := out.m_Sides }
          if out.nOtherMips ≠ 0 then
            ({ img2 with m_nPending := out.nOtherMips
                         nRefCount := img2.nRefCount + out.nOtherMips },
              issueReads out.nOtherMips, false, true)
          else
            (img2, [], true, true)
        | none => (img1, [], false, false)
      else
        if nPending = 0 then
          (img1, [StreamEvent.memcpy dwUserData], true, true)
        else
          (img1, [StreamEvent.memcpy dwUserData], false, false)
    else
      (img1, [], true, false)
  let img3 := body.1
  let bIsComplete := body.2.2.1
  let bWasSuccess := body.2.2.2
  let done : StreamingImage × List StreamEvent :=
    if bIsComplete then
      if bWasSuccess then
        let post := CImageFile.PostLoad alloc img3.m_Sides img3.file
        ({ img3 with file := post.1 },
          [StreamEvent.PostLoad post.2, StreamEvent.RaiseComplete true])
      else
        (img3, [StreamEvent.RaiseComplete false])
    else
      (img3, [])
  ({ done.1 with nRefCount := done.1.nRefCount - 1 },
    body.2.1 ++ done.2 ++ [StreamEvent.Release])

/-- A completion delivered to the handler: the tag `dwUserData` of the read and its error
code. -/
structure Completion where
  dwUserData : Nat
  nError : Nat
  deriving DecidableEq, Repr

/-- The handler run on the completions `cs` in their order of arrival, one after the
other; the result is the final image and the effects of each handler call. -/
def handleAll (alloc : Nat → Bool) (loadFromFile : Option LoadOutcome) :
    StreamingImage → List Completion → StreamingImage × List (List StreamEvent)
  | img, [] => (img, [])
  | img, c :: cs =>
    let r := StreamAsyncOnComplete alloc loadFromFile img c.dwUserData c.nError
    let rest := handleAll alloc loadFromFile r.1 cs
    (rest.1, r.2 :: rest.2)

/-- A streamed load from `Stream()` on: the initial read completes without error and the
continuation reads complete in the order `cs`. The result lists, per handler call, the
calls of `RaiseComplete` it made. -/
def raisedBy (alloc : Nat → Bool) (loadFromFile : Option LoadOutcome) (img : StreamingImage)
    (cs : List Completion) : List (List StreamEvent) :=
  (handleAll alloc loadFromFile (Stream img).1
    ({ dwUserData := 0, nError := 0 } :: cs)).2.map
      (fun evs => evs.filter StreamEvent.isRaise)

/-- An image before `Stream()` is called. -/
def exampleIdle : StreamingImage :=
  { file := { m_pByteImage := fun _ => false, m_ImgSize := 0,
              m_eError := EImFileError.eIFE_OK, m_pFileMemory := false },
    m_Sides := 1, m_nPending := 0, nRefCount := 1 }

end StreamingImage

/-- The outcome of a successful `LoadFromFile` that leaves two continuation requests for a
one-face image. -/
def exampleOutcome2 : LoadOutcome :=
  { nOtherMips := 2, m_Sides := 1, m_ImgSize := 349524 }

/-- The outcome of a successful `LoadFromFile` that leaves no continuation request. -/
def exampleOutcome0 : LoadOutcome :=
  { nOtherMips := 0, m_Sides := 1, m_ImgSize := 349524 }

/-! ## The container header and `SetHeaderFromMemory` -/

/-- Modelled from the spec: the pixel-format sub-block of the header (size, flags, four-cc,
bit count and bit masks); the type is declared outside `DDSImage.cpp`. -/
structure DDS_PIXELFORMAT where
  dwSize : Nat
  dwFlags : Nat
  dwFourCC : Nat
  dwRGBBitCount : Nat
  dwRBitMask : Nat
  dwGBitMask : Nat
  dwBBitMask : Nat
  dwABitMask : Nat
  deriving DecidableEq, Repr

/-- A colour of four `float` components, each kept as its IEEE-754 single bit pattern. -/
structure ColorF where
  r : Nat
  g : Nat
  b : Nat
  a : Nat
  deriving DecidableEq, Repr

/-- The members of `CImageExtensionHelper::DDS_HEADER` that `DDSImage.cpp` reads. -/
structure DDS_HEADER where
  dwSize : Nat
  dwWidth : Nat
  dwHeight : Nat
  dwDepth : Nat
  dwMipMapCount : Nat
  ddspf : DDS_PIXELFORMAT
  dwSurfaceFlags : Nat
  dwCubemapFlags : Nat
  dwReserved1 : Nat
  dwTextureStage : Nat
  bNumPersistentMips : Nat
  bTileMode : Nat
  fAvgBrightness : Nat
  cMinColor : ColorF
  cMaxColor : ColorF
  deriving DecidableEq, Repr

/-- The structure `CImageExtensionHelper::DDS_FILE_DESC`: magic tag and header. -/
structure DDS_FILE_DESC where
  dwMagic : Nat
  header : DDS_HEADER
  deriving DecidableEq, Repr

/-- The member of `CImageExtensionHelper::DDS_HEADER_DXT10` that `DDSImage.cpp` reads. -/
structure DDS_HEADER_DXT10 where
  dxgiFormat : Nat
  deriving DecidableEq, Repr

/-- The value of `MAKEFOURCC('D', 'D', 'S', ' ')`: the four characters packed with the first
in the low byte. -/
def DDS_MAGIC : Nat := 0x44 + 0x44 * 256 + 0x53 * 65536 + 0x20 * 16777216

/-- The functions, masks and constants that `SetHeaderFromMemory` and `LoadFromFile` take
from `CImageExtensionHelper`, `DDSFormats`, `TextureHelpers`, `CImage.h` and `DDSImage.h`,
none of which is defined in `DDSImage.cpp`. -/
structure DDSHelpers where
  /-- The method `DDS_HEADER::IsValid`. -/
  headerIsValid : DDS_HEADER → Bool
  /-- The method `DDS_HEADER::IsDX10Ext`. -/
  IsDX10Ext : DDS_HEADER → Bool
  /-- The function `CImageExtensionHelper::GetImageFlags`. -/
  GetImageFlags : DDS_HEADER → Nat
  /-- The function `DDSFormats::GetFormatByDesc`. -/
  GetFormatByDesc : DDS_PIXELFORMAT → Nat → ETEX_Format
  /-- The function `DDSFormats::IsNormalMap`. -/
  IsNormalMap : ETEX_Format → Bool
  /-- The function `DDSFormats::IsSigned`. -/
  IsSigned : ETEX_Format → Bool
  /-- The call `TextureHelpers::VerifyTexSuffix(EFTT_NORMALS, name)`. -/
  VerifyTexSuffix : String → Bool
  eTF_Unknown : ETEX_Format
  etexNumLastMips : Int
  etexLowerMipMaxSize : Nat
  CRYF : Nat
  eTM_LinearPadded : Nat
  eTM_Optimal : Nat
  EIF_Tiled : Nat
  EIF_Cubemap : Nat
  EIF_Splitted : Nat
  EIF_Decal : Nat
  EIF_SRGBRead : Nat
  EIF_Greyscale : Nat
  EIF_FileSingle : Nat
  EIF_AttachedAlpha : Nat
  EIF_SupressEngineReduce : Nat
  EIF_RenormalizedTexture : Nat
  DDS_RESF1_NORMALMAP : Nat
  DDS_SURFACE_FLAGS_CUBEMAP : Nat
  DDS_CUBEMAP_ALLFACES : Nat
  FIM_DX10IO : Nat
  FIM_NORMALMAP : Nat
  FIM_DECAL : Nat
  FIM_SRGB_READ : Nat
  FIM_GREYSCALE : Nat
  FIM_FILESINGLE : Nat
  FIM_HAS_ATTACHED_ALPHA : Nat
  FIM_RENORMALIZED_TEXTURE : Nat

/-- Modelled from the spec: `DDS_FILE_DESC::IsValid` (declared outside `DDSImage.cpp`)
requires the fixed magic tag and a valid header. -/
def DDS_FILE_DESC.IsValid (h : DDSHelpers) (dds : DDS_FILE_DESC) : Bool :=
  dds.dwMagic == DDS_MAGIC && h.headerIsValid dds.header

/-- Modelled from the spec: `DDS_HEADER::GetMipCount` (declared outside `DDSImage.cpp`), the
mip count of the header, never below 1. -/
def DDS_HEADER.GetMipCount (hdr : DDS_HEADER) : Nat := max 1 hdr.dwMipMapCount

/-- The image members written by `SetHeaderFromMemory`, together with the recorded error. -/
structure HeaderState where
  img : CImageDDSFile
  m_DDSHeader : DDS_HEADER
  m_DDSHeaderExtension : DDS_HEADER_DXT10
  m_fAvgBrightness : Nat
  m_cMinColor : ColorF
  m_cMaxColor : ColorF
  m_eError : EImFileError
  deriving Repr

namespace CImageDDSFile

/-- The tiling mode chosen at lines 434-446. -/
def tileModeOf (h : DDSHelpers) (imageFlags bTileMode : Nat) : ETEX_TileMode :=
  if hasFlag imageFlags h.EIF_Tiled then
    if bTileMode = h.eTM_LinearPadded then ETEX_TileMode.eTM_LinearPadded
    else if bTileMode = h.eTM_Optimal then ETEX_TileMode.eTM_Optimal
    else ETEX_TileMode.eTM_None
  else ETEX_TileMode.eTM_None

/-- The face count chosen at lines 451-455. -/
def sidesOf (h : DDSHelpers) (imageFlags : Nat) (hdr : DDS_HEADER) : Nat :=
  if hasFlag imageFlags h.EIF_Cubemap then 6
  else if hasFlag hdr.dwSurfaceFlags h.DDS_SURFACE_FLAGS_CUBEMAP ∧
      hasFlag hdr.dwCubemapFlags h.DDS_CUBEMAP_ALLFACES then 6
  else 1

/-- The flag word built at lines 495-521 from the flags after line 425, the request flags,
the image flags of the header, the format and the streamable decision. -/
def flagsOf (h : DDSHelpers) (fm : FlagMasks) (m_Flags nFlags imageFlags : Nat)
    (m_FileName : String) (m_eFormat : ETEX_Format) (bStreamable : Bool) : Nat :=
  let f1 := if bStreamable then m_Flags ||| fm.FIM_STREAM_PREPARE else m_Flags
  let f2 := f1 ||| (nFlags &&& (fm.FIM_SPLITTED ||| fm.FIM_ALPHA))
  let f3 := if hasFlag imageFlags h.EIF_Splitted then f2 ||| fm.FIM_SPLITTED else f2
  let f4 :=
    if ¬ hasFlag nFlags fm.FIM_ALPHA then
      if hasFlag imageFlags h.DDS_RESF1_NORMALMAP ∨ h.VerifyTexSuffix m_FileName = true ∨
          h.IsNormalMap m_eFormat = true then f3 ||| h.FIM_NORMALMAP
      else f3
    else f3
  let f5 := if hasFlag imageFlags h.EIF_Decal then f4 ||| h.FIM_DECAL else f4
  let f6 := if hasFlag imageFlags h.EIF_SRGBRead then f5 ||| h.FIM_SRGB_READ else f5
  let f7 := if hasFlag imageFlags h.EIF_Greyscale then f6 ||| h.FIM_GREYSCALE else f6
  let f8 := if hasFlag imageFlags h.EIF_FileSingle then f7 ||| h.FIM_FILESINGLE else f7
  let f9 :=
    if hasFlag imageFlags h.EIF_AttachedAlpha then f8 ||| h.FIM_HAS_ATTACHED_ALPHA else f8
  let f10 :=
    if hasFlag imageFlags h.EIF_SupressEngineReduce then f9 ||| fm.FIM_SUPPRESS_DOWNSCALING
    else f9
  if hasFlag imageFlags h.EIF_RenormalizedTexture then f10 ||| h.FIM_RENORMALIZED_TEXTURE
  else f10

/-- Function `CImageDDSFile::SetHeaderFromMemory` (lines 393-540) on a little-endian
platform, where `SwapEndian` changes nothing: the image members after the call and the
returned value. The `uint32` extents of the header are converted to `int` when they are
stored in `m_Width`, `m_Height`, `m_Depth` (lines 421-423), and the tests of lines 475-491
read those members; the mip count is taken to be representable in `int`. -/
def SetHeaderFromMemory (h : DDSHelpers) (fm : FlagMasks) (st : HeaderState)
    (dds : DDS_FILE_DESC) (ddx : DDS_HEADER_DXT10) (nFlags : Nat) : HeaderState × Bool :=
  if ¬ dds.IsValid h then
    ({ st with m_eError := EImFileError.eIFE_BadFormat }, false)
  else
    let hdr : DDS_HEADER :=
      { dds.header with
          dwWidth := max 1 dds.header.dwWidth
          dwHeight := max 1 dds.header.dwHeight
          dwDepth := max 1 dds.header.dwDepth }
    let imageFlags := h.GetImageFlags hdr
    let m_Width := i32 hdr.dwWidth
    let m_Height := i32 hdr.dwHeight
    let m_Depth := i32 hdr.dwDepth
    let flags0 := if h.IsDX10Ext hdr then st.img.m_Flags ||| h.FIM_DX10IO else st.img.m_Flags
    let m_eFormat := h.GetFormatByDesc hdr.ddspf ddx.dxgiFormat
    let st1 : HeaderState :=
      { st with
          m_DDSHeader := hdr
          m_DDSHeaderExtension := ddx
          img := { st.img with
            m_Width := m_Width, m_Height := m_Height, m_Depth := m_Depth,
            m_Flags := flags0, m_eFormat := m_eFormat } }
    if m_eFormat = h.eTF_Unknown then
      ({ st1 with m_eError := EImFileError.eIFE_BadFormat }, false)
    else
      let m_eTileMode := tileModeOf h imageFlags hdr.bTileMode
      let m_NumMips : Int := hdr.GetMipCount
      let m_Sides := sidesOf h imageFlags hdr
      let persistent0 : Int := if hdr.dwTextureStage = h.CRYF then hdr.bNumPersistentMips else 0
      let m_NumPersistantMips := clamp_to persistent0 h.etexNumLastMips m_NumMips
      let nLastMipWidth := sar32 m_Width (m_NumMips - 1)
      let nLastMipHeight := sar32 m_Height (m_NumMips - 1)
      let m_eError :=
        if h.IsNormalMap m_eFormat ∧ (nLastMipWidth < 4 ∨ nLastMipHeight < 4) then
          EImFileError.eIFE_BadFormat
        else st.m_eError
      let bStreamable0 := decide (hasFlag nFlags fm.FIM_STREAM_PREPARE)
      let bStreamable1 :=
        if m_eFormat = h.eTF_Unknown ∨ m_Depth > 1 ∨ m_NumMips < 2 then false
        else bStreamable0
      let bStreamable :=
        if (m_Width ≤ h.etexLowerMipMaxSize ∨ m_Height ≤ h.etexLowerMipMaxSize) ∨
            m_NumMips ≤ m_NumPersistantMips ∨ m_NumPersistantMips = 0 then false
        else bStreamable1
      let m_Flags := flagsOf h fm flags0 nFlags imageFlags st.img.m_FileName m_eFormat bStreamable
      let normal := decide (hasFlag m_Flags h.FIM_NORMALMAP)
      let signed := h.IsSigned m_eFormat
      let one : Nat := 1065353216
      let minusOne : Nat := 3212836864
      ({ st1 with
          img := { st1.img with
            m_eTileMode := m_eTileMode, m_NumMips := m_NumMips, m_Sides := m_Sides,
            m_NumPersistantMips := m_NumPersistantMips, m_Flags := m_Flags }
          m_fAvgBrightness := hdr.fAvgBrightness
          m_cMinColor :=
            if normal then
              if signed then { r := 0, g := 0, b := 0, a := 0 }
              else { r := minusOne, g := minusOne, b := minusOne, a := minusOne }
            else hdr.cMinColor
          m_cMaxColor :=
            if normal then { r := one, g := one, b := one, a := one } else hdr.cMaxColor
          m_eError := m_eError }, true)

end CImageDDSFile

/-! ## The whole of `LoadFromFile` -/

/-- What `LoadFromFile` obtains from its `FileWrapper`: whether the file is valid, whether
`SeekToAttachedImage` finds the attached image, the header structures as read (for an
attached image only `header` is read), and the position returned by `Tell` after them. -/
structure FileInput where
  IsValid : Bool
  SeekToAttachedImage : Bool
  ddsHeader : DDS_FILE_DESC
  ddsExtendedHeader : DDS_HEADER_DXT10
  Tell : Nat
  deriving Repr

/-- The state after `LoadFromFile`: the returned value, the image members, the value of the
reference parameter `nConts`, the chunks planned, the effects of the chunk loop, and whether
the image size and `m_pFileMemory` have been set (with the size). -/
structure LoadFromFileResult where
  ret : Bool
  st : HeaderState
  nConts : Nat
  chunks : List DDSSplitted.ChunkInfo
  trace : List CImageDDSFile.LoadAction
  memorySet : Option Nat
  deriving Repr

namespace CImageDDSFile

/-- The header structure `LoadFromFile` validates (lines 150-172): for a requested attached
image the magic tag is filled in by the loader itself. -/
def headerRead (fm : FlagMasks) (file : FileInput) (nFlags : Nat) : DDS_FILE_DESC :=
  if hasFlag nFlags fm.FIM_ALPHA then
    { dwMagic := DDS_MAGIC, header := file.ddsHeader.header }
  else file.ddsHeader

/-- Function `CImageDDSFile::LoadFromFile` (lines 138-277). `nConts0` is the value the
caller's `nConts` holds on entry. -/
def LoadFromFile (h : DDSHelpers) (fm : FlagMasks) (tds : TextureDataSizeFn) (cv : CRenderer)
    (st : HeaderState) (file : FileInput) (nFlags nConts0 : Nat) : LoadFromFileResult :=
  let failed (s : HeaderState) : LoadFromFileResult :=
    { ret := false, st := s, nConts := nConts0, chunks := [], trace := [], memorySet := none }
  if file.IsValid then
    if hasFlag nFlags fm.FIM_ALPHA ∧ ¬ hasFlag nFlags fm.FIM_SPLITTED ∧
        file.SeekToAttachedImage = false then
      failed { st with m_eError := EImFileError.eIFE_ChunkNotFound }
    else
      let ddsHeader := headerRead fm file nFlags
      if ¬ ddsHeader.IsValid h then
        failed { st with m_eError := EImFileError.eIFE_BadFormat }
      else
        let st0 := { st with img := { st.img with m_nStartSeek := file.Tell } }
        let hdr := SetHeaderFromMemory h fm st0 ddsHeader file.ddsExtendedHeader nFlags
        if hdr.2 = false then
          failed hdr.1
        else
          let res := LoadFromFile_chunks fm tds cv hdr.1.img
          { ret := true, st := { hdr.1 with img := res.img }, nConts := res.nConts,
            chunks := res.chunks, trace := res.trace, memorySet := some res.nImageSideSize }
  else
    failed st

/-- The image members `LoadFromFile` hands to the chunk loop when the header is accepted:
those `SetHeaderFromMemory` leaves for the header read from `file`, `m_nStartSeek` being the
position after the header. -/
def parsedImage (h : DDSHelpers) (fm : FlagMasks) (st : HeaderState) (file : FileInput)
    (nFlags : Nat) : CImageDDSFile :=
  (SetHeaderFromMemory h fm { st with img := { st.img with m_nStartSeek := file.Tell } }
    (headerRead fm file nFlags) file.ddsExtendedHeader nFlags).1.img

end CImageDDSFile

/-- The requests left in `pConts` by `LoadFromFile`, in index order. -/
def LoadFromFileResult.pConts (res : LoadFromFileResult) : List DDSSplitted.RequestInfo :=
  res.trace.filterMap (fun a => match a with
    | .cont r => some r
    | .read _ _ _ => none)

/-! ## Example header data -/

/-- An instance of the helper functions and constants for evaluating the definitions: a
header is valid when its size field is 124, the only known pixel format is the four-cc
`DXT1` (format 1, `eTF_Unknown` being 0), and the image flags are the word `dwReserved1`. -/
def exampleHelpers : DDSHelpers :=
  { headerIsValid := fun hdr => hdr.dwSize == 124
    IsDX10Ext := fun hdr => hdr.ddspf.dwFourCC == 0x30315844
    GetImageFlags := fun hdr => hdr.dwReserved1
    GetFormatByDesc := fun pf _ => if pf.dwFourCC = 0x31545844 then 1 else 0
    IsNormalMap := fun _ => false
    IsSigned := fun _ => false
    VerifyTexSuffix := fun _ => false
    eTF_Unknown := 0
    etexNumLastMips := 3
    etexLowerMipMaxSize := 32
    CRYF := 0x43525946
    eTM_LinearPadded := 1
    eTM_Optimal := 2
    EIF_Tiled := 0x400
    EIF_Cubemap := 0x1
    EIF_Splitted := 0x20
    EIF_Decal := 0x4
    EIF_SRGBRead := 0x40
    EIF_Greyscale := 0x8
    EIF_FileSingle := 0x80
    EIF_AttachedAlpha := 0x400000
    EIF_SupressEngineReduce := 0x10
    EIF_RenormalizedTexture := 0x8000000
    DDS_RESF1_NORMALMAP := 0x1000000
    DDS_SURFACE_FLAGS_CUBEMAP := 0x8
    DDS_CUBEMAP_ALLFACES := 0xFE00
    FIM_DX10IO := 0x10000
    FIM_NORMALMAP := 0x1
    FIM_DECAL := 0x10
    FIM_SRGB_READ := 0x400
    FIM_GREYSCALE := 0x20
    FIM_FILESINGLE := 0x100
    FIM_HAS_ATTACHED_ALPHA := 0x4000
    FIM_RENORMALIZED_TEXTURE := 0x2000 }

/-- A header of the 256 x 256 example texture with 9 mips in the format `DXT1`. -/
def exampleHeader : DDS_HEADER :=
  { dwSize := 124, dwWidth := 256, dwHeight := 256, dwDepth := 1, dwMipMapCount := 9,
    ddspf := { dwSize := 32, dwFlags := 4, dwFourCC := 0x31545844, dwRGBBitCount := 0,
               dwRBitMask := 0, dwGBitMask := 0, dwBBitMask := 0, dwABitMask := 0 },
    dwSurfaceFlags := 0x401008, dwCubemapFlags := 0, dwReserved1 := 0,
    dwTextureStage := 0x43525946, bNumPersistentMips := 3, bTileMode := 0,
    fAvgBrightness := 0,
    cMinColor := { r := 0, g := 0, b := 0, a := 0 },
    cMaxColor := { r := 1065353216, g := 1065353216, b := 1065353216, a := 1065353216 } }

/-- A file that starts with the example header under a wrong magic tag. -/
def exampleBadMagicFile : FileInput :=
  { IsValid := true, SeekToAttachedImage := false,
    ddsHeader := { dwMagic := 0, header := exampleHeader },
    ddsExtendedHeader := { dxgiFormat := 0 }, Tell := 128 }

/-- A file that starts with the example header. -/
def exampleGoodFile : FileInput :=
  { exampleBadMagicFile with ddsHeader := { dwMagic := DDS_MAGIC, header := exampleHeader } }

/-- A file that starts with the example header with a persistent-mip byte of 2. -/
def exampleTwoPersistentFile : FileInput :=
  { exampleGoodFile with
      ddsHeader := { dwMagic := DDS_MAGIC,
                     header := { exampleHeader with bNumPersistentMips := 2 } } }

/-- The image members before any header has been read. -/
def exampleFresh : HeaderState :=
  { img := { m_FileName := "base", m_Width := 0, m_Height := 0, m_Depth := 0, m_NumMips := 0,
             m_NumPersistantMips := 0, m_Sides := 0, m_eFormat := 0,
             m_eTileMode := ETEX_TileMode.eTM_None, m_Flags := 0, m_nStartSeek := 0 },
    m_DDSHeader := exampleHeader, m_DDSHeaderExtension := { dxgiFormat := 0 },
    m_fAvgBrightness := 0,
    m_cMinColor := { r := 0, g := 0, b := 0, a := 0 },
    m_cMaxColor := { r := 0, g := 0, b := 0, a := 0 },
    m_eError := EImFileError.eIFE_OK }

/-! ## Data for the header results -/

/-- The bits of `FIM_STREAM_PREPARE` occur in no other mask that `SetHeaderFromMemory` ORs
into `m_Flags` (the masks are distinct bits of `CImage.h`). -/
def DDSHelpers.StreamPrepareDisjoint (h : DDSHelpers) (fm : FlagMasks) : Prop :=
  h.FIM_DX10IO &&& fm.FIM_STREAM_PREPARE = 0 ∧
  (fm.FIM_SPLITTED ||| fm.FIM_ALPHA) &&& fm.FIM_STREAM_PREPARE = 0 ∧
  fm.FIM_SPLITTED &&& fm.FIM_STREAM_PREPARE = 0 ∧
  h.FIM_NORMALMAP &&& fm.FIM_STREAM_PREPARE = 0 ∧
  h.FIM_DECAL &&& fm.FIM_STREAM_PREPARE = 0 ∧
  h.FIM_SRGB_READ &&& fm.FIM_STREAM_PREPARE = 0 ∧
  h.FIM_GREYSCALE &&& fm.FIM_STREAM_PREPARE = 0 ∧
  h.FIM_FILESINGLE &&& fm.FIM_STREAM_PREPARE = 0 ∧
  h.FIM_HAS_ATTACHED_ALPHA &&& fm.FIM_STREAM_PREPARE = 0 ∧
  fm.FIM_SUPPRESS_DOWNSCALING &&& fm.FIM_STREAM_PREPARE = 0 ∧
  h.FIM_RENORMALIZED_TEXTURE &&& fm.FIM_STREAM_PREPARE = 0

instance (h : DDSHelpers) (fm : FlagMasks) : Decidable (h.StreamPrepareDisjoint fm) := by
  unfold DDSHelpers.StreamPrepareDisjoint
  infer_instance

/-- The example helpers with format 1 taken to be a normal-map format. -/
def exampleNormalMapHelpers : DDSHelpers :=
  { exampleHelpers with IsNormalMap := fun f => f == 1 }

/-- The example header with the engine tag and a persistent-mip byte of 1. -/
def exampleHeaderOnePersistent : DDS_HEADER :=
  { exampleHeader with bNumPersistentMips := 1 }

/-- The example header with every dimension field zero. -/
def exampleHeaderZeroDims : DDS_HEADER :=
  { exampleHeader with dwWidth := 0, dwHeight := 0, dwDepth := 0 }

/-- The example header with a mip count of 200. -/
def exampleHeader200 : DDS_HEADER :=
  { exampleHeader with dwMipMapCount := 200 }

/-- The example header with a mip count of 200 and a persistent-mip byte of 200. -/
def exampleHeader200Persistent : DDS_HEADER :=
  { exampleHeader with dwMipMapCount := 200, bNumPersistentMips := 200 }

/-- The example header with a width field of 2^31. -/
def exampleHeaderWide : DDS_HEADER :=
  { exampleHeader with dwWidth := 2147483648 }

/-- The example header with a depth field of 2^31. -/
def exampleHeaderDeep : DDS_HEADER :=
  { exampleHeader with dwDepth := 2147483648 }


/-! ## The attached-image locator `SeekToAttachedImage` -/

namespace DDSSplitted

/-- Modelled from the spec: the class `FileWrapper` (declared in `DDSImage.h`) is a
seekable byte stream. `pos` is the current position (`Tell`); `ReadRaw` at a position
delivers a number of bytes and advances by it, and `Seek` sets the position. The three
fields give, for a read that starts at the given position, the bytes delivered and the
content of the destination afterwards: a `DDS_FILE_DESC`, a `DDS_HEADER_DXT10`, and the
1024-byte array `tmp`. -/
structure FileWrapper where
  pos : Nat
  readDesc : Nat → Nat × DDS_FILE_DESC
  readExt : Nat → Nat × DDS_HEADER_DXT10
  readWindow : Nat → Nat × List Nat

/-- Function `DDSSplitted::SeekToAttachedImage` (lines 865-929): the returned value and the
file afterwards. `GetAttachedImage` is `CImageExtensionHelper::GetAttachedImage`, giving for
the bytes of `tmp` the offset `pHdr - tmp` of the header it finds, or `none` for a null
result. -/
def SeekToAttachedImage (h : DDSHelpers) (tds : TextureDataSizeFn)
    (GetAttachedImage : List Nat → Option Nat) (file : FileWrapper) : Bool × FileWrapper :=
  let r1 := file.readDesc file.pos
  let file1 := { file with pos := file.pos + r1.1 }
  if r1.1 = 0 then (false, file1)
  else if ¬ r1.2.IsValid h then (false, file1)
  else
    let r2 : Nat × DDS_HEADER_DXT10 :=
      if h.IsDX10Ext r1.2.header then file1.readExt file1.pos else (0, { dxgiFormat := 0 })
    let file2 := { file1 with pos := file1.pos + r2.1 }
    let hdr : DDS_HEADER :=
      { r1.2.header with
          dwWidth := max 1 r1.2.header.dwWidth
          dwHeight := max 1 r1.2.header.dwHeight
          dwDepth := max 1 r1.2.header.dwDepth }
    let imageFlags := h.GetImageFlags hdr
    let eTF := h.GetFormatByDesc hdr.ddspf r2.2.dxgiFormat
    if eTF = h.eTF_Unknown then (false, file2)
    else
      let eTM := CImageDDSFile.tileModeOf h imageFlags hdr.bTileMode
      let numSlices := if hasFlag imageFlags h.EIF_Cubemap then 6 else 1
      let ddsSize := u32 (tds hdr.dwWidth hdr.dwHeight hdr.dwDepth
        (i8 (hdr.dwMipMapCount : Int)) numSlices eTF eTM)
      let headerEnd := file2.pos
      let file3 := { file2 with pos := headerEnd + ddsSize }
      let r3 := file3.readWindow file3.pos
      let file4 := { file3 with pos := file3.pos + r3.1 }
      match GetAttachedImage r3.2 with
      | some offset => (true, { file4 with pos := headerEnd + ddsSize + offset })
      | none => (false, file4)

/-- A stream that holds the 128 bytes of the example header at position 0, followed by the
pixel data; the window read at position 43832 (128 + 43704 bytes of the nine mips in
`DXT1`) is the one-byte list 7, and every other window is empty. -/
def exampleStream : FileWrapper :=
  { pos := 0
    readDesc := fun p => if p = 0 then (128, { dwMagic := DDS_MAGIC, header := exampleHeader })
      else (0, { dwMagic := 0, header := exampleHeader })
    readExt := fun _ => (0, { dxgiFormat := 0 })
    readWindow := fun p => if p = 43832 then (1024, [7]) else (0, []) }

/-- A stand-in for `GetAttachedImage`: a header is found at offset 4 of the window whose
first byte is 7. -/
def exampleGetAttachedImage : List Nat → Option Nat
  | 7 :: _ => some 4
  | _ => none

/-- The byte size of mip chains in the block-compressed format `DXT1`: 8 bytes per block of
4 x 4 texels. -/
def exampleDXT1Size : TextureDataSizeFn :=
  fun nWidth nHeight nDepth nMips nSlices _ _ =>
    nSlices * ((List.range nMips.toNat).map (fun i =>
      max 1 (((nWidth >>> i) + 3) / 4) * max 1 (((nHeight >>> i) + 3) / 4) *
        max 1 (nDepth >>> i) * 8)).sum

end DDSSplitted

/-! ## Counting references and reads of a streamed load -/

/-- Whether the effect is a call of `StartRead`. -/
def StreamEvent.isStartRead : StreamEvent → Bool
  | .StartRead _ => true
  | _ => false

/-- Whether the effect is a call of `AddRef`. -/
def StreamEvent.isAddRef : StreamEvent → Bool
  | .AddRef => true
  | _ => false

/-- Whether the effect is a call of `Release`. -/
def StreamEvent.isRelease : StreamEvent → Bool
  | .Release => true
  | _ => false

namespace StreamingImage

/-- The number of reads started by the given effects. -/
def readsStarted (evs : List StreamEvent) : Nat := (evs.filter StreamEvent.isStartRead).length

/-- Whether every `StartRead` among the effects directly follows an `AddRef` of its own,
and no `AddRef` occurs without the `StartRead` it precedes. -/
def refTakenBeforeEachRead : List StreamEvent → Bool
  | [] => true
  | StreamEvent.AddRef :: StreamEvent.StartRead _ :: rest => refTakenBeforeEachRead rest
  | StreamEvent.AddRef :: _ => false
  | StreamEvent.StartRead _ :: _ => false
  | _ :: rest => refTakenBeforeEachRead rest

/-- Whether the effects of a handler call release exactly one reference, as the last
effect. -/
def releasesOnceAtEnd (evs : List StreamEvent) : Bool :=
  (evs.filter StreamEvent.isRelease).length == 1 && evs.getLast? == some StreamEvent.Release

/-- A streamed load up to a handler boundary: `Stream()`, then the handler run on the
completions `cs` one after the other. The result is the image at the boundary and the
effects of `Stream()` and of each handler call. -/
def run (alloc : Nat → Bool) (loadFromFile : Option LoadOutcome) (img : StreamingImage)
    (cs : List Completion) : StreamingImage × List (List StreamEvent) :=
  let r := handleAll alloc loadFromFile (Stream img).1 cs
  (r.1, (Stream img).2 :: r.2)

/-- The reads in flight at the boundary: the reads started so far less the completions
handled so far. -/
def readsInFlight (alloc : Nat → Bool) (loadFromFile : Option LoadOutcome)
    (img : StreamingImage) (cs : List Completion) : Int :=
  (((run alloc loadFromFile img cs).2.map readsStarted).sum : Int) - (cs.length : Int)

/-- The completions of a sequential run: the first one handled is that of the initial read
(tag 0), the later ones are those of continuation reads (tags from 1 on). -/
def initialFirst : List Completion → Bool
  | [] => true
  | c :: cs => c.dwUserData == 0 && cs.all (fun d => d.dwUserData != 0)

end StreamingImage

/-! ## The editor image class `TImage` (`Image.h`) -/

/-- The members of `TImage<T>` that `RotateOrt` reads and writes. `m_data` is `none` for a
null pointer and otherwise gives the element at each index of the buffer; extents and
coordinates are natural numbers, the `int` values of the program never being negative
here. -/
structure TImage (T : Type) where
  m_data : Option (Nat → T)
  m_width : Nat
  m_height : Nat

namespace TImage

variable {T : Type}

/-- The method `IsValid` (line 61). -/
def IsValid (img : TImage T) : Bool := img.m_data.isSome

/-- The method `Allocate` (lines 97-113): extents below 1 become 1 and the image gets the
buffer of a new memory block. `mem` is the buffer `CMemoryBlock::Allocate` delivers for the
block, `none` when it fails. -/
def Allocate (mem : Option (Nat → T)) (_img : TImage T) (width height : Nat) : TImage T :=
  { m_data := mem, m_width := max 1 width, m_height := max 1 height }

/-- The assignment `m_data[i] = v`. -/
def store (buf : Nat → T) (i : Nat) (v : T) : Nat → T :=
  fun j => if j = i then v else buf j

/-- The element `img.ValueAt(x, y)` of the source buffer `src` of an image `m_width`
wide (line 38). -/
def ValueAt (src : Nat → T) (m_width x y : Nat) : T := src (x + y * m_width)

/-- The element the loop body of `RotateOrt` (lines 295-302) assigns to `ValueAt(x, y)`
of the destination of extents `m_width`, `m_height`. -/
def RotateOrt_value (src : Nat → T) (srcWidth m_width m_height : Nat) (nRot : Int)
    (x y : Nat) : T :=
  if nRot = 1 then ValueAt src srcWidth (m_height - y - 1) x
  else if nRot = 2 then ValueAt src srcWidth (m_width - x - 1) (m_height - y - 1)
  else if nRot = 3 then ValueAt src srcWidth y (m_width - x - 1)
  else ValueAt src srcWidth x y

/-- The two loops of `RotateOrt` (lines 292-303) on the destination buffer `buf`. -/
def RotateOrt_loops (src : Nat → T) (srcWidth m_width m_height : Nat) (nRot : Int)
    (buf : Nat → T) : Nat → T :=
  (List.range m_height).foldl
    (fun b y =>
      (List.range m_width).foldl
        (fun b1 x =>
          store b1 (x + y * m_width) (RotateOrt_value src srcWidth m_width m_height nRot x y))
        b)
    buf

/-- The method `RotateOrt` (lines 272-306) called on the image `self` with source `img`:
the image afterwards. The result is `none` when the loops assign through a null `m_data`
(the allocation failed, or an image without buffer already had the extents wanted). -/
def RotateOrt (mem : Option (Nat → T)) (self img : TImage T) (nRot : Int) :
    Option (TImage T) :=
  match img.m_data with
  | none => some self
  | some src =>
    let width := if nRot = 1 ∨ nRot = 3 then img.m_height else img.m_width
    let height := if nRot = 1 ∨ nRot = 3 then img.m_width else img.m_height
    let self1 :=
      if self.m_width ≠ width ∨ self.m_height ≠ height then Allocate mem self width height
      else self
    match self1.m_data with
    | none => if self1.m_width = 0 ∨ self1.m_height = 0 then some self1 else none
    | some buf =>
      some { self1 with
        m_data := some (RotateOrt_loops src img.m_width self1.m_width self1.m_height nRot buf) }

/-- The element at `(x, y)` of an image, or `none` for an image without buffer. -/
def pixel (img : TImage T) (x y : Nat) : Option T :=
  img.m_data.map (fun buf => ValueAt buf img.m_width x y)

/-- The rotation code as an angle in right angles: 1, 2 and 3 stand for themselves and
every other value for 0. -/
def angle (nRot : Int) : Int := if nRot = 1 ∨ nRot = 2 ∨ nRot = 3 then nRot else 0

/-- An image as the constructor `TImage()` leaves it, or one that holds a buffer. -/
def usable (img : TImage T) : Prop :=
  img.m_data.isSome = true ∨ (img.m_width = 0 ∧ img.m_height = 0)

instance (img : TImage T) : Decidable (usable img) := by
  unfold usable
  infer_instance

/-- The 3 x 2 image with the elements 0, 1, 2 in the first row and 3, 4, 5 in the second. -/
def example3x2 : TImage Nat := { m_data := some (fun i => i), m_width := 3, m_height := 2 }

/-- The image the constructor `TImage()` leaves. -/
def exampleEmpty : TImage Nat := { m_data := none, m_width := 0, m_height := 0 }

end TImage

namespace DDSSplitted

end DDSSplitted

namespace CImageDDSFile

/-- Console variables that skip the two largest mips. -/
def exampleSkipCVars : CRenderer :=
  { CV_r_texturesstreamingMinUsableMips := 0, CV_r_texturesstreamingSkipMips := 2 }

end CImageDDSFile

/-! ## Data for the capacity results -/

/-- The 17-mip example texture split across files. -/
def exampleSplitDesc17 : DDSSplitted.DDSDesc :=
  { exampleDesc17 with nFlags := exampleMasks.FIM_SPLITTED }

namespace CImageDDSFile

/-- The call of `GetFilesToRead` at line 225 of `LoadFromFile`: the entries written to the
16-entry array `chunks` and the returned `numChunks`, for the image `img0` that
`SetHeaderFromMemory` leaves. -/
def LoadFromFile_plan (fm : FlagMasks) (tds : TextureDataSizeFn) (cv : CRenderer)
    (img0 : CImageDDSFile) : List DDSSplitted.ChunkInfo × Nat :=
  let desc := snapshot img0
  let adj := AdjustHeader fm cv img0
  let img := adj.1
  let nDeltaMips := adj.2
  let nMipsToLoad :=
    i8 (if hasFlag img.m_Flags fm.FIM_STREAM_PREPARE then img.m_NumPersistantMips
        else img.m_NumMips)
  let nImageIgnoreMips := i8 (img.m_NumMips - nMipsToLoad)
  DDSSplitted.GetFilesToRead fm tds 16 desc
    (i8 (nDeltaMips + nImageIgnoreMips)) (i8 (img.m_NumMips + nDeltaMips - 1))

end CImageDDSFile

/-- A header of an 8192 x 8192 cube map with 14 mips in the format `DXT1`, the image flag
`EIF_Cubemap` set. -/
def exampleCubeHeader : DDS_HEADER :=
  { exampleHeader with dwWidth := 8192, dwHeight := 8192, dwMipMapCount := 14,
                       dwReserved1 := exampleHelpers.EIF_Cubemap }

/-- A file that starts with the cube-map header. -/
def exampleCubeFile : FileInput :=
  { exampleGoodFile with ddsHeader := { dwMagic := DDS_MAGIC, header := exampleCubeHeader } }

/-- The example header announcing 17 mips. -/
def exampleHeader17 : DDS_HEADER :=
  { exampleHeader with dwMipMapCount := 17 }

/-! ## Data for the locator and name results -/

/-- The example header marked as a cube map by the surface and cube-map flag words only:
the image flags (`dwReserved1`) do not contain `EIF_Cubemap`. -/
def exampleSurfaceCubeHeader : DDS_HEADER :=
  { exampleHeader with dwSurfaceFlags := 0x401008, dwCubemapFlags := 0xFE00 }

namespace DDSSplitted

/-- A stream that holds the surface-flag cube map: the 128 bytes of the header at position
0, the six faces of 43704 bytes each behind it, and the attached image after them; the
array read at position 262352 (128 + 6 * 43704) starts with the byte 7, every other read of
the array delivers nothing. -/
def exampleCubeStream : FileWrapper :=
  { pos := 0
    readDesc := fun p =>
      if p = 0 then (128, { dwMagic := DDS_MAGIC, header := exampleSurfaceCubeHeader })
      else (0, { dwMagic := 0, header := exampleSurfaceCubeHeader })
    readExt := fun _ => (0, { dxgiFormat := 0 })
    readWindow := fun p => if p = 262352 then (1024, [7]) else (0, []) }

/-- The chunk number spelled by the digits of a file-name suffix. -/
def chunkOfSuffix (suffix : String) : Nat :=
  (suffix.data.filter Char.isDigit).foldl (fun n c => 10 * n + (c.toNat - 48)) 0

end DDSSplitted

namespace TImage

variable {T : Type}

/-- The two loops of `SetSubImage` (lines 216-224) on the destination buffer `buf` of an
image `m_width` wide: `ValueAt(x1 + x, y1 + y) = subImage.ValueAt(x, y)` for `y < height`
and `x < width`. -/
def SetSubImage_loops (src : Nat → T) (srcWidth m_width x1 y1 width height : Nat)
    (buf : Nat → T) : Nat → T :=
  (List.range height).foldl
    (fun b y =>
      (List.range width).foldl
        (fun b1 x => store b1 ((x1 + x) + (y1 + y) * m_width) (ValueAt src srcWidth x y))
        b)
    buf

/-- The method `SetSubImage(x1, y1, subImage)` (lines 197-225) called on the image `self`:
the image afterwards. The locals `x1`, `y1`, `width`, `height` are integers; after the
clipping of lines 201-214 they are not negative when the loops run. The result is `none`
when the loops read or assign through a null `m_data`. -/
def SetSubImage (self subImage : TImage T) (x1 y1 : Int) : Option (TImage T) :=
  let width0 : Int := subImage.m_width
  let height0 : Int := subImage.m_height
  let width1 := if x1 < 0 then width0 + x1 else width0
  let x1a := if x1 < 0 then 0 else x1
  let height1 := if y1 < 0 then height0 + y1 else height0
  let y1a := if y1 < 0 then 0 else y1
  let width2 := if x1a + width1 > (self.m_width : Int) then (self.m_width : Int) - x1a
    else width1
  let height2 := if y1a + height1 > (self.m_height : Int) then (self.m_height : Int) - y1a
    else height1
  if width2 ≤ 0 ∨ height2 ≤ 0 then some self
  else
    match self.m_data, subImage.m_data with
    | some buf, some src =>
      some { self with
        m_data := some (SetSubImage_loops src subImage.m_width self.m_width
          x1a.toNat y1a.toNat width2.toNat height2.toNat buf) }
    | _, _ => none

/-- The 2 x 1 image with the elements 10, 20. -/
def example2x1 : TImage Nat :=
  { m_data := some (fun i => if i = 0 then 10 else 20), m_width := 2, m_height := 1 }

/-- The 3 x 1 image with the elements 0, 1, 2. -/
def example3x1 : TImage Nat := { m_data := some (fun i => i), m_width := 3, m_height := 1 }

end TImage

/-! # Results -/

/-! ## Machine integers -/

theorem u32OfInt_natCast (x : Nat) : u32OfInt (x : Int) = x % 4294967296 := by
  unfold u32OfInt
  omega

theorem i32_natCast_of_lt (x : Nat) (hx : x < 2147483648) : i32 (x : Int) = x := by
  unfold i32
  rw [u32OfInt_natCast]
  have h : x % 4294967296 = x := Nat.mod_eq_of_lt (by omega)
  rw [h, if_pos hx]

theorem sar32_of_lt (x n : Int) (h0 : 0 ≤ n) (h1 : n < 32) :
    sar32 x n = x / 2 ^ n.toNat := by
  unfold sar32
  rw [Int.emod_eq_of_lt h0 h1, Int.shiftRight_eq_div_pow]
  norm_cast

theorem sar32_zero (x : Int) : sar32 x 0 = x := by
  rw [sar32_of_lt x 0 (le_refl _) (by decide)]
  simp

theorem u16OfInt_natCast_of_lt (x : Nat) (hx : x < 65536) : u16OfInt (x : Int) = x := by
  unfold u16OfInt
  omega

/-! ## Flag tests -/

theorem and_two_pow_ne_zero_iff (n i : Nat) : n &&& 2 ^ i ≠ 0 ↔ n.testBit i = true := by
  constructor
  · intro h
    by_contra hb
    apply h
    apply Nat.eq_of_testBit_eq
    intro k
    simp only [Nat.testBit_and, Nat.testBit_two_pow, Nat.zero_testBit, Bool.and_eq_false_imp,
      decide_eq_false_iff_not]
    intro hk hik
    subst hik
    exact hb hk
  · intro h h0
    have h1 := congrArg (fun x => x.testBit i) h0
    simp [Nat.testBit_two_pow, h] at h1

theorem and_or_two_pow_eq_iff (n i j : Nat) :
    n &&& (2 ^ i ||| 2 ^ j) = (2 ^ i ||| 2 ^ j) ↔ n.testBit i = true ∧ n.testBit j = true := by
  constructor
  · intro h
    have hi := congrArg (fun x => x.testBit i) h
    have hj := congrArg (fun x => x.testBit j) h
    simp [Nat.testBit_two_pow] at hi hj
    exact ⟨hi, hj⟩
  · rintro ⟨hi, hj⟩
    apply Nat.eq_of_testBit_eq
    intro k
    simp [Nat.testBit_two_pow]
    rintro (h | h) <;> subst h <;> assumption

/-- The combined test of `MakeName` holds exactly when both flags are set. -/
theorem both_flags_iff (fm : FlagMasks) (hfm : fm.SingleBits) (nFlags : Nat) :
    nFlags &&& (fm.FIM_SPLITTED ||| fm.FIM_ALPHA) = (fm.FIM_SPLITTED ||| fm.FIM_ALPHA) ↔
      hasFlag nFlags fm.FIM_SPLITTED ∧ hasFlag nFlags fm.FIM_ALPHA := by
  obtain ⟨i, j, _, hS, hA⟩ := hfm
  rw [hS, hA]
  unfold hasFlag
  rw [and_or_two_pow_eq_iff, and_two_pow_ne_zero_iff, and_two_pow_ne_zero_iff]

theorem exampleMasks_singleBits : exampleMasks.SingleBits :=
  ⟨12, 3, by decide, by decide, by decide⟩

namespace DDSSplitted

/-! ## `MakeName` -/

theorem cstr_one_digit (N : Nat) (h1 : 1 ≤ N) (h9 : N ≤ 9) :
    cstr [46, (48 + N) % 256, 0] = String.mk ['.', Nat.digitChar N] := by
  interval_cases N <;> rfl

theorem cstr_two_digits (N : Nat) (h1 : 10 ≤ N) (h9 : N ≤ 99) :
    cstr [46, (48 + N / 10) % 256, (48 + N % 10) % 256, 0] =
      String.mk ['.', Nat.digitChar (N / 10), Nat.digitChar (N % 10)] := by
  interval_cases N <;> rfl

theorem MakeName_split (fm : FlagMasks) (hfm : fm.SingleBits) (base : String) (n nFlags : Nat)
    (hn : n < 100) (hs : hasFlag nFlags fm.FIM_SPLITTED) :
    MakeName fm base n nFlags =
      base ++ numericSuffix n ++
        (if hasFlag nFlags fm.FIM_ALPHA then (if n = 0 then ".a" else "a") else "") := by
  have hb := both_flags_iff fm hfm nFlags
  unfold MakeName MakeName_buffer numericSuffix
  rcases Nat.eq_zero_or_pos n with h0 | hpos
  · subst h0
    by_cases ha : hasFlag nFlags fm.FIM_ALPHA
    · have hb1 := hb.2 ⟨hs, ha⟩
      simp [hs, ha, hb1, cstr]
    · have hb1 : ¬ _ := fun h => ha (hb.1 h).2
      simp [hs, ha, hb1, cstr]
  · have hne : n ≠ 0 := by omega
    by_cases h10 : n < 10
    · have hc := cstr_one_digit n hpos (by omega)
      by_cases ha : hasFlag nFlags fm.FIM_ALPHA
      · have hb1 := hb.2 ⟨hs, ha⟩
        simp [hs, ha, hb1, hpos, h10, hne, hc]
      · have hb1 : ¬ _ := fun h => ha (hb.1 h).2
        simp [hs, ha, hb1, hpos, h10, hne, hc]
    · have hc := cstr_two_digits n (by omega) (by omega)
      by_cases ha : hasFlag nFlags fm.FIM_ALPHA
      · have hb1 := hb.2 ⟨hs, ha⟩
        simp [hs, ha, hb1, hpos, h10, hne, hc]
      · have hb1 : ¬ _ := fun h => ha (hb.1 h).2
        simp [hs, ha, hb1, hpos, h10, hne, hc]

end DDSSplitted

namespace DDSSplitted

/-- C3 (as the code has it): with the split flag set and `1 ≤ N ≤ 9`, `MakeName` appends a
dot and the single decimal digit of `N`, with no zero padding, followed by `a` when the
alpha flag is set too; the plan entry for mip 3 of a 9-mip container with 2 persistent mips
is named with suffix `.4`. -/
theorem MakeName_single_digit (fm : FlagMasks) (hfm : fm.SingleBits) (base : String)
    (N nFlags : Nat) (h1 : 1 ≤ N) (h9 : N ≤ 9) (hs : hasFlag nFlags fm.FIM_SPLITTED) :
    MakeName fm base N nFlags =
        base ++ String.mk ['.', Nat.digitChar N] ++
          (if hasFlag nFlags fm.FIM_ALPHA then "a" else "") ∧
      ∀ (tds : TextureDataSizeFn) (cap : Nat) (desc : DDSDesc),
        desc.nMips = 9 → desc.nMipsPersistent = 2 → desc.pName = base →
        desc.nFlags = nFlags →
        (GetFilesToRead_Split fm tds cap desc 3 3).1.map (fun e => e.fileName) =
          [base ++ ".4" ++ (if hasFlag nFlags fm.FIM_ALPHA then "a" else "")] := by
  have key : ∀ M : Nat, 1 ≤ M → M ≤ 9 → MakeName fm base M nFlags =
      base ++ String.mk ['.', Nat.digitChar M] ++
        (if hasFlag nFlags fm.FIM_ALPHA then "a" else "") := by
    intro M hM1 hM9
    rw [MakeName_split fm hfm base M nFlags (by omega) hs]
    have hne : M ≠ 0 := by omega
    have hlt : M < 10 := by omega
    simp [numericSuffix, hne, hlt]
  refine ⟨key N h1 h9, ?_⟩
  intro tds cap desc hM hP hname hflags
  have h4 : MakeName fm base 4 nFlags =
      base ++ ".4" ++ (if hasFlag nFlags fm.FIM_ALPHA then "a" else "") :=
    key 4 (by decide) (by decide)
  have hr : mipRange 3 3 = [3] := by decide
  have hi : i8 (9 - 2) = 7 := by decide
  have hu : u32OfInt (7 - 3) = 4 := by decide
  have hle : ¬ ((7 : Int) ≤ 3) := by decide
  simp only [GetFilesToRead_Split, hr, hM, hP, hi, List.foldl_cons, List.foldl_nil,
    List.nil_append, List.map_cons, List.map_nil, GetFilesToRead_Split_chunk, hname, hflags,
    hle, if_false, hu, h4]
  simp

/-- Witness for `MakeName_single_digit`: chunk 5 with the split and alpha flags. -/
theorem MakeName_single_digit_witness :
    exampleMasks.SingleBits ∧ 1 ≤ 5 ∧ 5 ≤ 9 ∧ hasFlag 4104 exampleMasks.FIM_SPLITTED ∧
      MakeName exampleMasks "base" 5 4104 = "base.5a" :=
  ⟨exampleMasks_singleBits, by decide, by decide, by decide,
    (MakeName_single_digit exampleMasks exampleMasks_singleBits "base" 5 4104
      (by decide) (by decide) (by decide)).1⟩

/-- C3 as stated fails: chunk 5 is named `base.5`, not `base.05`, and with the alpha flag
`base.5a`, not `base.05a`. -/
theorem MakeName_not_zero_padded :
    MakeName exampleMasks "base" 5 exampleMasks.FIM_SPLITTED = "base.5" ∧
      MakeName exampleMasks "base" 5 exampleMasks.FIM_SPLITTED ≠ "base.05" ∧
      MakeName exampleMasks "base" 5
          (exampleMasks.FIM_SPLITTED ||| exampleMasks.FIM_ALPHA) ≠ "base.05a" := by
  decide

/-- C4: with the split flag set and the alpha flag clear, chunk 0 yields the base name
unchanged and a chunk `N` with `10 ≤ N ≤ 99` yields the base name, a dot, the tens digit and
the units digit of `N`. -/
theorem MakeName_zero_and_two_digits (fm : FlagMasks) (hfm : fm.SingleBits) (base : String)
    (nFlags : Nat) (hs : hasFlag nFlags fm.FIM_SPLITTED)
    (ha : ¬ hasFlag nFlags fm.FIM_ALPHA) :
    MakeName fm base 0 nFlags = base ∧
      ∀ N : Nat, 10 ≤ N → N ≤ 99 →
        MakeName fm base N nFlags =
          base ++ String.mk ['.', Nat.digitChar (N / 10), Nat.digitChar (N % 10)] := by
  constructor
  · rw [MakeName_split fm hfm base 0 nFlags (by decide) hs]
    simp [numericSuffix, ha]
  · intro N h10 h99
    rw [MakeName_split fm hfm base N nFlags (by omega) hs]
    have hne : N ≠ 0 := by omega
    have hlt : ¬ N < 10 := by omega
    simp [numericSuffix, ha, hne, hlt]

/-- Witness for `MakeName_zero_and_two_digits`: chunk 12 is named `base.12`. -/
theorem MakeName_zero_and_two_digits_witness :
    exampleMasks.SingleBits ∧ hasFlag 4096 exampleMasks.FIM_SPLITTED ∧
      ¬ hasFlag 4096 exampleMasks.FIM_ALPHA ∧
      MakeName exampleMasks "base" 0 4096 = "base" ∧
      MakeName exampleMasks "base" 12 4096 = "base.12" :=
  ⟨exampleMasks_singleBits, by decide, by decide,
    (MakeName_zero_and_two_digits exampleMasks exampleMasks_singleBits "base" 4096
      (by decide) (by decide)).1,
    (MakeName_zero_and_two_digits exampleMasks exampleMasks_singleBits "base" 4096
      (by decide) (by decide)).2 12 (by decide) (by decide)⟩

end DDSSplitted

namespace DDSSplitted

theorem numericSuffix_no_a (n : Nat) (hn : n < 100) : 'a' ∉ (numericSuffix n).data := by
  interval_cases n <;> decide

theorem MakeName_not_split (fm : FlagMasks) (hfm : fm.SingleBits) (base : String)
    (n nFlags : Nat) (hs : ¬ hasFlag nFlags fm.FIM_SPLITTED) :
    MakeName fm base n nFlags = base := by
  have hb := both_flags_iff fm hfm nFlags
  have hb1 : ¬ _ := fun h => hs (hb.1 h).1
  unfold MakeName MakeName_buffer
  simp [hs, hb1, cstr]

/-- C5: for `n < 100`, the name built with both the split and the alpha flag is the name built
with the split flag alone followed by `a` when `n > 0` and by `.a` when `n = 0`; a flag word
that lacks the split flag or the alpha flag gets no `a`: the name is the base name followed
by a suffix that does not contain the letter `a`. -/
theorem MakeName_alpha_suffix (fm : FlagMasks) (hfm : fm.SingleBits) (base : String)
    (n flagsS flagsSA : Nat) (hn : n < 100)
    (hS : hasFlag flagsS fm.FIM_SPLITTED) (hSa : ¬ hasFlag flagsS fm.FIM_ALPHA)
    (hSA : hasFlag flagsSA fm.FIM_SPLITTED) (hSAa : hasFlag flagsSA fm.FIM_ALPHA) :
    MakeName fm base n flagsSA =
        MakeName fm base n flagsS ++ (if n > 0 then "a" else ".a") ∧
      ∀ nFlags : Nat, ¬ (hasFlag nFlags fm.FIM_SPLITTED ∧ hasFlag nFlags fm.FIM_ALPHA) →
        ∃ suffix : String, MakeName fm base n nFlags = base ++ suffix ∧ 'a' ∉ suffix.data := by
  constructor
  · rw [MakeName_split fm hfm base n flagsSA hn hSA, MakeName_split fm hfm base n flagsS hn hS]
    rcases Nat.eq_zero_or_pos n with h0 | hpos
    · subst h0; simp [hSa, hSAa]
    · have hne : n ≠ 0 := by omega
      simp [hSa, hSAa, hne, hpos]
  · intro nFlags hnot
    by_cases hs : hasFlag nFlags fm.FIM_SPLITTED
    · have ha : ¬ hasFlag nFlags fm.FIM_ALPHA := fun h => hnot ⟨hs, h⟩
      refine ⟨numericSuffix n, ?_, numericSuffix_no_a n hn⟩
      rw [MakeName_split fm hfm base n nFlags hn hs]
      simp [ha]
    · refine ⟨"", ?_, by decide⟩
      rw [MakeName_not_split fm hfm base n nFlags hs]
      simp

/-- Witness for `MakeName_alpha_suffix`: chunk 0 with split and alpha is `base.a`. -/
theorem MakeName_alpha_suffix_witness :
    exampleMasks.SingleBits ∧ 0 < 100 ∧ hasFlag 4096 exampleMasks.FIM_SPLITTED ∧
      ¬ hasFlag 4096 exampleMasks.FIM_ALPHA ∧ hasFlag 4104 exampleMasks.FIM_SPLITTED ∧
      hasFlag 4104 exampleMasks.FIM_ALPHA ∧
      MakeName exampleMasks "base" 0 4104 =
        MakeName exampleMasks "base" 0 4096 ++ (if 0 > 0 then "a" else ".a") :=
  ⟨exampleMasks_singleBits, by decide, by decide, by decide, by decide, by decide,
    (MakeName_alpha_suffix exampleMasks exampleMasks_singleBits "base" 0 4096 4104
      (by decide) (by decide) (by decide) (by decide) (by decide)).1⟩

end DDSSplitted

namespace DDSSplitted

/-! ## The planner -/

theorem mipRange_getElem? (s e : Int) (k : Nat) (hk : k < (e + 1 - s).toNat) :
    (mipRange s e)[k]? = some (s + (k : Int)) := by
  unfold mipRange
  rw [List.getElem?_map, List.getElem?_range hk]
  rfl

theorem foldl_push_count {α β : Type} (f : α → β) (l : List α) (acc : List β) (n : Nat) :
    l.foldl (fun (st : List β × Nat) x => (st.1 ++ [f x], st.2 + 1)) (acc, n) =
      (acc ++ l.map f, n + l.length) := by
  induction l generalizing acc n with
  | nil => simp
  | cons x l ih => simp [ih, Nat.add_comm, Nat.add_left_comm]

theorem GetFilesToRead_Split_eq (fm : FlagMasks) (tds : TextureDataSizeFn) (cap : Nat)
    (desc : DDSDesc) (s e : Int) :
    GetFilesToRead_Split fm tds cap desc s e =
      ((mipRange s e).map
          (GetFilesToRead_Split_chunk fm tds desc (i8 (desc.nMips - desc.nMipsPersistent))),
        (mipRange s e).length) := by
  unfold GetFilesToRead_Split
  simp only [foldl_push_count]
  simp

/-- C2: for a descriptor with `0 ≤ nMipsPersistent ≤ nMips ≤ 127` and a requested mip `m`
(`nStartMip ≤ m ≤ nEndMip < nMips`, `nStartMip` an `int8`), the entry `GetFilesToRead_Split`
writes for `m` (at index `m - nStartMip`) is, with `firstPersistent = nMips - nMipsPersistent`:
for `m < firstPersistent` named `MakeName(base, firstPersistent - m, flags)` with offset,
length and stride delta 0; for `m ≥ firstPersistent` named `MakeName(base, 0, flags)`. -/
theorem GetFilesToRead_Split_entry (fm : FlagMasks) (tds : TextureDataSizeFn) (cap : Nat)
    (desc : DDSDesc) (nStartMip nEndMip m : Int)
    (hP0 : 0 ≤ desc.nMipsPersistent) (hPM : desc.nMipsPersistent ≤ desc.nMips)
    (hM : desc.nMips ≤ 127) (hlo : -128 ≤ nStartMip)
    (hsm : nStartMip ≤ m) (hme : m ≤ nEndMip) (he : nEndMip < desc.nMips) :
    ∃ e : ChunkInfo,
      (GetFilesToRead_Split fm tds cap desc nStartMip nEndMip).1[(m - nStartMip).toNat]?
          = some e ∧
        e.nMipLevel = m ∧
        (m < desc.nMips - desc.nMipsPersistent →
          e.fileName =
              MakeName fm desc.pName (desc.nMips - desc.nMipsPersistent - m).toNat desc.nFlags ∧
            e.nOffsetInFile = 0 ∧ e.nSizeInFile = 0 ∧ e.nSideDelta = 0) ∧
        (desc.nMips - desc.nMipsPersistent ≤ m →
          e.fileName = MakeName fm desc.pName 0 desc.nFlags) := by
  have hk : (m - nStartMip).toNat < (nEndMip + 1 - nStartMip).toNat := by omega
  have hidx : nStartMip + ((m - nStartMip).toNat : Int) = m := by omega
  have hfirst : i8 (desc.nMips - desc.nMipsPersistent) = desc.nMips - desc.nMipsPersistent := by
    unfold i8; omega
  refine ⟨GetFilesToRead_Split_chunk fm tds desc (i8 (desc.nMips - desc.nMipsPersistent)) m,
    ?_, ?_, ?_, ?_⟩
  · rw [GetFilesToRead_Split_eq]
    show (List.map _ (mipRange nStartMip nEndMip))[(m - nStartMip).toNat]? = _
    rw [List.getElem?_map, mipRange_getElem? _ _ _ hk, hidx]
    rfl
  · simp only [GetFilesToRead_Split_chunk]
    split_ifs <;> rfl
  · intro hlt
    have hnle : ¬ (desc.nMips - desc.nMipsPersistent ≤ m) := by omega
    have hu : u32OfInt (desc.nMips - desc.nMipsPersistent - m) =
        (desc.nMips - desc.nMipsPersistent - m).toNat := by
      unfold u32OfInt; congr 1; omega
    have hne : (desc.nMips - desc.nMipsPersistent - m).toNat ≠ 0 := by omega
    simp [GetFilesToRead_Split_chunk, hfirst, hnle, hu, hne]
  · intro hle
    simp [GetFilesToRead_Split_chunk, hfirst, hle]

end DDSSplitted

namespace DDSSplitted

/-- Witness for `GetFilesToRead_Split_entry`: mip 3 of the 9-mip example with 2 persistent
mips. -/
theorem GetFilesToRead_Split_entry_witness :
    (0 : Int) ≤ exampleSplitDesc.nMipsPersistent ∧
      exampleSplitDesc.nMipsPersistent ≤ exampleSplitDesc.nMips ∧
      exampleSplitDesc.nMips ≤ 127 ∧ (-128 : Int) ≤ 0 ∧ (0 : Int) ≤ 3 ∧ (3 : Int) ≤ 8 ∧
      (8 : Int) < exampleSplitDesc.nMips ∧
      ∃ e : ChunkInfo,
        (GetFilesToRead_Split exampleMasks (TextureDataSize_uncompressed 4) 16
            exampleSplitDesc 0 8).1[((3 : Int) - 0).toNat]? = some e ∧
          e.nMipLevel = 3 ∧
          ((3 : Int) < exampleSplitDesc.nMips - exampleSplitDesc.nMipsPersistent →
            e.fileName =
                MakeName exampleMasks exampleSplitDesc.pName
                  (exampleSplitDesc.nMips - exampleSplitDesc.nMipsPersistent - 3).toNat
                  exampleSplitDesc.nFlags ∧
              e.nOffsetInFile = 0 ∧ e.nSizeInFile = 0 ∧ e.nSideDelta = 0) ∧
          (exampleSplitDesc.nMips - exampleSplitDesc.nMipsPersistent ≤ 3 →
            e.fileName = MakeName exampleMasks exampleSplitDesc.pName 0
              exampleSplitDesc.nFlags) :=
  ⟨by decide, by decide, by decide, by decide, by decide, by decide, by decide,
    GetFilesToRead_Split_entry exampleMasks (TextureDataSize_uncompressed 4) 16
      exampleSplitDesc 0 8 3 (by decide) (by decide) (by decide) (by decide) (by decide)
      (by decide) (by decide)⟩

theorem u32_u32 (a : Nat) : u32 (u32 a) = u32 a := by
  unfold u32; omega

end DDSSplitted

namespace DDSSplitted

end DDSSplitted

namespace CImageDDSFile

open DDSSplitted

/-! ## The chunk loop of `LoadFromFile` -/

theorem LoadFromFile_foldl (tds : TextureDataSizeFn) (desc : DDSDesc)
    (S N : Nat) (delta first : Int) (cs : List ChunkInfo) (st : LoadState) :
    (cs.foldl (LoadFromFile_chunk tds desc S N delta first) st).trace =
      st.trace ++ LoadFromFile_trace tds desc S N delta first st.nDstOffset cs := by
  induction cs generalizing st with
  | nil => simp [LoadFromFile_trace]
  | cons c cs ih =>
    simp only [List.foldl_cons, LoadFromFile_trace]
    rw [ih]
    simp [LoadFromFile_chunk, List.append_assoc]

end CImageDDSFile

namespace CImageDDSFile

open DDSSplitted

theorem LoadFromFile_chunks_trace (fm : FlagMasks) (tds : TextureDataSizeFn) (cv : CRenderer)
    (img0 : CImageDDSFile) :
    (LoadFromFile_chunks fm tds cv img0).trace =
      LoadFromFile_trace tds (snapshot img0)
        (LoadFromFile_chunks fm tds cv img0).img.m_Sides
        (LoadFromFile_chunks fm tds cv img0).nImageSideSize
        (AdjustHeader fm cv img0).2
        (i8 ((LoadFromFile_chunks fm tds cv img0).img.m_NumMips -
          (LoadFromFile_chunks fm tds cv img0).img.m_NumPersistantMips))
        0 (LoadFromFile_chunks fm tds cv img0).chunks := by
  simp only [LoadFromFile_chunks, LoadFromFile_foldl, List.nil_append]

end CImageDDSFile

namespace CImageDDSFile

open DDSSplitted

/-- The example image is the one `LoadFromFile` obtains from the example file. -/
theorem exampleImage_parsed :
    parsedImage exampleHelpers exampleMasks exampleFresh exampleGoodFile 0 = exampleImage := by
  rfl

/-- The snapshot holds the extents in 16 bits: for an image 65536 texels wide and 4 texels
high (4 bytes per texel) the snapshot's width is 0, and the request for mip 0 is 16 bytes
long, `TextureDataSize(max(1, 0), 4, 1, ...)`, not the 1048576 bytes of the mip. -/
theorem LoadFromFile_wide_image :
    (snapshot { exampleImage with m_Width := 65536, m_Height := 4 }).nWidth = 0 ∧
      (LoadFromFile_chunks exampleMasks (TextureDataSize_uncompressed 4) exampleCVars
        { exampleImage with m_Width := 65536, m_Height := 4 }).pConts.map
          (fun r => r.nRead) = [16, 8, 4, 4, 4, 4] ∧
      TextureDataSize_uncompressed 4 65536 4 1 1 1 1 ETEX_TileMode.eTM_None = 1048576 := by
  decide

end CImageDDSFile

namespace CImageDDSFile

open DDSSplitted

theorem AdjustHeader_zero (fm : FlagMasks) (cv : CRenderer) (img : CImageDDSFile)
    (h : (AdjustHeader fm cv img).2 = 0) : (AdjustHeader fm cv img).1 = img := by
  unfold AdjustHeader at h ⊢
  by_cases h1 : hasFlag img.m_Flags fm.FIM_SUPPRESS_DOWNSCALING
  · simp [h1]
  · simp only [h1, not_false_eq_true, if_true] at h ⊢
    split_ifs at h ⊢ with h2
    · simp only at h
      omega
    · rfl

/-- C9 as stated fails: the 256 x 256, 9-mip, one-face unsplit header with a persistent-mip
byte of 2 is accepted with 3 persistent mips (the count is raised to `etexNumLastMips`), and
the full load emits 6 continuation requests, one for each of the mips 0 to 5, and 3
immediate reads; no request has the length of a 7-mip region. -/
theorem LoadFromFile_example_requests :
    (LoadFromFile exampleHelpers exampleMasks (TextureDataSize_uncompressed 4) exampleCVars
        exampleFresh exampleTwoPersistentFile 0 0).ret = true ∧
      exampleTwoPersistentFile.ddsHeader.header.bNumPersistentMips = 2 ∧
      (LoadFromFile exampleHelpers exampleMasks (TextureDataSize_uncompressed 4) exampleCVars
        exampleFresh exampleTwoPersistentFile 0 0).st.img.m_NumPersistantMips = 3 ∧
      (LoadFromFile exampleHelpers exampleMasks (TextureDataSize_uncompressed 4) exampleCVars
        exampleFresh exampleTwoPersistentFile 0 0).nConts = 6 ∧
      (LoadFromFile exampleHelpers exampleMasks (TextureDataSize_uncompressed 4) exampleCVars
        exampleFresh exampleTwoPersistentFile 0 0).chunks.map (fun c => c.nMipLevel) =
          [0, 1, 2, 3, 4, 5, 6, 7, 8] ∧
      (LoadFromFile exampleHelpers exampleMasks (TextureDataSize_uncompressed 4) exampleCVars
        exampleFresh exampleTwoPersistentFile 0 0).trace.map LoadAction.isCont =
          [true, true, true, true, true, true, false, false, false] ∧
      (LoadFromFile exampleHelpers exampleMasks (TextureDataSize_uncompressed 4) exampleCVars
        exampleFresh exampleTwoPersistentFile 0 0).pConts.map (fun r => r.nRead) =
          [262144, 65536, 16384, 4096, 1024, 256] ∧
      TextureDataSize_uncompressed 4 256 256 1 7 1 1 ETEX_TileMode.eTM_None = 349504 := by
  decide

end CImageDDSFile

namespace CImageDDSFile

open DDSSplitted

theorem trace_isCont (tds : TextureDataSizeFn) (desc : DDSDesc)
    (S N : Nat) (delta first : Int) (cs : List ChunkInfo) (d : Nat) :
    (LoadFromFile_trace tds desc S N delta first d cs).map LoadAction.isCont =
      (cs.map (fun c => c.nMipLevel)).flatMap
        (fun m => List.replicate S (decide (i8 (m - delta) < first))) := by
  induction cs generalizing d with
  | nil => simp [LoadFromFile_trace]
  | cons c cs ih =>
    simp only [LoadFromFile_trace, List.map_append, ih, List.map_cons, List.flatMap_cons]
    congr 1
    by_cases h : i8 (c.nMipLevel - delta) < first
    · simp [LoadFromFile_sides, h, LoadAction.isCont, Function.comp_def]
    · simp [LoadFromFile_sides, h, LoadAction.isCont, Function.comp_def]

theorem trace_pConts_nRead (tds : TextureDataSizeFn) (desc : DDSDesc)
    (S N : Nat) (delta first : Int) (cs : List ChunkInfo) (d : Nat) :
    ((LoadFromFile_trace tds desc S N delta first d cs).filterMap (fun a => match a with
      | .cont r => some r
      | .read _ _ _ => none)).map (fun r => r.nRead) =
      (cs.map (fun c => c.nMipLevel)).flatMap
        (fun m => if i8 (m - delta) < first then
          List.replicate S (surfaceSize32 tds desc m) else []) := by
  induction cs generalizing d with
  | nil => simp [LoadFromFile_trace]
  | cons c cs ih =>
    simp only [LoadFromFile_trace, List.filterMap_append, List.map_append, ih, List.map_cons,
      List.flatMap_cons]
    congr 1
    by_cases h : i8 (c.nMipLevel - delta) < first
    · simp only [LoadFromFile_sides, h, if_true, List.filterMap_map, Function.comp_def]
      have hsome : ∀ (g : Nat → RequestInfo) (l : List Nat),
          l.filterMap (fun x => some (g x)) = l.map g := by
        intro g l
        induction l with
        | nil => rfl
        | cons x l ih => simp [List.filterMap_cons, ih]
      rw [hsome]
      simp [Function.comp_def]
    · simp [LoadFromFile_sides, h, List.filterMap_map, Function.comp_def]

end CImageDDSFile

namespace CImageDDSFile

open DDSSplitted

end CImageDDSFile

namespace DDSSplitted

/-! ## Split against unsplit -/

theorem shiftRight_le_self (n k : Nat) : n >>> k ≤ n := by
  rw [Nat.shiftRight_eq_div_pow]
  exact Nat.div_le_self _ _

/-- C6 fails on the code: for the unsplit example, `LoadMipRequests` over mips 0..8 gives every
request of the one face the destination offset 0, so the destination ranges of different
mips overlap. -/
theorem LoadMipRequests_same_destination :
    (LoadMipRequests exampleMasks (TextureDataSize_uncompressed 4) exampleDesc 0 0 8).map
        (fun r => (r.pOut, r.nRead)) =
      [(0, 262144), (0, 65536), (0, 16384), (0, 4096), (0, 1024), (0, 256), (0, 64),
       (0, 16), (0, 4)] := by
  decide

end DDSSplitted

namespace DDSSplitted

/-! ## Stride delta of the unsplit plan -/

end DDSSplitted

namespace DDSSplitted

/-! ## `LoadMipsFromRequests` -/

theorem loop_step_ok (file : CCryFile) (pReqs : List RequestInfo) (n i size : Nat)
    (ops : List FileOp) (hi : i < pReqs.length)
    (hok : requestFails file pReqs i = false) :
    LoadMipsFromRequests_loop file pReqs (n + 1) i size ops =
      LoadMipsFromRequests_loop file pReqs n (i + 1) (size + readAt file pReqs i)
        (ops ++ opsAt file pReqs i) := by
  have hreq : pReqs[i]? = some pReqs[i] := List.getElem?_eq_getElem hi
  simp only [requestFails, hreq, Bool.or_eq_false_iff, beq_eq_false_iff_ne, ne_eq] at hok
  obtain ⟨hopen, hread⟩ := hok
  simp only [LoadMipsFromRequests_loop, hreq, readAt, opsAt, hopen, hread, if_false,
    Bool.false_eq_true]
  by_cases hn : needsOpen pReqs i pReqs[i] = true
  · simp [hn]
  · simp [hn]

theorem loop_step_fail (file : CCryFile) (pReqs : List RequestInfo) (n i size : Nat)
    (ops : List FileOp) (hi : i < pReqs.length)
    (hfail : requestFails file pReqs i = true) :
    LoadMipsFromRequests_loop file pReqs (n + 1) i size ops =
      (0, ops ++ failingOpsAt file pReqs i) := by
  have hreq : pReqs[i]? = some pReqs[i] := List.getElem?_eq_getElem hi
  simp only [requestFails, hreq] at hfail
  simp only [LoadMipsFromRequests_loop, hreq, failingOpsAt]
  by_cases hopen : (needsOpen pReqs i pReqs[i] && !file.Open i pReqs[i].fileName) = true
  · simp [hopen]
  · have hread : file.ReadRaw i pReqs[i] = 0 := by
      simp only [hopen, Bool.false_or, beq_iff_eq] at hfail
      exact hfail
    simp only [hopen, if_false, Bool.false_eq_true, hread, if_true]
    by_cases hn : needsOpen pReqs i pReqs[i] = true
    · simp [hn]
    · simp [hn]

theorem loop_ok (file : CCryFile) (pReqs : List RequestInfo) (n i size : Nat)
    (ops : List FileOp) (hlen : i + n = pReqs.length)
    (hok : ∀ j, i ≤ j → j < pReqs.length → requestFails file pReqs j = false) :
    LoadMipsFromRequests_loop file pReqs n i size ops =
      (size + ((List.range' i n).map (readAt file pReqs)).sum,
        ops ++ (List.range' i n).flatMap (opsAt file pReqs)) := by
  induction n generalizing i size ops with
  | zero => simp [LoadMipsFromRequests_loop]
  | succ n ih =>
    rw [loop_step_ok file pReqs n i size ops (by omega) (hok i (Nat.le_refl i) (by omega)),
      ih (i + 1) _ _ (by omega) (fun j hj hjl => hok j (by omega) hjl)]
    simp [List.range'_succ, Nat.add_assoc, List.append_assoc]

theorem loop_fail (file : CCryFile) (pReqs : List RequestInfo) (n i size : Nat)
    (ops : List FileOp) (hlen : i + n = pReqs.length) (k : Nat) (hik : i ≤ k)
    (hk : k < pReqs.length)
    (hok : ∀ j, i ≤ j → j < k → requestFails file pReqs j = false)
    (hfail : requestFails file pReqs k = true) :
    LoadMipsFromRequests_loop file pReqs n i size ops =
      (0, ops ++ (List.range' i (k - i)).flatMap (opsAt file pReqs) ++
        failingOpsAt file pReqs k) := by
  induction n generalizing i size ops with
  | zero => omega
  | succ n ih =>
    rcases Nat.eq_or_lt_of_le hik with heq | hlt
    · subst heq
      rw [loop_step_fail file pReqs n i size ops hk hfail]
      simp
    · rw [loop_step_ok file pReqs n i size ops (by omega) (hok i (Nat.le_refl i) hlt),
        ih (i + 1) _ _ (by omega) (by omega) (fun j hj hjk => hok j (by omega) hjk)]
      have hki : k - i = (k - (i + 1)) + 1 := by omega
      rw [hki, List.range'_succ]
      simp [List.append_assoc]

end DDSSplitted

namespace DDSSplitted

theorem LoadMipsFromRequests_ok (file : CCryFile) (pReqs : List RequestInfo)
    (hok : ∀ k, k < pReqs.length → requestFails file pReqs k = false) :
    LoadMipsFromRequests file pReqs =
      (((List.range pReqs.length).map (readAt file pReqs)).sum,
        (List.range pReqs.length).flatMap (opsAt file pReqs)) := by
  unfold LoadMipsFromRequests
  rw [loop_ok file pReqs pReqs.length 0 0 [] (by omega) (fun j _ hj => hok j hj)]
  simp [List.range_eq_range']

theorem LoadMipsFromRequests_first_failure (file : CCryFile) (pReqs : List RequestInfo)
    (k : Nat) (hk : k < pReqs.length)
    (hok : ∀ j, j < k → requestFails file pReqs j = false)
    (hfail : requestFails file pReqs k = true) :
    LoadMipsFromRequests file pReqs =
      (0, (List.range k).flatMap (opsAt file pReqs) ++ failingOpsAt file pReqs k) := by
  unfold LoadMipsFromRequests
  rw [loop_fail file pReqs pReqs.length 0 0 [] (by omega) k (Nat.zero_le k) hk
    (fun j _ hj => hok j hj) hfail]
  simp [List.range_eq_range']

theorem exists_first_failure (file : CCryFile) (pReqs : List RequestInfo)
    (h : ∃ k, k < pReqs.length ∧ requestFails file pReqs k = true) :
    ∃ k, k < pReqs.length ∧ requestFails file pReqs k = true ∧
      ∀ j, j < k → requestFails file pReqs j = false := by
  classical
  refine ⟨Nat.find h, (Nat.find_spec h).1, (Nat.find_spec h).2, ?_⟩
  intro j hj
  have hmin := Nat.find_min h hj
  have hjlt : j < pReqs.length := Nat.lt_trans hj (Nat.find_spec h).1
  cases hf : requestFails file pReqs j with
  | false => rfl
  | true => exact absurd ⟨hjlt, hf⟩ hmin

theorem readAt_pos (file : CCryFile) (pReqs : List RequestInfo) (k : Nat)
    (hk : k < pReqs.length) (hok : requestFails file pReqs k = false) :
    0 < readAt file pReqs k := by
  have hreq : pReqs[k]? = some pReqs[k] := List.getElem?_eq_getElem hk
  simp only [requestFails, hreq, Bool.or_eq_false_iff, beq_eq_false_iff_ne, ne_eq] at hok
  simp only [readAt, hreq]
  omega

/-- C12 (as the code has it): `LoadMipsFromRequests` returns the failure result 0 whenever a
request's file has to be opened and the open fails, or a request's read returns zero bytes.
A read that returns some but not all of the requested bytes does not end the batch: when
every open succeeds and every read returns at least one byte, the result is the sum of the
bytes actually read, which is not 0 for a non-empty batch. -/
theorem LoadMipsFromRequests_failure (file : CCryFile) (pReqs : List RequestInfo) :
    ((∃ k, k < pReqs.length ∧ requestFails file pReqs k = true) →
        (LoadMipsFromRequests file pReqs).1 = 0) ∧
      ((∀ k, k < pReqs.length → requestFails file pReqs k = false) →
        (LoadMipsFromRequests file pReqs).1 =
            ((List.range pReqs.length).map (readAt file pReqs)).sum ∧
          (pReqs ≠ [] → (LoadMipsFromRequests file pReqs).1 ≠ 0)) := by
  constructor
  · intro h
    obtain ⟨k, hk, hfail, hok⟩ := exists_first_failure file pReqs h
    rw [LoadMipsFromRequests_first_failure file pReqs k hk hok hfail]
  · intro hok
    rw [LoadMipsFromRequests_ok file pReqs hok]
    refine ⟨rfl, ?_⟩
    intro hne
    have hlen : 0 < pReqs.length := List.length_pos.2 hne
    have hpos := readAt_pos file pReqs 0 hlen (hok 0 hlen)
    have hmem : readAt file pReqs 0 ∈ (List.range pReqs.length).map (readAt file pReqs) :=
      List.mem_map.2 ⟨0, List.mem_range.2 hlen, rfl⟩
    have hle := List.single_le_sum (fun x _ => Nat.zero_le x) _ hmem
    simp only
    omega

/-- Witness for `LoadMipsFromRequests_failure`: a first read of 1 byte out of 16 followed by
a complete read of 4 bytes yields 5. -/
theorem LoadMipsFromRequests_failure_witness :
    (∀ k, k < exampleRequests.length → requestFails shortReadFile exampleRequests k = false) ∧
      (LoadMipsFromRequests shortReadFile exampleRequests).1 =
        ((List.range exampleRequests.length).map (readAt shortReadFile exampleRequests)).sum :=
  ⟨by decide,
    ((LoadMipsFromRequests_failure shortReadFile exampleRequests).2 (by decide)).1⟩

/-- C12 as stated fails: a read that returns 1 of the 16 requested bytes is not fatal; the
batch goes on and the function returns 5, the bytes actually read. -/
theorem LoadMipsFromRequests_short_read :
    LoadMipsFromRequests shortReadFile exampleRequests =
      (5, [FileOp.open 0 "base" true, FileOp.seek 0 349632, FileOp.read 0 0 16 1,
        FileOp.seek 1 349648, FileOp.read 1 16 4 4]) := by
  decide

end DDSSplitted

namespace DDSSplitted

theorem opsAt_index (file : CCryFile) (pReqs : List RequestInfo) (i : Nat) (op : FileOp)
    (h : op ∈ opsAt file pReqs i) : op.index = i := by
  unfold opsAt at h
  cases hreq : pReqs[i]? with
  | none => simp [hreq] at h
  | some req =>
    simp only [hreq] at h
    by_cases hn : needsOpen pReqs i req = true
    · simp only [hn, if_true, List.mem_append, List.mem_cons, List.mem_singleton,
        List.not_mem_nil, or_false] at h
      rcases h with h | h | h <;> rw [h] <;> rfl
    · simp only [hn, if_false, Bool.false_eq_true, List.nil_append, List.mem_cons,
        List.mem_singleton, List.not_mem_nil, or_false] at h
      rcases h with h | h <;> rw [h] <;> rfl

theorem failingOpsAt_index (file : CCryFile) (pReqs : List RequestInfo) (i : Nat)
    (op : FileOp) (h : op ∈ failingOpsAt file pReqs i) : op.index = i := by
  unfold failingOpsAt at h
  cases hreq : pReqs[i]? with
  | none => simp [hreq] at h
  | some req =>
    simp only [hreq] at h
    split_ifs at h with h1 h2
    · simp only [List.mem_singleton] at h
      rw [h]; rfl
    · simp only [List.mem_append, List.mem_cons, List.mem_singleton, List.not_mem_nil,
        or_false] at h
      rcases h with h | h | h <;> rw [h] <;> rfl
    · simp only [List.nil_append, List.mem_cons, List.mem_singleton, List.not_mem_nil,
        or_false] at h
      rcases h with h | h <;> rw [h] <;> rfl

/-- C14: `LoadMipsFromRequests` is fail-fast. If request `k` is the first whose open fails or
whose read returns zero bytes, the function returns 0, the calls it made are those of the
requests before `k` followed by the calls for `k` up to the failing one, and no open, seek
or read is made for a later request. If no request fails, it returns the sum over all
requests of the bytes read. -/
theorem LoadMipsFromRequests_fail_fast (file : CCryFile) (pReqs : List RequestInfo) :
    (∀ k, k < pReqs.length → (∀ j, j < k → requestFails file pReqs j = false) →
        requestFails file pReqs k = true →
        (LoadMipsFromRequests file pReqs).1 = 0 ∧
          (LoadMipsFromRequests file pReqs).2 =
            (List.range k).flatMap (opsAt file pReqs) ++ failingOpsAt file pReqs k ∧
          ∀ op ∈ (LoadMipsFromRequests file pReqs).2, op.index ≤ k) ∧
      ((∀ k, k < pReqs.length → requestFails file pReqs k = false) →
        (LoadMipsFromRequests file pReqs).1 =
          ((List.range pReqs.length).map (readAt file pReqs)).sum) := by
  constructor
  · intro k hk hok hfail
    rw [LoadMipsFromRequests_first_failure file pReqs k hk hok hfail]
    refine ⟨rfl, rfl, ?_⟩
    intro op hop
    simp only [List.mem_append, List.mem_flatMap, List.mem_range] at hop
    rcases hop with ⟨j, hj, hmem⟩ | hmem
    · rw [opsAt_index file pReqs j op hmem]
      omega
    · rw [failingOpsAt_index file pReqs k op hmem]
  · intro hok
    rw [LoadMipsFromRequests_ok file pReqs hok]

end DDSSplitted

namespace DDSSplitted

/-- Witness for `LoadMipsFromRequests_fail_fast`: the read for request 1 of 3 returns zero
bytes. -/
theorem LoadMipsFromRequests_fail_fast_witness :
    1 < exampleRequests3.length ∧
      (∀ j, j < 1 → requestFails zeroReadFile exampleRequests3 j = false) ∧
      requestFails zeroReadFile exampleRequests3 1 = true ∧
      (LoadMipsFromRequests zeroReadFile exampleRequests3).1 = 0 ∧
      (LoadMipsFromRequests zeroReadFile exampleRequests3).2 =
        (List.range 1).flatMap (opsAt zeroReadFile exampleRequests3) ++
          failingOpsAt zeroReadFile exampleRequests3 1 ∧
      ∀ op ∈ (LoadMipsFromRequests zeroReadFile exampleRequests3).2, op.index ≤ 1 :=
  ⟨by decide, by decide, by decide,
    (LoadMipsFromRequests_fail_fast zeroReadFile exampleRequests3).1 1 (by decide) (by decide)
      (by decide)⟩

theorem trace_cases (file : CCryFile) (pReqs : List RequestInfo) :
    (LoadMipsFromRequests file pReqs).2 = (List.range pReqs.length).flatMap (opsAt file pReqs) ∨
      ∃ k, k < pReqs.length ∧ (LoadMipsFromRequests file pReqs).2 =
        (List.range k).flatMap (opsAt file pReqs) ++ failingOpsAt file pReqs k := by
  by_cases h : ∃ k, k < pReqs.length ∧ requestFails file pReqs k = true
  · obtain ⟨k, hk, hfail, hok⟩ := exists_first_failure file pReqs h
    right
    exact ⟨k, hk, by rw [LoadMipsFromRequests_first_failure file pReqs k hk hok hfail]⟩
  · left
    have hok : ∀ k, k < pReqs.length → requestFails file pReqs k = false := by
      intro k hk
      cases hf : requestFails file pReqs k with
      | false => rfl
      | true => exact absurd ⟨k, hk, hf⟩ h
    rw [LoadMipsFromRequests_ok file pReqs hok]

theorem open_mem_opsAt (file : CCryFile) (pReqs : List RequestInfo) (j i : Nat)
    (name : String) (ok : Bool) (h : FileOp.open i name ok ∈ opsAt file pReqs j) :
    ∃ req, pReqs[i]? = some req ∧ name = req.fileName ∧ needsOpen pReqs i req = true := by
  unfold opsAt at h
  cases hreq : pReqs[j]? with
  | none => simp [hreq] at h
  | some req =>
    simp only [hreq] at h
    by_cases hn : needsOpen pReqs j req = true
    · simp only [hn, if_true, List.mem_append, List.mem_cons, List.mem_singleton,
        List.not_mem_nil, or_false, FileOp.open.injEq, reduceCtorEq] at h
      obtain ⟨hi, hname, _⟩ := h
      subst hi
      exact ⟨req, hreq, hname, hn⟩
    · simp [hn] at h

theorem open_mem_failingOpsAt (file : CCryFile) (pReqs : List RequestInfo) (j i : Nat)
    (name : String) (ok : Bool) (h : FileOp.open i name ok ∈ failingOpsAt file pReqs j) :
    ∃ req, pReqs[i]? = some req ∧ name = req.fileName ∧ needsOpen pReqs i req = true := by
  unfold failingOpsAt at h
  cases hreq : pReqs[j]? with
  | none => simp [hreq] at h
  | some req =>
    simp only [hreq] at h
    split_ifs at h with h1 h2
    · simp only [List.mem_singleton, FileOp.open.injEq] at h
      obtain ⟨hi, hname, _⟩ := h
      subst hi
      simp only [Bool.and_eq_true] at h1
      exact ⟨req, hreq, hname, h1.1⟩
    · simp only [List.mem_append, List.mem_cons, List.mem_singleton, List.not_mem_nil,
        or_false, FileOp.open.injEq, reduceCtorEq] at h
      obtain ⟨hi, hname, _⟩ := h
      subst hi
      exact ⟨req, hreq, hname, h2⟩
    · simp at h

theorem destutter_drop (pReqs : List RequestInfo) (n i : Nat) (hlen : i + n = pReqs.length)
    (hi : 1 ≤ i) (p : String) (hp : pReqs[i - 1]?.map (fun r => r.fileName) = some p) :
    List.destutter' (fun a b : String => a ≠ b) p ((pReqs.drop i).map (fun r => r.fileName)) =
      p :: (List.range' i n).flatMap (fun j =>
        match pReqs[j]? with
        | none => []
        | some req => if needsOpen pReqs j req then [req.fileName] else []) := by
  induction n generalizing i p with
  | zero =>
    have hd : pReqs.drop i = [] := List.drop_eq_nil_of_le (by omega)
    simp [hd]
  | succ n ih =>
    have hil : i < pReqs.length := by omega
    have hreq : pReqs[i]? = some pReqs[i] := List.getElem?_eq_getElem hil
    have hnext : pReqs[i + 1 - 1]?.map (fun r => r.fileName) = some pReqs[i].fileName := by
      simp [hreq]
    have hrec := ih (i + 1) (by omega) (by omega) pReqs[i].fileName hnext
    rw [List.drop_eq_getElem_cons hil, List.map_cons, List.range'_succ, List.flatMap_cons]
    have hi0 : (i == 0) = false := by
      simp only [beq_eq_false_iff_ne, ne_eq]; omega
    by_cases hne : p ≠ pReqs[i].fileName
    · rw [List.destutter'_cons_pos _ hne, hrec]
      have hn : needsOpen pReqs i pReqs[i] = true := by
        simp only [needsOpen, hi0, hp, Bool.false_or, bne_iff_ne, ne_eq, Option.some.injEq]
        exact hne
      simp [hreq, hn]
    · rw [List.destutter'_cons_neg _ hne]
      have heq : p = pReqs[i].fileName := not_not.1 hne
      have hn : needsOpen pReqs i pReqs[i] = false := by
        simp only [needsOpen, hi0, hp, Bool.false_or, heq, bne_self_eq_false]
      rw [heq, hrec]
      simp [hreq, hn]

theorem opened_names (file : CCryFile) (pReqs : List RequestInfo) :
    ((List.range pReqs.length).flatMap (opsAt file pReqs)).filterMap FileOp.openedName =
      (pReqs.map (fun r => r.fileName)).destutter (fun a b : String => a ≠ b) := by
  have hflat : ∀ l : List Nat,
      (l.flatMap (opsAt file pReqs)).filterMap FileOp.openedName =
        l.flatMap (fun j =>
          match pReqs[j]? with
          | none => []
          | some req => if needsOpen pReqs j req then [req.fileName] else []) := by
    intro l
    induction l with
    | nil => rfl
    | cons j l ih =>
      simp only [List.flatMap_cons, List.filterMap_append, ih]
      congr 1
      unfold opsAt
      cases hreq : pReqs[j]? with
      | none => rfl
      | some req =>
        by_cases hn : needsOpen pReqs j req = true
        · simp [hn, FileOp.openedName]
        · simp [hn, FileOp.openedName]
  rw [hflat]
  cases hp : pReqs with
  | nil => rfl
  | cons r rest =>
    rw [← hp]
    have hlen : pReqs.length = rest.length + 1 := by rw [hp]; rfl
    have h0 : pReqs[0]? = some r := by rw [hp]; simp
    have hd := destutter_drop pReqs rest.length 1 (by omega) (Nat.le_refl 1) r.fileName
      (by simp [h0])
    have hdrop : pReqs.drop 1 = rest := by rw [hp]; rfl
    rw [hdrop] at hd
    have hmap : pReqs.map (fun r => r.fileName) = r.fileName :: rest.map (fun r => r.fileName) := by
      rw [hp]; rfl
    rw [hmap, List.destutter_cons', hd, hlen, List.range_eq_range', List.range'_succ,
      List.flatMap_cons]
    simp [h0, needsOpen]

end DDSSplitted

namespace DDSSplitted

/-- C13: `LoadMipsFromRequests` calls `Open` only while serving a request `i` for which
`i == 0` or the file name differs from that of request `i - 1`, and with that request's file
name. Absent failures it does so for every such request: the opened file names, in order,
are the request file names with adjacent duplicates collapsed, so consecutive requests
sharing a name are served without a new open. -/
theorem LoadMipsFromRequests_opens (file : CCryFile) (pReqs : List RequestInfo) :
    (∀ (i : Nat) (name : String) (ok : Bool),
        FileOp.open i name ok ∈ (LoadMipsFromRequests file pReqs).2 →
        ∃ req, pReqs[i]? = some req ∧ name = req.fileName ∧ needsOpen pReqs i req = true) ∧
      ((∀ k, k < pReqs.length → requestFails file pReqs k = false) →
        (∀ (i : Nat) (req : RequestInfo), pReqs[i]? = some req →
          needsOpen pReqs i req = true →
          FileOp.open i req.fileName true ∈ (LoadMipsFromRequests file pReqs).2) ∧
        (LoadMipsFromRequests file pReqs).2.filterMap FileOp.openedName =
          (pReqs.map (fun r => r.fileName)).destutter (fun a b : String => a ≠ b)) := by
  constructor
  · intro i name ok hmem
    rcases trace_cases file pReqs with h | ⟨k, _, h⟩
    · rw [h] at hmem
      obtain ⟨j, _, hj⟩ := List.mem_flatMap.1 hmem
      exact open_mem_opsAt file pReqs j i name ok hj
    · rw [h] at hmem
      rcases List.mem_append.1 hmem with hm | hm
      · obtain ⟨j, _, hj⟩ := List.mem_flatMap.1 hm
        exact open_mem_opsAt file pReqs j i name ok hj
      · exact open_mem_failingOpsAt file pReqs k i name ok hm
  · intro hok
    rw [LoadMipsFromRequests_ok file pReqs hok]
    refine ⟨?_, opened_names file pReqs⟩
    intro i req hreq hn
    have hi : i < pReqs.length := by
      by_contra hge
      rw [List.getElem?_eq_none (by omega)] at hreq
      exact Option.noConfusion hreq
    apply List.mem_flatMap.2
    refine ⟨i, List.mem_range.2 hi, ?_⟩
    simp [opsAt, hreq, hn]

/-- Witness for `LoadMipsFromRequests_opens`: three requests, the first two for the same
file, open two files. -/
theorem LoadMipsFromRequests_opens_witness :
    (∀ k, k < exampleRequests3.length →
        requestFails completeFile exampleRequests3 k = false) ∧
      (LoadMipsFromRequests completeFile exampleRequests3).2.filterMap FileOp.openedName =
        (exampleRequests3.map (fun r => r.fileName)).destutter (fun a b : String => a ≠ b) :=
  ⟨by decide,
    ((LoadMipsFromRequests_opens completeFile exampleRequests3).2 (by decide)).2⟩

end DDSSplitted

namespace CImageFile

/-! ## `PostLoad` -/

theorem foldl_mfFree_image (l : List Nat) (img : CImageFile) :
    (l.foldl mfFree_image img).m_pByteImage =
        (fun k => if k ∈ l then false else img.m_pByteImage k) ∧
      (l.foldl mfFree_image img).m_ImgSize = img.m_ImgSize ∧
      (l.foldl mfFree_image img).m_eError = img.m_eError ∧
      (l.foldl mfFree_image img).m_pFileMemory = img.m_pFileMemory := by
  induction l generalizing img with
  | nil => simp
  | cons a l ih =>
    simp only [List.foldl_cons]
    obtain ⟨h1, h2, h3, h4⟩ := ih (mfFree_image img a)
    refine ⟨?_, h2, h3, h4⟩
    rw [h1]
    funext k
    simp only [mfFree_image, List.mem_cons]
    by_cases hk : k ∈ l
    · simp [hk]
    · by_cases hka : k = a
      · simp [hka]
      · simp [hk, hka]

theorem mfGet_mfFree (alloc : Nat → Bool) (img : CImageFile) (nS : Nat) :
    mfGet_image alloc (mfFree_image img nS) nS =
      { img with m_pByteImage := fun k => if k = nS then alloc nS else img.m_pByteImage k } := by
  simp only [mfGet_image, mfFree_image, if_true, Bool.false_eq_true, if_false]
  congr 1
  funext k
  by_cases hk : k = nS <;> simp [hk]

theorem PostLoad_loop_fail (alloc : Nat → Bool) (n nS k : Nat) (img : CImageFile)
    (hnk : nS ≤ k) (hk : k < nS + n) (hok : ∀ j, nS ≤ j → j < k → alloc j = true)
    (hfail : alloc k = false) :
    (PostLoad_loop alloc n nS img).2 = false ∧
      (∀ j, j ≤ k → (PostLoad_loop alloc n nS img).1.m_pByteImage j = false) ∧
      (PostLoad_loop alloc n nS img).1.m_ImgSize = 0 ∧
      (PostLoad_loop alloc n nS img).1.m_eError = EImFileError.eIFE_OutOfMemory ∧
      (PostLoad_loop alloc n nS img).1.m_pFileMemory = img.m_pFileMemory := by
  induction n generalizing nS img with
  | zero => omega
  | succ n ih =>
    rcases Nat.eq_or_lt_of_le hnk with heq | hlt
    · subst heq
      have hloop : PostLoad_loop alloc (n + 1) nS img =
          (mfSet_error (mfSet_ImageSize ((List.range nS).foldl mfFree_image
            { img with m_pByteImage := fun k => if k = nS then false else img.m_pByteImage k })
            0) EImFileError.eIFE_OutOfMemory, false) := by
        rw [PostLoad_loop, mfGet_mfFree]
        simp [hfail]
      obtain ⟨h1, _, _, h4⟩ := foldl_mfFree_image (List.range nS)
        { img with m_pByteImage := fun k => if k = nS then false else img.m_pByteImage k }
      rw [hloop]
      refine ⟨rfl, ?_, rfl, rfl, ?_⟩
      · intro j hj
        simp only [mfSet_error, mfSet_ImageSize, h1, List.mem_range]
        by_cases hjn : j < nS
        · simp [hjn]
        · have : j = nS := by omega
          simp [this]
      · simp only [mfSet_error, mfSet_ImageSize, h4]
    · have hal : alloc nS = true := hok nS (Nat.le_refl nS) hlt
      have hloop : PostLoad_loop alloc (n + 1) nS img =
          PostLoad_loop alloc n (nS + 1)
            { img with m_pByteImage := fun k => if k = nS then true else img.m_pByteImage k } := by
        rw [PostLoad_loop, mfGet_mfFree]
        simp [hal]
      rw [hloop]
      exact ih (nS + 1) _ (by omega) (by omega) (fun j hj hjk => hok j (by omega) hjk)

theorem PostLoad_loop_ok (alloc : Nat → Bool) (n nS : Nat) (img : CImageFile)
    (hok : ∀ j, nS ≤ j → j < nS + n → alloc j = true) :
    (PostLoad_loop alloc n nS img).2 = true ∧
      (∀ j, nS ≤ j → j < nS + n → (PostLoad_loop alloc n nS img).1.m_pByteImage j = true) ∧
      (∀ j, j < nS → (PostLoad_loop alloc n nS img).1.m_pByteImage j = img.m_pByteImage j) ∧
      (PostLoad_loop alloc n nS img).1.m_pFileMemory = false ∧
      (PostLoad_loop alloc n nS img).1.m_ImgSize = img.m_ImgSize ∧
      (PostLoad_loop alloc n nS img).1.m_eError = img.m_eError := by
  induction n generalizing nS img with
  | zero =>
    refine ⟨rfl, ?_, ?_, rfl, rfl, rfl⟩
    · intro j h1 h2; omega
    · intro j _; rfl
  | succ n ih =>
    have hal : alloc nS = true := hok nS (Nat.le_refl nS) (by omega)
    have hloop : PostLoad_loop alloc (n + 1) nS img =
        PostLoad_loop alloc n (nS + 1)
          { img with m_pByteImage := fun k => if k = nS then true else img.m_pByteImage k } := by
      rw [PostLoad_loop, mfGet_mfFree]
      simp [hal]
    rw [hloop]
    obtain ⟨h1, h2, h3, h4, h5, h6⟩ := ih (nS + 1)
      { img with m_pByteImage := fun k => if k = nS then true else img.m_pByteImage k }
      (fun j hj hjn => hok j (by omega) (by omega))
    refine ⟨h1, ?_, ?_, h4, h5, h6⟩
    · intro j hj hjn
      rcases Nat.eq_or_lt_of_le hj with heq | hlt
      · rw [h3 j (by omega)]
        simp [heq]
      · exact h2 j (by omega) (by omega)
    · intro j hj
      rw [h3 j (by omega)]
      have : j ≠ nS := by omega
      simp [this]

/-- C19: if during `PostLoad` the allocation for face `k` is the first to fail, `PostLoad`
returns false, no face of `0..k` is left materialized, the image size is 0 and the recorded
error is `eIFE_OutOfMemory`; if no allocation fails it returns true with every face
materialized and the file memory released. -/
theorem PostLoad_rollback (alloc : Nat → Bool) (m_Sides : Nat) (img : CImageFile) :
    (∀ k, k < m_Sides → (∀ j, j < k → alloc j = true) → alloc k = false →
        (PostLoad alloc m_Sides img).2 = false ∧
          (∀ j, j ≤ k → (PostLoad alloc m_Sides img).1.m_pByteImage j = false) ∧
          (PostLoad alloc m_Sides img).1.m_ImgSize = 0 ∧
          (PostLoad alloc m_Sides img).1.m_eError = EImFileError.eIFE_OutOfMemory) ∧
      ((∀ j, j < m_Sides → alloc j = true) →
        (PostLoad alloc m_Sides img).2 = true ∧
          (∀ j, j < m_Sides → (PostLoad alloc m_Sides img).1.m_pByteImage j = true) ∧
          (PostLoad alloc m_Sides img).1.m_pFileMemory = false) := by
  constructor
  · intro k hk hok hfail
    obtain ⟨h1, h2, h3, h4, _⟩ := PostLoad_loop_fail alloc m_Sides 0 k img (Nat.zero_le k)
      (by omega) (fun j _ hj => hok j hj) hfail
    exact ⟨h1, h2, h3, h4⟩
  · intro hok
    obtain ⟨h1, h2, _, h4, _, _⟩ := PostLoad_loop_ok alloc m_Sides 0 img
      (fun j _ hj => hok j (by omega))
    exact ⟨h1, fun j hj => h2 j (Nat.zero_le j) (by omega), h4⟩

/-- Witness for `PostLoad_rollback`: of six faces the allocation for face 2 fails. -/
theorem PostLoad_rollback_witness :
    2 < 6 ∧ (∀ j, j < 2 → (fun n : Nat => decide (n ≠ 2)) j = true) ∧
      (fun n : Nat => decide (n ≠ 2)) 2 = false ∧
      (PostLoad (fun n => decide (n ≠ 2)) 6 exampleLoaded).2 = false ∧
      (∀ j, j ≤ 2 →
        (PostLoad (fun n => decide (n ≠ 2)) 6 exampleLoaded).1.m_pByteImage j = false) ∧
      (PostLoad (fun n => decide (n ≠ 2)) 6 exampleLoaded).1.m_ImgSize = 0 ∧
      (PostLoad (fun n => decide (n ≠ 2)) 6 exampleLoaded).1.m_eError =
        EImFileError.eIFE_OutOfMemory :=
  ⟨by decide, by decide, by decide,
    (PostLoad_rollback (fun n => decide (n ≠ 2)) 6 exampleLoaded).1 2 (by decide) (by decide)
      (by decide)⟩

end CImageFile

namespace StreamingImage

/-! ## `StreamAsyncOnComplete` -/

theorem issueReads_no_raise (n : Nat) : (issueReads n).filter StreamEvent.isRaise = [] := by
  unfold issueReads
  induction List.range n with
  | nil => rfl
  | cons a l ih =>
    simp only [List.flatMap_cons, List.filter_append, ih, List.append_nil]
    rfl

theorem handler_continuation_ok (alloc : Nat → Bool) (loadFromFile : Option LoadOutcome)
    (img : StreamingImage) (t : Nat) (ht : t ≠ 0) :
    (StreamAsyncOnComplete alloc loadFromFile img t 0).1.m_nPending = img.m_nPending - 1 ∧
      (StreamAsyncOnComplete alloc loadFromFile img t 0).2 =
        if img.m_nPending - 1 = 0 then
          [StreamEvent.memcpy t,
            StreamEvent.PostLoad (CImageFile.PostLoad alloc img.m_Sides img.file).2,
            StreamEvent.RaiseComplete true, StreamEvent.Release]
        else [StreamEvent.memcpy t, StreamEvent.Release] := by
  by_cases hp : img.m_nPending - 1 = 0
  · simp [StreamAsyncOnComplete, ht, hp]
  · simp [StreamAsyncOnComplete, ht, hp]

theorem handler_error (alloc : Nat → Bool) (loadFromFile : Option LoadOutcome)
    (img : StreamingImage) (t nError : Nat) (he : nError ≠ 0) :
    (StreamAsyncOnComplete alloc loadFromFile img t nError).1.m_nPending = img.m_nPending - 1 ∧
      (StreamAsyncOnComplete alloc loadFromFile img t nError).2 =
        [StreamEvent.RaiseComplete false, StreamEvent.Release] := by
  simp [StreamAsyncOnComplete, he]

theorem handler_initial_ok (alloc : Nat → Bool) (out : LoadOutcome) (img : StreamingImage) :
    (StreamAsyncOnComplete alloc (some out) img 0 0).1.m_nPending =
        (if out.nOtherMips ≠ 0 then (out.nOtherMips : Int) else img.m_nPending - 1) ∧
      (StreamAsyncOnComplete alloc (some out) img 0 0).2 =
        if out.nOtherMips ≠ 0 then issueReads out.nOtherMips ++ [StreamEvent.Release]
        else
          [StreamEvent.PostLoad (CImageFile.PostLoad alloc out.m_Sides
              { img.file with m_pFileMemory := true, m_ImgSize := out.m_ImgSize }).2,
            StreamEvent.RaiseComplete true, StreamEvent.Release] := by
  by_cases hn : out.nOtherMips = 0
  · simp [StreamAsyncOnComplete, hn]
  · simp [StreamAsyncOnComplete, hn]

theorem continuations_raise_once (alloc : Nat → Bool) (loadFromFile : Option LoadOutcome)
    (l : List Nat) (img : StreamingImage) (hl : l ≠ [])
    (hp : img.m_nPending = (l.length : Int)) (ht : ∀ t ∈ l, t ≠ 0) :
    (handleAll alloc loadFromFile img
        (l.map (fun t => ({ dwUserData := t, nError := 0 } : Completion)))).2.map
        (fun evs => evs.filter StreamEvent.isRaise) =
      List.replicate (l.length - 1) [] ++ [[StreamEvent.RaiseComplete true]] := by
  induction l generalizing img with
  | nil => exact absurd rfl hl
  | cons t rest ih =>
    have ht0 : t ≠ 0 := ht t (List.mem_cons_self t rest)
    obtain ⟨hpend, hev⟩ := handler_continuation_ok alloc loadFromFile img t ht0
    simp only [List.map_cons, handleAll, List.length_cons, Nat.add_sub_cancel]
    rw [hev]
    by_cases hrest : rest = []
    · subst hrest
      have h0 : img.m_nPending - 1 = 0 := by
        rw [hp]; simp
      simp [h0, handleAll, StreamEvent.isRaise]
    · have hlen : 0 < rest.length := List.length_pos.2 hrest
      have hne : ¬ (img.m_nPending - 1 = 0) := by
        rw [hp]
        simp only [List.length_cons, Nat.cast_add, Nat.cast_one, add_sub_cancel_right]
        omega
      have hih := ih (StreamAsyncOnComplete alloc loadFromFile img t 0).1 hrest
        (by rw [hpend, hp]; simp) (fun u hu => ht u (List.mem_cons_of_mem t hu))
      rw [hih]
      simp only [hne, if_false]
      have hrep : List.replicate rest.length ([] : List StreamEvent) =
          [] :: List.replicate (rest.length - 1) [] := by
        cases hr : rest.length with
        | zero => omega
        | succ m => rfl
      rw [hrep]
      simp [StreamEvent.isRaise]

/-- C16: when the initial read and all `N ≥ 0` continuation reads complete without error,
then for every arrival order of the continuations the handler calls raise the completion
callback exactly once, with the image object: of the `N + 1` handler calls the first `N`
raise nothing and the last one calls `RaiseComplete(this)` once. For `N = 0` that call is
the handler of the initial read, for `N ≥ 1` the handler of the last-arriving
continuation. -/
theorem stream_success_once (alloc : Nat → Bool) (out : LoadOutcome) (img : StreamingImage)
    (order : List Nat) (hperm : order.Perm (List.range' 1 out.nOtherMips)) :
    raisedBy alloc (some out) img
        (order.map (fun t => ({ dwUserData := t, nError := 0 } : Completion))) =
      List.replicate out.nOtherMips [] ++ [[StreamEvent.RaiseComplete true]] := by
  have hlen : order.length = out.nOtherMips := by
    rw [hperm.length_eq, List.length_range']
  have htags : ∀ t ∈ order, t ≠ 0 := by
    intro t ht
    have hmem := (hperm.mem_iff).1 ht
    rw [List.mem_range'_1] at hmem
    omega
  obtain ⟨hpend, hev⟩ := handler_initial_ok alloc out (Stream img).1
  unfold raisedBy
  simp only [handleAll, List.map_cons]
  rw [hev]
  by_cases hn : out.nOtherMips = 0
  · have horder : order = [] := List.length_eq_zero.1 (by omega)
    subst horder
    simp [hn, handleAll, StreamEvent.isRaise]
  · have hne : order ≠ [] := by
      intro h
      rw [h] at hlen
      simp at hlen
      omega
    have hrun := continuations_raise_once alloc (some out) order
      (StreamAsyncOnComplete alloc (some out) (Stream img).1 0 0).1 hne
      (by rw [hpend]; simp [hn, hlen]) htags
    rw [hrun, hlen]
    simp only [hn, ne_eq, not_false_eq_true, if_true, List.filter_append, issueReads_no_raise]
    have hrep : List.replicate out.nOtherMips ([] : List StreamEvent) =
        [] :: List.replicate (out.nOtherMips - 1) [] := by
      cases hr : out.nOtherMips with
      | zero => omega
      | succ m => rfl
    rw [hrep]
    simp [StreamEvent.isRaise]

end StreamingImage

namespace StreamingImage

/-- Witness for `stream_success_once`: two continuations arriving in the order 2, 1. -/
theorem stream_success_once_witness :
    [2, 1].Perm (List.range' 1 exampleOutcome2.nOtherMips) ∧
      raisedBy (fun _ => true) (some exampleOutcome2) exampleIdle
          ([2, 1].map (fun t => ({ dwUserData := t, nError := 0 } : Completion))) =
        List.replicate exampleOutcome2.nOtherMips [] ++ [[StreamEvent.RaiseComplete true]] :=
  ⟨List.Perm.swap 1 2 [],
    stream_success_once (fun _ => true) exampleOutcome2 exampleIdle [2, 1]
      (List.Perm.swap 1 2 [])⟩

/-- C15 fails on the code: of two continuation requests the first reports an I/O error and
arrives first, the second succeeds. The handler of the failed read calls
`RaiseComplete(nullptr)` while one read is still pending, and the handler of the second read
then calls `RaiseComplete(this)`: the callback is raised twice, the second time with
success. -/
theorem stream_error_raises_twice :
    raisedBy (fun _ => true) (some exampleOutcome2) exampleIdle
        [{ dwUserData := 1, nError := 1 }, { dwUserData := 2, nError := 0 }] =
      [[], [StreamEvent.RaiseComplete false], [StreamEvent.RaiseComplete true]] ∧
    ((handleAll (fun _ => true) (some exampleOutcome2) (Stream exampleIdle).1
        [{ dwUserData := 0, nError := 0 }, { dwUserData := 1, nError := 1 }]).1.m_nPending
      = 1) := by
  decide

/-- C17 fails on the code: when the initial read completes without I/O error and
`LoadFromFile` returns false, the handler only releases its reference. It calls
`RaiseComplete` neither with the image nor with `nullptr`, and it leaves the pending counter
at 0 with no read started, so no later handler call can raise the callback either. -/
theorem stream_header_failure_silent (alloc : Nat → Bool) (img : StreamingImage) :
    (StreamAsyncOnComplete alloc none (Stream img).1 0 0).2 = [StreamEvent.Release] ∧
      (StreamAsyncOnComplete alloc none (Stream img).1 0 0).1.m_nPending = 0 ∧
      raisedBy alloc none img [] = [[]] := by
  refine ⟨?_, ?_, ?_⟩
  · simp [StreamAsyncOnComplete]
  · simp [StreamAsyncOnComplete, Stream]
  · simp [raisedBy, handleAll, StreamAsyncOnComplete, StreamEvent.isRaise]

/-- C18 as stated fails: with no continuation request and a `PostLoad` whose allocation
fails, the handler of the initial read still calls `RaiseComplete(this)`. -/
theorem stream_postload_failure_delivered :
    (handleAll (fun _ => false) (some exampleOutcome0) (Stream exampleIdle).1
        [{ dwUserData := 0, nError := 0 }]).2 =
      [[StreamEvent.PostLoad false, StreamEvent.RaiseComplete true, StreamEvent.Release]] := by
  decide

/-- C18 (as the code has it): a handler call that completes the load after reads without
error calls `PostLoad` and then `RaiseComplete(this)` whatever `PostLoad` returns, both for
the initial read without continuation requests and for the last pending continuation; the
image it passes is the one `PostLoad` left behind. A null result is passed only by a handler
whose own read reported an I/O error. -/
theorem stream_delivers_image (alloc : Nat → Bool) (loadFromFile : Option LoadOutcome)
    (out : LoadOutcome) (img : StreamingImage) (t nError : Nat) :
    (out.nOtherMips = 0 →
        (StreamAsyncOnComplete alloc (some out) img 0 0).2 =
            [StreamEvent.PostLoad (CImageFile.PostLoad alloc out.m_Sides
                { img.file with m_pFileMemory := true, m_ImgSize := out.m_ImgSize }).2,
              StreamEvent.RaiseComplete true, StreamEvent.Release] ∧
          (StreamAsyncOnComplete alloc (some out) img 0 0).1.file =
            (CImageFile.PostLoad alloc out.m_Sides
              { img.file with m_pFileMemory := true, m_ImgSize := out.m_ImgSize }).1) ∧
      (t ≠ 0 → img.m_nPending = 1 →
        (StreamAsyncOnComplete alloc loadFromFile img t 0).2 =
            [StreamEvent.memcpy t,
              StreamEvent.PostLoad (CImageFile.PostLoad alloc img.m_Sides img.file).2,
              StreamEvent.RaiseComplete true, StreamEvent.Release] ∧
          (StreamAsyncOnComplete alloc loadFromFile img t 0).1.file =
            (CImageFile.PostLoad alloc img.m_Sides img.file).1) ∧
      (StreamEvent.RaiseComplete false ∈
          (StreamAsyncOnComplete alloc loadFromFile img t nError).2 → nError ≠ 0) := by
  refine ⟨?_, ?_, ?_⟩
  · intro hn
    simp [StreamAsyncOnComplete, hn]
  · intro ht hp
    simp [StreamAsyncOnComplete, ht, hp]
  · intro hmem hzero
    subst hzero
    by_cases ht : t = 0
    · subst ht
      cases loadFromFile with
      | none => simp [StreamAsyncOnComplete] at hmem
      | some o =>
        by_cases hn : o.nOtherMips = 0
        · simp [StreamAsyncOnComplete, hn] at hmem
        · have hev := (handler_initial_ok alloc o img).2
          rw [hev] at hmem
          simp only [hn, ne_eq, not_false_eq_true, if_true, List.mem_append,
            List.mem_singleton, reduceCtorEq, or_false] at hmem
          have hf : StreamEvent.RaiseComplete false ∈
              (issueReads o.nOtherMips).filter StreamEvent.isRaise :=
            List.mem_filter.2 ⟨hmem, rfl⟩
          rw [issueReads_no_raise] at hf
          exact List.not_mem_nil _ hf
    · have hev := (handler_continuation_ok alloc loadFromFile img t ht).2
      rw [hev] at hmem
      split_ifs at hmem <;> simp at hmem

/-- Witness for `stream_delivers_image`: the last pending continuation of a one-face image
whose allocation fails. -/
theorem stream_delivers_image_witness :
    (1 : Nat) ≠ 0 ∧
      ({ exampleIdle with m_nPending := 1 } : StreamingImage).m_nPending = 1 ∧
      (StreamAsyncOnComplete (fun _ => false) none
          { exampleIdle with m_nPending := 1 } 1 0).2 =
        [StreamEvent.memcpy 1,
          StreamEvent.PostLoad (CImageFile.PostLoad (fun _ => false)
            ({ exampleIdle with m_nPending := 1 } : StreamingImage).m_Sides
            ({ exampleIdle with m_nPending := 1 } : StreamingImage).file).2,
          StreamEvent.RaiseComplete true, StreamEvent.Release] :=
  ⟨by decide, rfl,
    ((stream_delivers_image (fun _ => false) none exampleOutcome0
      { exampleIdle with m_nPending := 1 } 1 0).2.1 (by decide) rfl).1⟩

end StreamingImage

namespace CImageDDSFile

/-! ## Rejected headers -/

theorem SetHeaderFromMemory_rejects (h : DDSHelpers) (fm : FlagMasks) (st : HeaderState)
    (dds : DDS_FILE_DESC) (ddx : DDS_HEADER_DXT10) (nFlags : Nat)
    (hbad : dds.IsValid h = false ∨
      h.GetFormatByDesc dds.header.ddspf ddx.dxgiFormat = h.eTF_Unknown) :
    (SetHeaderFromMemory h fm st dds ddx nFlags).2 = false ∧
      (SetHeaderFromMemory h fm st dds ddx nFlags).1.m_eError = EImFileError.eIFE_BadFormat := by
  by_cases hv : dds.IsValid h = true
  · have hfmt : h.GetFormatByDesc dds.header.ddspf ddx.dxgiFormat = h.eTF_Unknown := by
      rcases hbad with hb | hb
      · rw [hv] at hb; exact absurd hb (by decide)
      · exact hb
    simp [SetHeaderFromMemory, hv, hfmt]
  · simp [SetHeaderFromMemory, hv]

/-- C20: if the header is not valid (magic tag absent) or its pixel format resolves to
`eTF_Unknown`, `SetHeaderFromMemory` returns false with error `eIFE_BadFormat`, and
`LoadFromFile`, given such a header, returns false without planning chunks, without any
effect of the chunk loop, leaving the caller's `nConts` as it was and not setting the image
memory. -/
theorem LoadFromFile_bad_header (h : DDSHelpers) (fm : FlagMasks) (tds : TextureDataSizeFn)
    (cv : CRenderer) (st : HeaderState) (nFlags nConts0 : Nat) :
    (∀ (dds : DDS_FILE_DESC) (ddx : DDS_HEADER_DXT10),
        (dds.IsValid h = false ∨
          h.GetFormatByDesc dds.header.ddspf ddx.dxgiFormat = h.eTF_Unknown) →
        (SetHeaderFromMemory h fm st dds ddx nFlags).2 = false ∧
          (SetHeaderFromMemory h fm st dds ddx nFlags).1.m_eError =
            EImFileError.eIFE_BadFormat) ∧
      (∀ file : FileInput,
        ((headerRead fm file nFlags).IsValid h = false ∨
          h.GetFormatByDesc (headerRead fm file nFlags).header.ddspf
            file.ddsExtendedHeader.dxgiFormat = h.eTF_Unknown) →
        (LoadFromFile h fm tds cv st file nFlags nConts0).ret = false ∧
          (LoadFromFile h fm tds cv st file nFlags nConts0).chunks = [] ∧
          (LoadFromFile h fm tds cv st file nFlags nConts0).trace = [] ∧
          (LoadFromFile h fm tds cv st file nFlags nConts0).nConts = nConts0 ∧
          (LoadFromFile h fm tds cv st file nFlags nConts0).memorySet = none) := by
  constructor
  · intro dds ddx hbad
    exact SetHeaderFromMemory_rejects h fm st dds ddx nFlags hbad
  · intro file hbad
    unfold LoadFromFile
    by_cases hfv : file.IsValid = true
    · by_cases hseek : hasFlag nFlags fm.FIM_ALPHA ∧ ¬ hasFlag nFlags fm.FIM_SPLITTED ∧
          file.SeekToAttachedImage = false
      · simp [hfv, hseek]
      · by_cases hv : (headerRead fm file nFlags).IsValid h = true
        · have hrej := SetHeaderFromMemory_rejects h fm
            { st with img := { st.img with m_nStartSeek := file.Tell } }
            (headerRead fm file nFlags) file.ddsExtendedHeader nFlags hbad
          simp [hfv, hseek, hv, hrej.1]
        · simp [hfv, hseek, hv]
    · simp [hfv]

/-- Witness for `LoadFromFile_bad_header`: a file whose magic tag is wrong. -/
theorem LoadFromFile_bad_header_witness :
    ((headerRead exampleMasks exampleBadMagicFile 0).IsValid exampleHelpers = false ∨
        exampleHelpers.GetFormatByDesc (headerRead exampleMasks exampleBadMagicFile 0).header.ddspf
          exampleBadMagicFile.ddsExtendedHeader.dxgiFormat = exampleHelpers.eTF_Unknown) ∧
      (LoadFromFile exampleHelpers exampleMasks (TextureDataSize_uncompressed 4) exampleCVars
        exampleFresh exampleBadMagicFile 0 0).ret = false :=
  ⟨by decide,
    ((LoadFromFile_bad_header exampleHelpers exampleMasks (TextureDataSize_uncompressed 4)
      exampleCVars exampleFresh 0 0).2 exampleBadMagicFile (by decide)).1⟩

end CImageDDSFile

/-! ## The header reader: errors, persistent mips, dimensions, streamable flag -/

namespace CImageDDSFile

/-- Claim C21, failing input: for a normal-map format and the 256 x 256 header with nine
mips (last mip 1 x 1, narrower than 4 texels) `SetHeaderFromMemory` records
`eIFE_BadFormat` ("Texture has wrong number of mips") and nevertheless returns true, while
the two other error sites return false. -/
theorem SetHeaderFromMemory_normal_map_error_returns_true :
    (SetHeaderFromMemory exampleNormalMapHelpers exampleMasks exampleFresh
        { dwMagic := DDS_MAGIC, header := exampleHeader } { dxgiFormat := 0 } 0).2 = true ∧
      (SetHeaderFromMemory exampleNormalMapHelpers exampleMasks exampleFresh
        { dwMagic := DDS_MAGIC, header := exampleHeader } { dxgiFormat := 0 } 0).1.m_eError =
        EImFileError.eIFE_BadFormat ∧
      exampleFresh.m_eError = EImFileError.eIFE_OK ∧
      (SetHeaderFromMemory exampleNormalMapHelpers exampleMasks exampleFresh
        { dwMagic := 0, header := exampleHeader } { dxgiFormat := 0 } 0).2 = false ∧
      (SetHeaderFromMemory exampleNormalMapHelpers exampleMasks exampleFresh
        { dwMagic := DDS_MAGIC,
          header := { exampleHeader with ddspf := { exampleHeader.ddspf with dwFourCC := 0 } } }
        { dxgiFormat := 0 } 0).2 = false := by
  decide

end CImageDDSFile

theorem i8_le_self {y : Int} (hy : 0 ≤ y) : i8 y ≤ y := by
  unfold i8
  omega

theorem i8_of_small {y : Int} (h0 : -128 ≤ y) (h1 : y ≤ 127) : i8 y = y := by
  unfold i8
  omega

namespace CImageDDSFile

/-- The members `m_NumMips` and `m_NumPersistantMips` after a successful call. -/
theorem SetHeaderFromMemory_mips (h : DDSHelpers) (fm : FlagMasks) (st : HeaderState)
    (dds : DDS_FILE_DESC) (ddx : DDS_HEADER_DXT10) (nFlags : Nat)
    (hret : (SetHeaderFromMemory h fm st dds ddx nFlags).2 = true) :
    (SetHeaderFromMemory h fm st dds ddx nFlags).1.img.m_NumMips =
        (dds.header.GetMipCount : Int) ∧
      (SetHeaderFromMemory h fm st dds ddx nFlags).1.img.m_NumPersistantMips =
        clamp_to (if dds.header.dwTextureStage = h.CRYF then
            (dds.header.bNumPersistentMips : Int) else 0)
          h.etexNumLastMips (dds.header.GetMipCount : Int) := by
  by_cases hv : dds.IsValid h = true
  · by_cases hfmt : h.GetFormatByDesc dds.header.ddspf ddx.dxgiFormat = h.eTF_Unknown
    · simp [SetHeaderFromMemory, hv, hfmt] at hret
    · simp [SetHeaderFromMemory, hv, hfmt, DDS_HEADER.GetMipCount]
  · simp [SetHeaderFromMemory, hv] at hret

/-- Claim C22, counterexample: with `etexNumLastMips = 3`, the engine tag and a
persistent-mip byte of 1 in a header of nine mips, the call succeeds and stores 3 persistent
mips, not the byte clamped into [0, 9] (which is 1). -/
theorem SetHeaderFromMemory_persistent_lower_bound :
    (SetHeaderFromMemory exampleHelpers exampleMasks exampleFresh
        { dwMagic := DDS_MAGIC, header := exampleHeaderOnePersistent } { dxgiFormat := 0 } 0).2
        = true ∧
      (SetHeaderFromMemory exampleHelpers exampleMasks exampleFresh
        { dwMagic := DDS_MAGIC, header := exampleHeaderOnePersistent }
        { dxgiFormat := 0 } 0).1.img.m_NumPersistantMips = 3 ∧
      exampleHeaderOnePersistent.dwTextureStage = exampleHelpers.CRYF ∧
      min (max (exampleHeaderOnePersistent.bNumPersistentMips : Int) 0)
        (exampleHeaderOnePersistent.GetMipCount : Int) = 1 := by
  decide

/-- Claim C22 (amended): after `SetHeaderFromMemory` succeeds, the persistent-mip count is
the header's value (the byte under the engine tag `CRYF`, otherwise 0) raised to at least
`etexNumLastMips`, then lowered to at most the mip count, and converted to `int8`; it never
exceeds the mip count, also when the mip count is below `etexNumLastMips` (it then equals the
mip count, for chains of at most 127 mips), and for chains of `etexNumLastMips` to 127 mips
it is at least `etexNumLastMips`. -/
theorem SetHeaderFromMemory_persistent_clamped (h : DDSHelpers) (fm : FlagMasks)
    (st : HeaderState) (dds : DDS_FILE_DESC) (ddx : DDS_HEADER_DXT10) (nFlags : Nat)
    (hret : (SetHeaderFromMemory h fm st dds ddx nFlags).2 = true) :
    let out := (SetHeaderFromMemory h fm st dds ddx nFlags).1.img
    let v : Int := if dds.header.dwTextureStage = h.CRYF then
      (dds.header.bNumPersistentMips : Int) else 0
    out.m_NumPersistantMips = i8 (min (max v h.etexNumLastMips) out.m_NumMips) ∧
      out.m_NumPersistantMips ≤ out.m_NumMips ∧
      (out.m_NumMips ≤ 127 → out.m_NumMips < h.etexNumLastMips →
        out.m_NumPersistantMips = out.m_NumMips) ∧
      (out.m_NumMips ≤ 127 → h.etexNumLastMips ≤ out.m_NumMips →
        h.etexNumLastMips ≤ out.m_NumPersistantMips) := by
  obtain ⟨hm, hp⟩ := SetHeaderFromMemory_mips h fm st dds ddx nFlags hret
  have hm1 : (1 : Int) ≤ (dds.header.GetMipCount : Int) := by
    have : 1 ≤ dds.header.GetMipCount := by
      unfold DDS_HEADER.GetMipCount
      exact le_max_left _ _
    exact_mod_cast this
  have hv0 : (0 : Int) ≤ (if dds.header.dwTextureStage = h.CRYF then
      (dds.header.bNumPersistentMips : Int) else 0) := by
    split_ifs
    · exact Int.ofNat_nonneg _
    · exact le_refl _
  simp only [hm, hp, clamp_to]
  generalize (if dds.header.dwTextureStage = h.CRYF then
      (dds.header.bNumPersistentMips : Int) else 0) = v at hv0
  generalize (dds.header.GetMipCount : Int) = m at hm1
  have hy0 : 0 ≤ min (max v h.etexNumLastMips) m :=
    le_min (le_trans hv0 (le_max_left _ _)) (by omega)
  have hym : min (max v h.etexNumLastMips) m ≤ m := min_le_right _ _
  refine ⟨trivial, le_trans (i8_le_self hy0) hym, ?_, ?_⟩
  · intro h127 hlt
    have hy : min (max v h.etexNumLastMips) m = m :=
      min_eq_right (le_trans (le_of_lt hlt) (le_max_right _ _))
    rw [hy]
    exact i8_of_small (by omega) h127
  · intro h127 hle
    rw [i8_of_small (by omega) (by omega)]
    exact le_min (le_max_right _ _) hle

/-- Claim C22, witness: the example header (nine mips, persistent byte 3). -/
theorem SetHeaderFromMemory_persistent_clamped_witness :
    (SetHeaderFromMemory exampleHelpers exampleMasks exampleFresh
        { dwMagic := DDS_MAGIC, header := exampleHeader } { dxgiFormat := 0 } 0).2 = true ∧
      (SetHeaderFromMemory exampleHelpers exampleMasks exampleFresh
        { dwMagic := DDS_MAGIC, header := exampleHeader }
        { dxgiFormat := 0 } 0).1.img.m_NumPersistantMips ≤
      (SetHeaderFromMemory exampleHelpers exampleMasks exampleFresh
        { dwMagic := DDS_MAGIC, header := exampleHeader } { dxgiFormat := 0 } 0).1.img.m_NumMips :=
  ⟨by decide,
    (SetHeaderFromMemory_persistent_clamped exampleHelpers exampleMasks exampleFresh
      { dwMagic := DDS_MAGIC, header := exampleHeader } { dxgiFormat := 0 } 0
      (by decide)).2.1⟩

end CImageDDSFile

namespace CImageDDSFile

/-- The header extents and the image extents after `SetHeaderFromMemory` has read a valid
header, whether or not the pixel format is then resolved. -/
theorem SetHeaderFromMemory_stored_extents (h : DDSHelpers) (fm : FlagMasks)
    (st : HeaderState) (dds : DDS_FILE_DESC) (ddx : DDS_HEADER_DXT10) (nFlags : Nat)
    (hv : dds.IsValid h = true) :
    ((SetHeaderFromMemory h fm st dds ddx nFlags).1.m_DDSHeader.dwWidth =
        max 1 dds.header.dwWidth ∧
      (SetHeaderFromMemory h fm st dds ddx nFlags).1.m_DDSHeader.dwHeight =
        max 1 dds.header.dwHeight ∧
      (SetHeaderFromMemory h fm st dds ddx nFlags).1.m_DDSHeader.dwDepth =
        max 1 dds.header.dwDepth) ∧
      (SetHeaderFromMemory h fm st dds ddx nFlags).1.img.m_Width =
        i32 ((max 1 dds.header.dwWidth : Nat) : Int) ∧
      (SetHeaderFromMemory h fm st dds ddx nFlags).1.img.m_Height =
        i32 ((max 1 dds.header.dwHeight : Nat) : Int) ∧
      (SetHeaderFromMemory h fm st dds ddx nFlags).1.img.m_Depth =
        i32 ((max 1 dds.header.dwDepth : Nat) : Int) := by
  by_cases hfmt : h.GetFormatByDesc dds.header.ddspf ddx.dxgiFormat = h.eTF_Unknown
  · simp only [SetHeaderFromMemory, hv, hfmt]
    simp only [not_true_eq_false, if_false, if_true]
    exact ⟨⟨trivial, trivial, trivial⟩, trivial, trivial, trivial⟩
  · simp only [SetHeaderFromMemory, hv, hfmt]
    simp only [not_true_eq_false, if_false]
    exact ⟨⟨trivial, trivial, trivial⟩, trivial, trivial, trivial⟩

/-- Claim C23, counterexample: a valid header whose width field is 2^31 is accepted; the
field is kept in `m_DDSHeader` and the `int` member `m_Width` holds -2147483648, which is
neither at least 1 nor the header value. -/
theorem SetHeaderFromMemory_width_negative :
    (SetHeaderFromMemory exampleHelpers exampleMasks exampleFresh
        { dwMagic := DDS_MAGIC, header := exampleHeaderWide } { dxgiFormat := 0 } 0).2 = true ∧
      exampleHeaderWide.dwWidth = 2147483648 ∧
      (SetHeaderFromMemory exampleHelpers exampleMasks exampleFresh
        { dwMagic := DDS_MAGIC, header := exampleHeaderWide }
        { dxgiFormat := 0 } 0).1.m_DDSHeader.dwWidth = 2147483648 ∧
      (SetHeaderFromMemory exampleHelpers exampleMasks exampleFresh
        { dwMagic := DDS_MAGIC, header := exampleHeaderWide }
        { dxgiFormat := 0 } 0).1.img.m_Width = -2147483648 := by
  decide

/-- Claim C23 (amended): after `SetHeaderFromMemory` has read a valid header, whether or
not the pixel format is then resolved, the width, height and depth stored in `m_DDSHeader`
are the header fields with 0 replaced by 1: each is at least 1 and a non-zero field is kept
unchanged; `m_Width`, `m_Height`, `m_Depth` hold those values converted to `int`, which is
the same value, at least 1, for every field below 2^31. -/
theorem SetHeaderFromMemory_dimensions (h : DDSHelpers) (fm : FlagMasks) (st : HeaderState)
    (dds : DDS_FILE_DESC) (ddx : DDS_HEADER_DXT10) (nFlags : Nat)
    (hv : dds.IsValid h = true) :
    let out := (SetHeaderFromMemory h fm st dds ddx nFlags).1
    let fix : Nat → Nat := fun v => if v = 0 then 1 else v
    out.m_DDSHeader.dwWidth = fix dds.header.dwWidth ∧
      out.m_DDSHeader.dwHeight = fix dds.header.dwHeight ∧
      out.m_DDSHeader.dwDepth = fix dds.header.dwDepth ∧
      1 ≤ out.m_DDSHeader.dwWidth ∧ 1 ≤ out.m_DDSHeader.dwHeight ∧
      1 ≤ out.m_DDSHeader.dwDepth ∧
      out.img.m_Width = i32 (out.m_DDSHeader.dwWidth : Int) ∧
      out.img.m_Height = i32 (out.m_DDSHeader.dwHeight : Int) ∧
      out.img.m_Depth = i32 (out.m_DDSHeader.dwDepth : Int) ∧
      (dds.header.dwWidth < 2147483648 →
        out.img.m_Width = (fix dds.header.dwWidth : Nat) ∧ 1 ≤ out.img.m_Width) ∧
      (dds.header.dwHeight < 2147483648 →
        out.img.m_Height = (fix dds.header.dwHeight : Nat) ∧ 1 ≤ out.img.m_Height) ∧
      (dds.header.dwDepth < 2147483648 →
        out.img.m_Depth = (fix dds.header.dwDepth : Nat) ∧ 1 ≤ out.img.m_Depth) := by
  have hfix : ∀ v : Nat, max 1 v = if v = 0 then 1 else v := by
    intro v
    split_ifs with h0
    · simp [h0]
    · exact max_eq_right (Nat.one_le_iff_ne_zero.mpr h0)
  have hle : ∀ v : Nat, 1 ≤ max 1 v := fun v => le_max_left _ _
  have hsmall : ∀ v : Nat, v < 2147483648 →
      i32 ((max 1 v : Nat) : Int) = ((if v = 0 then 1 else v : Nat) : Int) ∧
        (1 : Int) ≤ i32 ((max 1 v : Nat) : Int) := by
    intro v hlt
    have hm : max 1 v < 2147483648 := max_lt (by decide) hlt
    rw [i32_natCast_of_lt _ hm, hfix]
    refine ⟨rfl, ?_⟩
    rw [← hfix]
    exact_mod_cast hle v
  obtain ⟨⟨hw, hh, hd⟩, hiw, hih, hid⟩ :=
    SetHeaderFromMemory_stored_extents h fm st dds ddx nFlags hv
  dsimp only
  rw [hw, hh, hd, hiw, hih, hid]
  exact ⟨hfix _, hfix _, hfix _, hle _, hle _, hle _, rfl, rfl, rfl, hsmall _, hsmall _,
    hsmall _⟩

/-- Claim C23, witness: a valid header whose three dimension fields are zero is stored as
1 x 1 x 1. -/
theorem SetHeaderFromMemory_dimensions_witness :
    (SetHeaderFromMemory exampleHelpers exampleMasks exampleFresh
        { dwMagic := DDS_MAGIC, header := exampleHeaderZeroDims }
        { dxgiFormat := 0 } 0).1.img.m_Width = 1 ∧
      (SetHeaderFromMemory exampleHelpers exampleMasks exampleFresh
        { dwMagic := DDS_MAGIC, header := exampleHeaderZeroDims }
        { dxgiFormat := 0 } 0).1.m_DDSHeader.dwDepth = 1 :=
  ⟨((SetHeaderFromMemory_dimensions exampleHelpers exampleMasks exampleFresh
      { dwMagic := DDS_MAGIC, header := exampleHeaderZeroDims } { dxgiFormat := 0 } 0
      (by decide)).2.2.2.2.2.2.2.2.2.1 (by decide)).1,
    (SetHeaderFromMemory_dimensions exampleHelpers exampleMasks exampleFresh
      { dwMagic := DDS_MAGIC, header := exampleHeaderZeroDims } { dxgiFormat := 0 } 0
      (by decide)).2.2.1⟩

end CImageDDSFile

theorem or_and_disjoint (a m P : Nat) (h : m &&& P = 0) : (a ||| m) &&& P = a &&& P := by
  rw [Nat.and_distrib_right, h, Nat.or_zero]

theorem ite_or_and_disjoint (c : Prop) [Decidable c] (a m P : Nat) (h : m &&& P = 0) :
    (if c then a ||| m else a) &&& P = a &&& P := by
  split_ifs
  · exact or_and_disjoint a m P h
  · rfl

namespace CImageDDSFile

/-- The bits of `FIM_STREAM_PREPARE` in the flag word of lines 495-521 come from the flags
before or from the streamable decision. -/
theorem flagsOf_stream_prepare (h : DDSHelpers) (fm : FlagMasks)
    (m_Flags nFlags imageFlags : Nat) (m_FileName : String) (m_eFormat : ETEX_Format)
    (bStreamable : Bool) (hd : h.StreamPrepareDisjoint fm) :
    flagsOf h fm m_Flags nFlags imageFlags m_FileName m_eFormat bStreamable &&&
        fm.FIM_STREAM_PREPARE =
      (if bStreamable then m_Flags ||| fm.FIM_STREAM_PREPARE else m_Flags) &&&
        fm.FIM_STREAM_PREPARE := by
  obtain ⟨-, h2, h3, h4, h5, h6, h7, h8, h9, h10, h11⟩ := hd
  have hn : (nFlags &&& (fm.FIM_SPLITTED ||| fm.FIM_ALPHA)) &&& fm.FIM_STREAM_PREPARE = 0 := by
    rw [Nat.and_assoc, h2, Nat.and_zero]
  unfold flagsOf
  simp only []
  rw [ite_or_and_disjoint _ _ _ _ h11, ite_or_and_disjoint _ _ _ _ h10,
    ite_or_and_disjoint _ _ _ _ h9, ite_or_and_disjoint _ _ _ _ h8,
    ite_or_and_disjoint _ _ _ _ h7, ite_or_and_disjoint _ _ _ _ h6,
    ite_or_and_disjoint _ _ _ _ h5]
  have hf4 : ∀ f3 : Nat, (if ¬ hasFlag nFlags fm.FIM_ALPHA then
        if hasFlag imageFlags h.DDS_RESF1_NORMALMAP ∨ h.VerifyTexSuffix m_FileName = true ∨
            h.IsNormalMap m_eFormat = true then f3 ||| h.FIM_NORMALMAP
        else f3
      else f3) &&& fm.FIM_STREAM_PREPARE = f3 &&& fm.FIM_STREAM_PREPARE := by
    intro f3
    split_ifs <;> first | exact or_and_disjoint _ _ _ h4 | rfl
  rw [hf4, ite_or_and_disjoint _ _ _ _ h3, or_and_disjoint _ _ _ hn]

/-- The streamable decision read back from the flag word, with the extents as the `int`
members hold them. -/
theorem SetHeaderFromMemory_streamable_members (h : DDSHelpers) (fm : FlagMasks)
    (st : HeaderState) (dds : DDS_FILE_DESC) (ddx : DDS_HEADER_DXT10) (nFlags : Nat)
    (hd : h.StreamPrepareDisjoint fm)
    (h0 : st.img.m_Flags &&& fm.FIM_STREAM_PREPARE = 0)
    (hset : hasFlag (SetHeaderFromMemory h fm st dds ddx nFlags).1.img.m_Flags
      fm.FIM_STREAM_PREPARE) :
    hasFlag nFlags fm.FIM_STREAM_PREPARE ∧
      (SetHeaderFromMemory h fm st dds ddx nFlags).2 = true ∧
      2 ≤ (SetHeaderFromMemory h fm st dds ddx nFlags).1.img.m_NumMips ∧
      (SetHeaderFromMemory h fm st dds ddx nFlags).1.img.m_NumPersistantMips ≠ 0 ∧
      ((SetHeaderFromMemory h fm st dds ddx nFlags).1.img.m_NumMips ≤ 127 →
        0 < (SetHeaderFromMemory h fm st dds ddx nFlags).1.img.m_NumPersistantMips) ∧
      (SetHeaderFromMemory h fm st dds ddx nFlags).1.img.m_NumPersistantMips <
        (SetHeaderFromMemory h fm st dds ddx nFlags).1.img.m_NumMips ∧
      (SetHeaderFromMemory h fm st dds ddx nFlags).1.img.m_Depth ≤ 1 ∧
      (h.etexLowerMipMaxSize : Int) <
        (SetHeaderFromMemory h fm st dds ddx nFlags).1.img.m_Width ∧
      (h.etexLowerMipMaxSize : Int) <
        (SetHeaderFromMemory h fm st dds ddx nFlags).1.img.m_Height := by
  have hdx : ∀ c : Prop, ∀ _ : Decidable c,
      (if c then st.img.m_Flags ||| h.FIM_DX10IO else st.img.m_Flags) &&&
        fm.FIM_STREAM_PREPARE = 0 := by
    intro c _
    rw [ite_or_and_disjoint _ _ _ _ hd.1, h0]
  by_cases hv : dds.IsValid h = true
  · by_cases hfmt : h.GetFormatByDesc dds.header.ddspf ddx.dxgiFormat = h.eTF_Unknown
    · exfalso
      apply hset
      simp only [SetHeaderFromMemory, hv, hfmt, not_true_eq_false, if_false, if_true]
      exact hdx _ _
    · have hret : (SetHeaderFromMemory h fm st dds ddx nFlags).2 = true := by
        simp only [SetHeaderFromMemory, hv, hfmt]
        simp only [not_true_eq_false, if_false]
      unfold hasFlag at hset
      simp only [SetHeaderFromMemory, hv, hfmt, not_true_eq_false, if_false,
        DDS_HEADER.GetMipCount] at hset ⊢
      rw [flagsOf_stream_prepare _ _ _ _ _ _ _ _ hd] at hset
      have hM1 : (1 : Int) ≤ ((max 1 dds.header.dwMipMapCount : Nat) : Int) := by
        exact_mod_cast le_max_left 1 dds.header.dwMipMapCount
      have hv0 : (0 : Int) ≤ (if dds.header.dwTextureStage = h.CRYF then
          (dds.header.bNumPersistentMips : Int) else 0) := by
        split_ifs
        · exact Int.ofNat_nonneg _
        · exact le_refl _
      generalize (if dds.header.dwTextureStage = h.CRYF then
          (dds.header.bNumPersistentMips : Int) else 0) = v at hv0 hset ⊢
      generalize ((max 1 dds.header.dwMipMapCount : Nat) : Int) = M at hM1 hset ⊢
      have hp0 : M ≤ 127 → 0 ≤ clamp_to v h.etexNumLastMips M := by
        intro h127
        have hy0 : 0 ≤ min (max v h.etexNumLastMips) M :=
          le_min (le_trans hv0 (le_max_left _ _)) (by omega)
        have hym : min (max v h.etexNumLastMips) M ≤ M := min_le_right _ _
        unfold clamp_to
        rw [i8_of_small (by omega) (by omega)]
        exact hy0
      generalize clamp_to v h.etexNumLastMips M = p at hp0 hset ⊢
      generalize i32 ((max 1 dds.header.dwWidth : Nat) : Int) = W at hset ⊢
      generalize i32 ((max 1 dds.header.dwHeight : Nat) : Int) = H at hset ⊢
      generalize i32 ((max 1 dds.header.dwDepth : Nat) : Int) = D at hset ⊢
      by_cases hc1 : (W ≤ (h.etexLowerMipMaxSize : Int) ∨
          H ≤ (h.etexLowerMipMaxSize : Int)) ∨ M ≤ p ∨ p = 0
      · simp only [if_pos hc1, Bool.false_eq_true, if_false] at hset
        exact absurd (hdx _ _) hset
      · by_cases hc2 : False ∨ D > 1 ∨ M < 2
        · simp only [if_neg hc1, if_pos hc2, Bool.false_eq_true, if_false] at hset
          exact absurd (hdx _ _) hset
        · by_cases hc3 : hasFlag nFlags fm.FIM_STREAM_PREPARE
          · simp only [not_or, not_le, not_lt, gt_iff_lt, not_false_eq_true, true_and] at hc1 hc2
            obtain ⟨⟨hw, hh⟩, hpm, hpz⟩ := hc1
            obtain ⟨hdep, hm2⟩ := hc2
            refine ⟨hc3, trivial, hm2, hpz, ?_, hpm, hdep, hw, hh⟩
            intro h127
            have := hp0 h127
            omega
          · simp only [if_neg hc1, if_neg hc2, hc3, decide_False, Bool.false_eq_true,
              if_false] at hset
            exact absurd (hdx _ _) hset
  · exfalso
    apply hset
    simp only [SetHeaderFromMemory, hv]
    exact h0

/-- Claim C24, counterexample: requested with `FIM_STREAM_PREPARE`, a valid header of 200
mips with a persistent-mip byte of 200 is accepted with the flag set and a persistent-mip
count of `int8(200) = -56`, which is not positive; and a valid header whose depth field is
2^31 is accepted with the flag set although the `int` member `m_Depth` is -2147483648 and
the depth kept in `m_DDSHeader` is 2147483648, not 1. -/
theorem SetHeaderFromMemory_streamable_negative :
    exampleFresh.img.m_Flags &&& exampleMasks.FIM_STREAM_PREPARE = 0 ∧
      hasFlag (SetHeaderFromMemory exampleHelpers exampleMasks exampleFresh
        { dwMagic := DDS_MAGIC, header := exampleHeader200Persistent } { dxgiFormat := 0 }
        exampleMasks.FIM_STREAM_PREPARE).1.img.m_Flags exampleMasks.FIM_STREAM_PREPARE ∧
      (SetHeaderFromMemory exampleHelpers exampleMasks exampleFresh
        { dwMagic := DDS_MAGIC, header := exampleHeader200Persistent } { dxgiFormat := 0 }
        exampleMasks.FIM_STREAM_PREPARE).1.img.m_NumMips = 200 ∧
      (SetHeaderFromMemory exampleHelpers exampleMasks exampleFresh
        { dwMagic := DDS_MAGIC, header := exampleHeader200Persistent } { dxgiFormat := 0 }
        exampleMasks.FIM_STREAM_PREPARE).1.img.m_NumPersistantMips = -56 ∧
      hasFlag (SetHeaderFromMemory exampleHelpers exampleMasks exampleFresh
        { dwMagic := DDS_MAGIC, header := exampleHeaderDeep } { dxgiFormat := 0 }
        exampleMasks.FIM_STREAM_PREPARE).1.img.m_Flags exampleMasks.FIM_STREAM_PREPARE ∧
      (SetHeaderFromMemory exampleHelpers exampleMasks exampleFresh
        { dwMagic := DDS_MAGIC, header := exampleHeaderDeep } { dxgiFormat := 0 }
        exampleMasks.FIM_STREAM_PREPARE).1.img.m_Depth = -2147483648 ∧
      (SetHeaderFromMemory exampleHelpers exampleMasks exampleFresh
        { dwMagic := DDS_MAGIC, header := exampleHeaderDeep } { dxgiFormat := 0 }
        exampleMasks.FIM_STREAM_PREPARE).1.m_DDSHeader.dwDepth = 2147483648 := by
  decide

/-- Claim C24 (amended): starting from image flags without `FIM_STREAM_PREPARE` (whose
bits occur in no other mask the function ORs in), if `SetHeaderFromMemory` leaves
`FIM_STREAM_PREPARE` set in `m_Flags`, then the caller passed it in `nFlags`, the call
succeeded, and the parsed texture has at least 2 mips, a persistent-mip count different
from 0 (positive for a chain of at most 127 mips) and below the mip count, a depth member
`m_Depth` of at most 1 (the depth is 1, in the member and in `m_DDSHeader`, when the header
field is below 2^31), and members `m_Width` and `m_Height` both greater than
`etexLowerMipMaxSize`. -/
theorem SetHeaderFromMemory_streamable (h : DDSHelpers) (fm : FlagMasks) (st : HeaderState)
    (dds : DDS_FILE_DESC) (ddx : DDS_HEADER_DXT10) (nFlags : Nat)
    (hd : h.StreamPrepareDisjoint fm)
    (h0 : st.img.m_Flags &&& fm.FIM_STREAM_PREPARE = 0)
    (hset : hasFlag (SetHeaderFromMemory h fm st dds ddx nFlags).1.img.m_Flags
      fm.FIM_STREAM_PREPARE) :
    let out := (SetHeaderFromMemory h fm st dds ddx nFlags).1
    hasFlag nFlags fm.FIM_STREAM_PREPARE ∧
      (SetHeaderFromMemory h fm st dds ddx nFlags).2 = true ∧
      2 ≤ out.img.m_NumMips ∧ out.img.m_NumPersistantMips ≠ 0 ∧
      (out.img.m_NumMips ≤ 127 → 0 < out.img.m_NumPersistantMips) ∧
      out.img.m_NumPersistantMips < out.img.m_NumMips ∧ out.img.m_Depth ≤ 1 ∧
      (dds.header.dwDepth < 2147483648 →
        out.img.m_Depth = 1 ∧ out.m_DDSHeader.dwDepth = 1) ∧
      (h.etexLowerMipMaxSize : Int) < out.img.m_Width ∧
      (h.etexLowerMipMaxSize : Int) < out.img.m_Height := by
  obtain ⟨h1, h2, h3, h4, h5, h6, h7, h8, h9⟩ :=
    SetHeaderFromMemory_streamable_members h fm st dds ddx nFlags hd h0 hset
  have hv : dds.IsValid h = true := by
    by_contra hv
    simp [SetHeaderFromMemory, hv] at h2
  obtain ⟨⟨-, -, hdd⟩, -, -, hid⟩ :=
    SetHeaderFromMemory_stored_extents h fm st dds ddx nFlags hv
  refine ⟨h1, h2, h3, h4, h5, h6, h7, ?_, h8, h9⟩
  intro hlt
  have hm : max 1 dds.header.dwDepth < 2147483648 := max_lt (by decide) hlt
  rw [hid, i32_natCast_of_lt _ hm] at h7
  have hle : max 1 dds.header.dwDepth ≤ 1 := by exact_mod_cast h7
  have h1' : max 1 dds.header.dwDepth = 1 := le_antisymm hle (le_max_left _ _)
  rw [hid, hdd, h1']
  exact ⟨by decide, rfl⟩

/-- Claim C24, witness: the streamable request for the example header (256 x 256, nine
mips, three persistent) sets the flag, and the texture meets every listed condition. -/
theorem SetHeaderFromMemory_streamable_witness :
    hasFlag (SetHeaderFromMemory exampleHelpers exampleMasks exampleFresh
        { dwMagic := DDS_MAGIC, header := exampleHeader } { dxgiFormat := 0 }
        128).1.img.m_Flags exampleMasks.FIM_STREAM_PREPARE ∧
      (SetHeaderFromMemory exampleHelpers exampleMasks exampleFresh
        { dwMagic := DDS_MAGIC, header := exampleHeader } { dxgiFormat := 0 }
        128).1.img.m_NumPersistantMips <
      (SetHeaderFromMemory exampleHelpers exampleMasks exampleFresh
        { dwMagic := DDS_MAGIC, header := exampleHeader } { dxgiFormat := 0 }
        128).1.img.m_NumMips :=
  ⟨by decide,
    (SetHeaderFromMemory_streamable exampleHelpers exampleMasks exampleFresh
      { dwMagic := DDS_MAGIC, header := exampleHeader } { dxgiFormat := 0 } 128
      (by decide) (by decide) (by decide)).2.2.2.2.2.1⟩

end CImageDDSFile

/-! ## The attached-image locator -/

namespace DDSSplitted

/-- The result of `SeekToAttachedImage` in terms of the position it computes: it is true
exactly when the read of the primary header delivers a non-zero number of bytes, the header
is valid, its pixel format resolves, and `GetAttachedImage` finds a header in the 1024-byte
array read at `headerEnd + ddsSize`, where `headerEnd` is the position after the header (and
after the extended header when there is one) and `ddsSize` is the `uint32` value of
`TextureDataSize(max(1, width), max(1, height), max(1, depth), int8(dwMipMapCount),
numSlices, format, tile mode)` with `numSlices` 6 for `EIF_Cubemap` and 1 otherwise; the
stream is then left at `headerEnd + ddsSize + offset` for the offset of the found header in
the array. The position `headerEnd + ddsSize` is the end of the mip chain only when
`numSlices` is the face count and `int8(dwMipMapCount)` the mip count of the image. -/
theorem SeekToAttachedImage_result (h : DDSHelpers) (tds : TextureDataSizeFn)
    (GetAttachedImage : List Nat → Option Nat) (file : FileWrapper) :
    let desc := file.readDesc file.pos
    let ext : Nat × DDS_HEADER_DXT10 :=
      if h.IsDX10Ext desc.2.header then file.readExt (file.pos + desc.1)
      else (0, { dxgiFormat := 0 })
    let headerEnd := file.pos + desc.1 + ext.1
    let hdr : DDS_HEADER :=
      { desc.2.header with
          dwWidth := max 1 desc.2.header.dwWidth
          dwHeight := max 1 desc.2.header.dwHeight
          dwDepth := max 1 desc.2.header.dwDepth }
    let eTF := h.GetFormatByDesc desc.2.header.ddspf ext.2.dxgiFormat
    let ddsSize := u32 (tds (max 1 desc.2.header.dwWidth) (max 1 desc.2.header.dwHeight)
      (max 1 desc.2.header.dwDepth) (i8 (desc.2.header.dwMipMapCount : Int))
      (if hasFlag (h.GetImageFlags hdr) h.EIF_Cubemap then 6 else 1) eTF
      (CImageDDSFile.tileModeOf h (h.GetImageFlags hdr) desc.2.header.bTileMode))
    let found := GetAttachedImage (file.readWindow (headerEnd + ddsSize)).2
    let out := SeekToAttachedImage h tds GetAttachedImage file
    (out.1 = true ↔
        desc.1 ≠ 0 ∧ desc.2.IsValid h = true ∧ eTF ≠ h.eTF_Unknown ∧ found.isSome = true) ∧
      (out.1 = true → ∃ offset, found = some offset ∧
        out.2.pos = headerEnd + ddsSize + offset) := by
  intro desc ext headerEnd hdr eTF ddsSize found out
  by_cases h1 : (file.readDesc file.pos).1 = 0
  · have hout : out.1 = false := by
      simp [out, SeekToAttachedImage, h1]
    simp [hout, desc, h1]
  · by_cases h2 : (file.readDesc file.pos).2.IsValid h = true
    · by_cases h3 : h.GetFormatByDesc (file.readDesc file.pos).2.header.ddspf
          (if h.IsDX10Ext (file.readDesc file.pos).2.header then
            file.readExt (file.pos + (file.readDesc file.pos).1)
            else (0, { dxgiFormat := 0 })).2.dxgiFormat = h.eTF_Unknown
      · have hout : out.1 = false := by
          simp only [out, SeekToAttachedImage, h1, h2, if_false, not_true_eq_false]
          simp only [h3, if_true]
        simp [hout, eTF, ext, desc, h3]
      · cases hf : found with
        | none =>
          have hout : out.1 = false := by
            simp only [out, SeekToAttachedImage, h1, h2, if_false, not_true_eq_false]
            simp only [h3, if_false]
            simp only [found, headerEnd, ddsSize, ext, desc, eTF, hdr] at hf
            rw [hf]
          simp [hout]
        | some offset =>
          have hout : out = (true, { file with pos := headerEnd + ddsSize + offset }) := by
            simp only [out, SeekToAttachedImage, h1, h2, if_false, not_true_eq_false]
            simp only [h3, if_false]
            simp only [found, headerEnd, ddsSize, ext, desc, eTF, hdr] at hf
            rw [hf]
          simp [hout, desc, h1, h2, eTF, ext, h3]
    · have hout : out.1 = false := by
        simp [out, SeekToAttachedImage, h1, h2]
      simp [hout, desc, h2]

/-- For the example stream the attached header is found: the result is true and the
stream is left at 128 + 43704 + 4. -/
theorem SeekToAttachedImage_example :
    (SeekToAttachedImage exampleHelpers exampleDXT1Size exampleGetAttachedImage
        exampleStream).1 = true ∧
      (SeekToAttachedImage exampleHelpers exampleDXT1Size exampleGetAttachedImage
        exampleStream).2.pos = 43836 := by
  decide

/-- Claim C25, failing input: the stream of the cube map marked by
`DDS_SURFACE_FLAGS_CUBEMAP` and `DDS_CUBEMAP_ALLFACES` (image flags without `EIF_Cubemap`).
The primary header is read (128 bytes), is valid and its pixel format resolves; the image
has 9 mips and, by `SetHeaderFromMemory`, 6 faces, so its full mip chain is
`TextureDataSize(256, 256, 1, 9, 6, format, tileMode) = 262224` bytes long, and
`GetAttachedImage` finds a header (at offset 4) in the 1024-byte window that begins
immediately after it, at 128 + 262224. Every condition of the claim holds, yet
`SeekToAttachedImage` returns false: it reads its window behind one face, at 128 + 43704,
where nothing is found. -/
theorem SeekToAttachedImage_misses_attached_image :
    (exampleCubeStream.readDesc exampleCubeStream.pos).1 = 128 ∧
      (exampleCubeStream.readDesc exampleCubeStream.pos).2.IsValid exampleHelpers = true ∧
      exampleHelpers.GetFormatByDesc
          (exampleCubeStream.readDesc exampleCubeStream.pos).2.header.ddspf 0 ≠
        exampleHelpers.eTF_Unknown ∧
      (CImageDDSFile.SetHeaderFromMemory exampleHelpers exampleMasks exampleFresh
        (exampleCubeStream.readDesc exampleCubeStream.pos).2 { dxgiFormat := 0 }
        0).1.img.m_NumMips = 9 ∧
      (CImageDDSFile.SetHeaderFromMemory exampleHelpers exampleMasks exampleFresh
        (exampleCubeStream.readDesc exampleCubeStream.pos).2 { dxgiFormat := 0 }
        0).1.img.m_Sides = 6 ∧
      exampleDXT1Size 256 256 1 9 6 1 ETEX_TileMode.eTM_None = 262224 ∧
      exampleGetAttachedImage (exampleCubeStream.readWindow (128 + 262224)).2 = some 4 ∧
      (SeekToAttachedImage exampleHelpers exampleDXT1Size exampleGetAttachedImage
        exampleCubeStream).1 = false ∧
      exampleGetAttachedImage (exampleCubeStream.readWindow (128 + 43704)).2 = none := by
  decide

end DDSSplitted

/-! ## References and pending counter of a streamed load -/

namespace StreamingImage

theorem readsStarted_issueReads (n : Nat) : readsStarted (issueReads n) = n := by
  unfold readsStarted issueReads
  induction n with
  | zero => rfl
  | succ k ih =>
    rw [List.range_succ, List.flatMap_append, List.filter_append, List.length_append, ih]
    rfl

theorem refTakenBeforeEachRead_issueReads_append (l : List Nat) (rest : List StreamEvent) :
    refTakenBeforeEachRead
        (l.flatMap (fun nOtherMip => [StreamEvent.AddRef, StreamEvent.StartRead (nOtherMip + 1)])
          ++ rest) = refTakenBeforeEachRead rest := by
  induction l with
  | nil => rfl
  | cons a l ih =>
    simp only [List.flatMap_cons, List.cons_append, List.nil_append, refTakenBeforeEachRead]
    exact ih

theorem addRefs_issueReads (n : Nat) :
    ((issueReads n).filter StreamEvent.isAddRef).length = n := by
  unfold issueReads
  induction n with
  | zero => rfl
  | succ k ih =>
    rw [List.range_succ, List.flatMap_append, List.filter_append, List.length_append, ih]
    rfl

theorem releases_issueReads (n : Nat) : (issueReads n).filter StreamEvent.isRelease = [] := by
  unfold issueReads
  induction n with
  | zero => rfl
  | succ k ih =>
    rw [List.range_succ, List.flatMap_append, List.filter_append, ih]
    rfl

theorem issueReads_release_counts (n : Nat) :
    refTakenBeforeEachRead (issueReads n ++ [StreamEvent.Release]) = true ∧
      releasesOnceAtEnd (issueReads n ++ [StreamEvent.Release]) = true ∧
      readsStarted (issueReads n ++ [StreamEvent.Release]) = n ∧
      ((issueReads n ++ [StreamEvent.Release]).filter StreamEvent.isAddRef).length = n := by
  refine ⟨?_, ?_, ?_, ?_⟩
  · unfold issueReads
    rw [refTakenBeforeEachRead_issueReads_append]
    rfl
  · unfold releasesOnceAtEnd
    rw [List.filter_append, releases_issueReads, List.getLast?_append]
    rfl
  · have := readsStarted_issueReads n
    unfold readsStarted at this ⊢
    rw [List.filter_append, List.length_append, this]
    rfl
  · rw [List.filter_append, List.length_append, addRefs_issueReads]
    rfl

/-- The effects of one handler call: the references it takes, the reads it starts, the
reference it releases, and the reference count and pending counter it leaves. -/
theorem handler_counts (alloc : Nat → Bool) (loadFromFile : Option LoadOutcome)
    (img : StreamingImage) (t nError : Nat) :
    let r := StreamAsyncOnComplete alloc loadFromFile img t nError
    refTakenBeforeEachRead r.2 = true ∧ releasesOnceAtEnd r.2 = true ∧
      r.1.nRefCount = img.nRefCount + (readsStarted r.2 : Int) - 1 ∧
      (r.2.filter StreamEvent.isAddRef).length = readsStarted r.2 ∧
      (t ≠ 0 → readsStarted r.2 = 0 ∧ r.1.m_nPending = img.m_nPending - 1) ∧
      (t = 0 → r.1.m_nPending = img.m_nPending - 1 + (readsStarted r.2 : Int) ∨
        (r.1.m_nPending = (readsStarted r.2 : Int) ∧ readsStarted r.2 ≠ 0)) := by
  intro r
  by_cases he : nError = 0
  · by_cases ht : t = 0
    · cases hl : loadFromFile with
      | none =>
        have hev : r.2 = [StreamEvent.Release] := by
          simp [r, StreamAsyncOnComplete, he, ht, hl]
        have hrc : r.1.nRefCount = img.nRefCount - 1 := by
          simp [r, StreamAsyncOnComplete, he, ht, hl]
        have hp : r.1.m_nPending = img.m_nPending - 1 := by
          simp [r, StreamAsyncOnComplete, he, ht, hl]
        rw [hev, hrc, hp]
        simp [refTakenBeforeEachRead, releasesOnceAtEnd, readsStarted, StreamEvent.isRelease,
          StreamEvent.isStartRead, StreamEvent.isAddRef]
      | some out =>
        by_cases hn : out.nOtherMips = 0
        · have hev : r.2 = [StreamEvent.PostLoad (CImageFile.PostLoad alloc out.m_Sides
              { img.file with m_pFileMemory := true, m_ImgSize := out.m_ImgSize }).2,
              StreamEvent.RaiseComplete true, StreamEvent.Release] := by
            simp [r, StreamAsyncOnComplete, he, ht, hl, hn]
          have hrc : r.1.nRefCount = img.nRefCount - 1 := by
            simp [r, StreamAsyncOnComplete, he, ht, hl, hn]
          have hp : r.1.m_nPending = img.m_nPending - 1 := by
            simp [r, StreamAsyncOnComplete, he, ht, hl, hn]
          rw [hev, hrc, hp]
          simp [refTakenBeforeEachRead, releasesOnceAtEnd, readsStarted, StreamEvent.isRelease,
            StreamEvent.isStartRead, StreamEvent.isAddRef]
        · have hev : r.2 = issueReads out.nOtherMips ++ [StreamEvent.Release] := by
            simp [r, StreamAsyncOnComplete, he, ht, hl, hn]
          have hrc : r.1.nRefCount = img.nRefCount + (out.nOtherMips : Int) - 1 := by
            simp [r, StreamAsyncOnComplete, he, ht, hl, hn]
          have hp : r.1.m_nPending = (out.nOtherMips : Int) := by
            simp [r, StreamAsyncOnComplete, he, ht, hl, hn]
          obtain ⟨h1, h2, h3, h4⟩ := issueReads_release_counts out.nOtherMips
          rw [hev, hrc, hp, h1, h2, h3, h4]
          exact ⟨rfl, rfl, rfl, rfl, fun h => absurd ht h, fun _ => Or.inr ⟨rfl, hn⟩⟩
    · have hev : r.2 = (if img.m_nPending - 1 = 0 then
          [StreamEvent.memcpy t,
            StreamEvent.PostLoad (CImageFile.PostLoad alloc img.m_Sides img.file).2,
            StreamEvent.RaiseComplete true, StreamEvent.Release]
          else [StreamEvent.memcpy t, StreamEvent.Release]) := by
        subst he
        exact (handler_continuation_ok alloc loadFromFile img t ht).2
      have hp : r.1.m_nPending = img.m_nPending - 1 := by
        subst he
        exact (handler_continuation_ok alloc loadFromFile img t ht).1
      have hrc : r.1.nRefCount = img.nRefCount - 1 := by
        by_cases h0 : img.m_nPending - 1 = 0
        · simp [r, StreamAsyncOnComplete, he, ht, h0]
        · simp [r, StreamAsyncOnComplete, he, ht, h0]
      rw [hev, hrc, hp]
      split_ifs <;>
        simp [refTakenBeforeEachRead, releasesOnceAtEnd, readsStarted, StreamEvent.isRelease,
          StreamEvent.isStartRead, StreamEvent.isAddRef, ht]
  · have hev : r.2 = [StreamEvent.RaiseComplete false, StreamEvent.Release] :=
      (handler_error alloc loadFromFile img t nError he).2
    have hp : r.1.m_nPending = img.m_nPending - 1 :=
      (handler_error alloc loadFromFile img t nError he).1
    have hrc : r.1.nRefCount = img.nRefCount - 1 := by
      simp [r, StreamAsyncOnComplete, he]
    rw [hev, hrc, hp]
    simp [refTakenBeforeEachRead, releasesOnceAtEnd, readsStarted, StreamEvent.isRelease,
      StreamEvent.isStartRead, StreamEvent.isAddRef]

theorem handleAll_refs (alloc : Nat → Bool) (loadFromFile : Option LoadOutcome)
    (cs : List Completion) (img : StreamingImage) :
    (handleAll alloc loadFromFile img cs).2.length = cs.length ∧
      (∀ evs ∈ (handleAll alloc loadFromFile img cs).2,
        refTakenBeforeEachRead evs = true ∧ releasesOnceAtEnd evs = true ∧
          (evs.filter StreamEvent.isAddRef).length = readsStarted evs) ∧
      (handleAll alloc loadFromFile img cs).1.nRefCount =
        img.nRefCount + ((((handleAll alloc loadFromFile img cs).2.map readsStarted).sum : Nat)
          : Int) - (cs.length : Int) := by
  induction cs generalizing img with
  | nil => simp [handleAll]
  | cons c cs ih =>
    obtain ⟨h1, h2, h3, h4, -, -⟩ := handler_counts alloc loadFromFile img c.dwUserData c.nError
    obtain ⟨i1, i2, i3⟩ :=
      ih (StreamAsyncOnComplete alloc loadFromFile img c.dwUserData c.nError).1
    simp only [handleAll, List.length_cons, List.map_cons, List.sum_cons, List.mem_cons]
    refine ⟨by rw [i1], ?_, ?_⟩
    · rintro evs (rfl | hmem)
      · exact ⟨h1, h2, h4⟩
      · exact i2 evs hmem
    · rw [i3, h3]
      push_cast
      ring

theorem handleAll_continuations (alloc : Nat → Bool) (loadFromFile : Option LoadOutcome)
    (cs : List Completion) (img : StreamingImage)
    (hcs : cs.all (fun d => d.dwUserData != 0) = true) :
    ((handleAll alloc loadFromFile img cs).2.map readsStarted).sum = 0 ∧
      (handleAll alloc loadFromFile img cs).1.m_nPending = img.m_nPending - (cs.length : Int) := by
  induction cs generalizing img with
  | nil => simp [handleAll]
  | cons c cs ih =>
    simp only [List.all_cons, Bool.and_eq_true, bne_iff_ne, ne_eq] at hcs
    obtain ⟨-, -, -, -, h5, -⟩ := handler_counts alloc loadFromFile img c.dwUserData c.nError
    obtain ⟨hs, hp⟩ := h5 hcs.1
    obtain ⟨i1, i2⟩ :=
      ih (StreamAsyncOnComplete alloc loadFromFile img c.dwUserData c.nError).1 hcs.2
    simp only [handleAll, List.length_cons, List.map_cons, List.sum_cons]
    refine ⟨by rw [hs, i1], ?_⟩
    rw [i2, hp]
    push_cast
    ring

theorem filter_reads_issueReads (n : Nat) :
    (issueReads n).filter (fun e => e.isAddRef || e.isStartRead) = issueReads n := by
  unfold issueReads
  induction n with
  | zero => rfl
  | succ k ih =>
    rw [List.range_succ, List.flatMap_append, List.filter_append, ih]
    rfl

/-- Claim C26: across `Stream` and `StreamAsyncOnComplete` a reference is taken exactly
once per started read and released exactly once per handled completion. `Stream` takes one
reference and then starts the initial read (tag 0), raising the reference count by one. In
every handler call each `AddRef` directly precedes a `StartRead` of its own, so the
references taken are as many as the reads started, exactly one reference is released, as
the last effect, and the reference count changes by the reads started less one. The
handler of a successful initial read takes a reference and starts a read for each of the
`nOtherMips` continuation requests, in this order, tagged 1 to `nOtherMips`; any other
handler call starts no read and takes no reference. Hence after `Stream()` and any sequence
of handled completions the reference count exceeds its value before `Stream()` by the number
of reads in flight (reads started less completions handled), and it is back at that value
once as many completions have been handled as reads were started. -/
theorem stream_reference_count (alloc : Nat → Bool) (loadFromFile : Option LoadOutcome)
    (img : StreamingImage) (cs : List Completion) :
    ((Stream img).2 = [StreamEvent.AddRef, StreamEvent.StartRead 0] ∧
        (Stream img).1.nRefCount = img.nRefCount + 1) ∧
      (∀ (j : StreamingImage) (t nError : Nat),
        refTakenBeforeEachRead (StreamAsyncOnComplete alloc loadFromFile j t nError).2 = true ∧
          ((StreamAsyncOnComplete alloc loadFromFile j t nError).2.filter
            StreamEvent.isAddRef).length =
            readsStarted (StreamAsyncOnComplete alloc loadFromFile j t nError).2 ∧
          releasesOnceAtEnd (StreamAsyncOnComplete alloc loadFromFile j t nError).2 = true ∧
          (StreamAsyncOnComplete alloc loadFromFile j t nError).1.nRefCount =
            j.nRefCount +
              (readsStarted (StreamAsyncOnComplete alloc loadFromFile j t nError).2 : Int) -
              1) ∧
      (∀ (j : StreamingImage) (out : LoadOutcome),
        (StreamAsyncOnComplete alloc (some out) j 0 0).2.filter
            (fun e => e.isAddRef || e.isStartRead) =
          (List.range out.nOtherMips).flatMap
            (fun nOtherMip => [StreamEvent.AddRef, StreamEvent.StartRead (nOtherMip + 1)]) ∧
          (StreamAsyncOnComplete alloc (some out) j 0 0).1.nRefCount =
            j.nRefCount + (out.nOtherMips : Int) - 1) ∧
      (∀ (j : StreamingImage) (t nError : Nat),
        nError ≠ 0 ∨ t ≠ 0 ∨ loadFromFile = none →
        (StreamAsyncOnComplete alloc loadFromFile j t nError).2.filter
            (fun e => e.isAddRef || e.isStartRead) = [] ∧
          (StreamAsyncOnComplete alloc loadFromFile j t nError).1.nRefCount =
            j.nRefCount - 1) ∧
      (∀ evs ∈ (run alloc loadFromFile img cs).2,
        refTakenBeforeEachRead evs = true ∧
          (evs.filter StreamEvent.isAddRef).length = readsStarted evs) ∧
      (∀ evs ∈ (run alloc loadFromFile img cs).2.tail, releasesOnceAtEnd evs = true) ∧
      (run alloc loadFromFile img cs).2.length = cs.length + 1 ∧
      (run alloc loadFromFile img cs).1.nRefCount =
        img.nRefCount + readsInFlight alloc loadFromFile img cs ∧
      (readsInFlight alloc loadFromFile img cs = 0 →
        (run alloc loadFromFile img cs).1.nRefCount = img.nRefCount) := by
  obtain ⟨hl, h2, h3⟩ := handleAll_refs alloc loadFromFile cs (Stream img).1
  have hrc : (run alloc loadFromFile img cs).1.nRefCount =
      img.nRefCount + readsInFlight alloc loadFromFile img cs := by
    unfold readsInFlight
    simp only [run, List.map_cons, List.sum_cons]
    rw [h3]
    simp only [Stream, readsStarted, List.filter, StreamEvent.isStartRead, List.length_cons,
      List.length_nil]
    push_cast
    ring
  refine ⟨⟨rfl, rfl⟩, ?_, ?_, ?_, ?_, ?_, ?_, hrc, ?_⟩
  · intro j t nError
    obtain ⟨h1, h2', h3', h4, -, -⟩ := handler_counts alloc loadFromFile j t nError
    exact ⟨h1, h4, h2', h3'⟩
  · intro j out
    obtain ⟨-, hev⟩ := handler_initial_ok alloc out j
    by_cases hn : out.nOtherMips = 0
    · have hev' : (StreamAsyncOnComplete alloc (some out) j 0 0).2 =
          [StreamEvent.PostLoad (CImageFile.PostLoad alloc out.m_Sides
              { j.file with m_pFileMemory := true, m_ImgSize := out.m_ImgSize }).2,
            StreamEvent.RaiseComplete true, StreamEvent.Release] := by
        rw [hev]
        simp [hn]
      have hrc' : (StreamAsyncOnComplete alloc (some out) j 0 0).1.nRefCount =
          j.nRefCount - 1 := by
        simp [StreamAsyncOnComplete, hn]
      rw [hev', hrc', hn]
      simp [StreamEvent.isAddRef, StreamEvent.isStartRead]
    · have hev' : (StreamAsyncOnComplete alloc (some out) j 0 0).2 =
          issueReads out.nOtherMips ++ [StreamEvent.Release] := by
        rw [hev]
        simp [hn]
      have hrc' : (StreamAsyncOnComplete alloc (some out) j 0 0).1.nRefCount =
          j.nRefCount + (out.nOtherMips : Int) - 1 := by
        simp [StreamAsyncOnComplete, hn]
      rw [hev', hrc', List.filter_append, filter_reads_issueReads]
      simp [issueReads, StreamEvent.isAddRef, StreamEvent.isStartRead]
  · intro j t nError hcase
    by_cases he : nError = 0
    · by_cases ht : t = 0
      · have hnone : loadFromFile = none := by
          rcases hcase with h | h | h
          · exact absurd he h
          · exact absurd ht h
          · exact h
        subst hnone
        subst he
        subst ht
        simp [StreamAsyncOnComplete, StreamEvent.isAddRef, StreamEvent.isStartRead]
      · subst he
        obtain ⟨-, hev⟩ := handler_continuation_ok alloc loadFromFile j t ht
        have hrc' : (StreamAsyncOnComplete alloc loadFromFile j t 0).1.nRefCount =
            j.nRefCount - 1 := by
          by_cases h0 : j.m_nPending - 1 = 0
          · simp [StreamAsyncOnComplete, ht, h0]
          · simp [StreamAsyncOnComplete, ht, h0]
        rw [hev, hrc']
        split_ifs <;> simp [StreamEvent.isAddRef, StreamEvent.isStartRead]
    · obtain ⟨-, hev⟩ := handler_error alloc loadFromFile j t nError he
      have hrc' : (StreamAsyncOnComplete alloc loadFromFile j t nError).1.nRefCount =
          j.nRefCount - 1 := by
        simp [StreamAsyncOnComplete, he]
      rw [hev, hrc']
      simp [StreamEvent.isAddRef, StreamEvent.isStartRead]
  · intro evs hmem
    simp only [run, List.mem_cons] at hmem
    rcases hmem with rfl | hmem
    · exact ⟨rfl, rfl⟩
    · exact ⟨(h2 evs hmem).1, (h2 evs hmem).2.2⟩
  · intro evs hmem
    simp only [run, List.tail_cons] at hmem
    exact (h2 evs hmem).2.1
  · simp only [run, List.length_cons, hl]
  · intro h0
    rw [hrc, h0, add_zero]

/-- Claim C26, witness: a streamed load whose initial read leaves two continuation
requests. After `Stream()` one read is in flight and one reference is held; after the
handler of the initial read two reads are in flight and two references are held; after the
handlers of both continuation reads no read is in flight and the reference count is back at
its value before `Stream()`. -/
theorem stream_reference_count_witness :
    (run (fun _ => true) (some exampleOutcome2) exampleIdle []).1.nRefCount =
        exampleIdle.nRefCount + 1 ∧
      (run (fun _ => true) (some exampleOutcome2) exampleIdle
        [{ dwUserData := 0, nError := 0 }]).1.nRefCount = exampleIdle.nRefCount + 2 ∧
      readsInFlight (fun _ => true) (some exampleOutcome2) exampleIdle
        [{ dwUserData := 0, nError := 0 }, { dwUserData := 1, nError := 0 },
          { dwUserData := 2, nError := 0 }] = 0 ∧
      (run (fun _ => true) (some exampleOutcome2) exampleIdle
        [{ dwUserData := 0, nError := 0 }, { dwUserData := 1, nError := 0 },
          { dwUserData := 2, nError := 0 }]).1.nRefCount = exampleIdle.nRefCount :=
  ⟨((stream_reference_count (fun _ => true) (some exampleOutcome2) exampleIdle
      []).2.2.2.2.2.2.2.1).trans (by decide),
    ((stream_reference_count (fun _ => true) (some exampleOutcome2) exampleIdle
      [{ dwUserData := 0, nError := 0 }]).2.2.2.2.2.2.2.1).trans (by decide),
    by decide,
    (stream_reference_count (fun _ => true) (some exampleOutcome2) exampleIdle
      [{ dwUserData := 0, nError := 0 }, { dwUserData := 1, nError := 0 },
        { dwUserData := 2, nError := 0 }]).2.2.2.2.2.2.2.2 (by decide)⟩

/-- Claim C27: the pending counter is 1 after `Stream()` (one read started); after the
handler of the initial read has started `N ≥ 1` continuation reads it is `N`; the handler of
a continuation completion (with or without error) lowers it by exactly one; hence at every
handler boundary of a sequential run (the completion of the initial read handled first, then
completions of continuation reads) the counter equals the number of reads in flight. -/
theorem stream_pending_counter (alloc : Nat → Bool) (loadFromFile : Option LoadOutcome)
    (img : StreamingImage) (cs : List Completion) (hcs : initialFirst cs = true) :
    (Stream img).1.m_nPending = 1 ∧ readsStarted (Stream img).2 = 1 ∧
      (∀ out : LoadOutcome, 1 ≤ out.nOtherMips →
        readsStarted (StreamAsyncOnComplete alloc (some out) (Stream img).1 0 0).2 =
            out.nOtherMips ∧
          (StreamAsyncOnComplete alloc (some out) (Stream img).1 0 0).1.m_nPending =
            (out.nOtherMips : Int)) ∧
      (∀ (img1 : StreamingImage) (t nError : Nat), t ≠ 0 →
        (StreamAsyncOnComplete alloc loadFromFile img1 t nError).1.m_nPending =
          img1.m_nPending - 1) ∧
      (run alloc loadFromFile img cs).1.m_nPending =
        readsInFlight alloc loadFromFile img cs := by
  refine ⟨rfl, rfl, ?_, ?_, ?_⟩
  · intro out hN
    have hn : out.nOtherMips ≠ 0 := by omega
    obtain ⟨hp, hev⟩ := handler_initial_ok alloc out (Stream img).1
    rw [hp, hev]
    simp only [hn, ne_eq, not_false_eq_true, if_true]
    exact ⟨(issueReads_release_counts out.nOtherMips).2.2.1, trivial⟩
  · intro img1 t nError ht
    exact ((handler_counts alloc loadFromFile img1 t nError).2.2.2.2.1 ht).2
  · unfold readsInFlight
    cases cs with
    | nil => simp [run, handleAll, Stream, readsStarted, StreamEvent.isStartRead]
    | cons c rest =>
      simp only [initialFirst, Bool.and_eq_true, beq_iff_eq] at hcs
      obtain ⟨hc0, hrest⟩ := hcs
      obtain ⟨-, -, -, -, -, h6⟩ :=
        handler_counts alloc loadFromFile (Stream img).1 c.dwUserData c.nError
      obtain ⟨hs, hp⟩ := handleAll_continuations alloc loadFromFile rest
        (StreamAsyncOnComplete alloc loadFromFile (Stream img).1 c.dwUserData c.nError).1 hrest
      simp only [run, handleAll, List.map_cons, List.sum_cons, List.length_cons]
      rw [hp, hs]
      have hst : readsStarted (Stream img).2 = 1 := rfl
      have hsp : (Stream img).1.m_nPending = 1 := rfl
      rw [hst]
      rcases h6 hc0 with h | ⟨h, -⟩
      · rw [h, hsp]
        push_cast
        ring
      · rw [h]
        push_cast
        ring

/-- Claim C27, witness: `Stream()`, the initial completion that starts two continuation
reads, and the completion of the second of them leave the counter at 1, with one read in
flight. -/
theorem stream_pending_counter_witness :
    (run (fun _ => true) (some exampleOutcome2) exampleIdle
        [{ dwUserData := 0, nError := 0 }, { dwUserData := 2, nError := 0 }]).1.m_nPending =
      readsInFlight (fun _ => true) (some exampleOutcome2) exampleIdle
        [{ dwUserData := 0, nError := 0 }, { dwUserData := 2, nError := 0 }] ∧
    readsInFlight (fun _ => true) (some exampleOutcome2) exampleIdle
        [{ dwUserData := 0, nError := 0 }, { dwUserData := 2, nError := 0 }] = 1 :=
  ⟨(stream_pending_counter (fun _ => true) (some exampleOutcome2) exampleIdle
      [{ dwUserData := 0, nError := 0 }, { dwUserData := 2, nError := 0 }]
      (by decide)).2.2.2.2, by decide⟩

end StreamingImage

/-! ## `TImage::RotateOrt` -/

namespace TImage

variable {T : Type}

theorem foldl_store_row (g : Nat → T) (c n : Nat) (b : Nat → T) (i : Nat) :
    (List.range n).foldl (fun b1 x => store b1 (x + c) (g x)) b i =
      if c ≤ i ∧ i < c + n then g (i - c) else b i := by
  induction n with
  | zero =>
    have h0 : ¬ (c ≤ i ∧ i < c + 0) := by omega
    rw [if_neg h0]
    rfl
  | succ k ih =>
    rw [List.range_succ, List.foldl_append, List.foldl_cons, List.foldl_nil]
    show (if i = k + c then g k
      else (List.range k).foldl (fun b1 x => store b1 (x + c) (g x)) b i) = _
    by_cases hi : i = k + c
    · have h1 : c ≤ i ∧ i < c + (k + 1) := by omega
      have h2 : i - c = k := by omega
      rw [if_pos hi, if_pos h1, h2]
    · rw [if_neg hi, ih]
      by_cases h1 : c ≤ i ∧ i < c + k
      · have h2 : c ≤ i ∧ i < c + (k + 1) := by omega
        rw [if_pos h1, if_pos h2]
      · have h2 : ¬ (c ≤ i ∧ i < c + (k + 1)) := by omega
        rw [if_neg h1, if_neg h2]

theorem RotateOrt_loops_apply (src : Nat → T) (srcWidth m_width m_height : Nat) (nRot : Int)
    (buf : Nat → T) (x y : Nat) (hx : x < m_width) (hy : y < m_height) :
    RotateOrt_loops src srcWidth m_width m_height nRot buf (x + y * m_width) =
      RotateOrt_value src srcWidth m_width m_height nRot x y := by
  unfold RotateOrt_loops
  have key : ∀ n : Nat, ∀ i : Nat,
      (List.range n).foldl
        (fun b y1 =>
          (List.range m_width).foldl
            (fun b1 x1 => store b1 (x1 + y1 * m_width)
              (RotateOrt_value src srcWidth m_width m_height nRot x1 y1)) b) buf i =
        if i < n * m_width then
          RotateOrt_value src srcWidth m_width m_height nRot (i % m_width) (i / m_width)
        else buf i := by
    intro n
    induction n with
    | zero =>
      intro i
      simp
    | succ k ih =>
      intro i
      rw [List.range_succ, List.foldl_append, List.foldl_cons, List.foldl_nil,
        foldl_store_row]
      have hw : 0 < m_width := by omega
      by_cases h1 : k * m_width ≤ i ∧ i < k * m_width + m_width
      · have h2 : i < (k + 1) * m_width := by rw [Nat.succ_mul]; exact h1.2
        have hq : i / m_width = k := by
          apply Nat.div_eq_of_lt_le
          · exact h1.1
          · rw [Nat.succ_mul]; exact h1.2
        have hm : i % m_width = i - k * m_width := by
          have := Nat.div_add_mod i m_width
          rw [hq] at this
          rw [Nat.mul_comm] at this
          omega
        rw [if_pos h1, if_pos h2, hq, hm]
      · rw [if_neg h1, ih]
        by_cases h3 : i < k * m_width
        · have h2 : i < (k + 1) * m_width := by rw [Nat.succ_mul]; omega
          rw [if_pos h3, if_pos h2]
        · have h2 : ¬ i < (k + 1) * m_width := by rw [Nat.succ_mul]; omega
          rw [if_neg h3, if_neg h2]
  rw [key]
  have hlt : x + y * m_width < m_height * m_width := by
    calc x + y * m_width < m_width + y * m_width := by omega
      _ = (y + 1) * m_width := by ring
      _ ≤ m_height * m_width := Nat.mul_le_mul_right _ hy
  have hq : (x + y * m_width) / m_width = y := by
    rw [Nat.add_mul_div_right _ _ (by omega), Nat.div_eq_of_lt hx, Nat.zero_add]
  have hm : (x + y * m_width) % m_width = x := by
    rw [Nat.add_mul_mod_self_right, Nat.mod_eq_of_lt hx]
  rw [if_pos hlt, hq, hm]

theorem angle_cases (n : Int) : angle n = 0 ∨ angle n = 1 ∨ angle n = 2 ∨ angle n = 3 := by
  unfold angle
  split_ifs with h
  · rcases h with h | h | h
    · exact Or.inr (Or.inl h)
    · exact Or.inr (Or.inr (Or.inl h))
    · exact Or.inr (Or.inr (Or.inr h))
  · exact Or.inl rfl

theorem RotateOrt_angle (mem : Option (Nat → T)) (self img : TImage T) (n : Int) :
    RotateOrt mem self img n = RotateOrt mem self img (angle n) := by
  by_cases h : n = 1 ∨ n = 2 ∨ n = 3
  · have : angle n = n := by simp [angle, h]
    rw [this]
  · have ha : angle n = 0 := by simp [angle, h]
    rw [ha]
    have h1 : ¬ n = 1 := fun e => h (Or.inl e)
    have h2 : ¬ n = 2 := fun e => h (Or.inr (Or.inl e))
    have h3 : ¬ n = 3 := fun e => h (Or.inr (Or.inr e))
    have hv : ∀ (src : Nat → T) (sw w ht : Nat),
        RotateOrt_value src sw w ht n = RotateOrt_value src sw w ht 0 := by
      intro src sw w ht
      funext x y
      simp [RotateOrt_value, h1, h2, h3]
    simp only [RotateOrt, RotateOrt_loops, hv, h1, h3, or_self, if_false]
    simp

/-- The result of `RotateOrt` for a source that holds a buffer and has positive extents,
a destination that is usable and an allocation that succeeds. -/
theorem RotateOrt_spec (fresh : Nat → T) (self img : TImage T) (src : Nat → T)
    (hs : img.m_data = some src) (hw : 1 ≤ img.m_width) (hh : 1 ≤ img.m_height)
    (hu : usable self) (n : Int) :
    ∃ buf : Nat → T,
      RotateOrt (some fresh) self img n =
        some { m_data := some buf,
               m_width := if n = 1 ∨ n = 3 then img.m_height else img.m_width,
               m_height := if n = 1 ∨ n = 3 then img.m_width else img.m_height } ∧
      ∀ x y, x < (if n = 1 ∨ n = 3 then img.m_height else img.m_width) →
        y < (if n = 1 ∨ n = 3 then img.m_width else img.m_height) →
        ValueAt buf (if n = 1 ∨ n = 3 then img.m_height else img.m_width) x y =
          RotateOrt_value src img.m_width
            (if n = 1 ∨ n = 3 then img.m_height else img.m_width)
            (if n = 1 ∨ n = 3 then img.m_width else img.m_height) n x y := by
  generalize hW : (if n = 1 ∨ n = 3 then img.m_height else img.m_width) = W
  generalize hH : (if n = 1 ∨ n = 3 then img.m_width else img.m_height) = H
  have hW1 : 1 ≤ W := by
    rw [← hW]; split_ifs <;> assumption
  have hH1 : 1 ≤ H := by
    rw [← hH]; split_ifs <;> assumption
  by_cases hd : self.m_width ≠ W ∨ self.m_height ≠ H
  · refine ⟨RotateOrt_loops src img.m_width W H n fresh, ?_, ?_⟩
    · simp only [RotateOrt, hs, hW, hH, if_pos hd, Allocate, max_eq_right hW1,
        max_eq_right hH1]
    · intro x y hx hy
      exact RotateOrt_loops_apply src img.m_width W H n fresh x y hx hy
  · have hdw : self.m_width = W := by
      by_contra hne
      exact hd (Or.inl hne)
    have hdh : self.m_height = H := by
      by_contra hne
      exact hd (Or.inr hne)
    have hsome : self.m_data.isSome = true := by
      rcases hu with hu | ⟨hu, -⟩
      · exact hu
      · omega
    obtain ⟨buf, hbuf⟩ := Option.isSome_iff_exists.1 hsome
    refine ⟨RotateOrt_loops src img.m_width W H n buf, ?_, ?_⟩
    · simp only [RotateOrt, hs, hW, hH, if_neg hd]
      simp only [hbuf, hdw, hdh]
    · intro x y hx hy
      exact RotateOrt_loops_apply src img.m_width W H n buf x y hx hy

theorem RotateOrt_value_compose (s bufA : Nat → T) (w h WA HA WB HB : Nat) (ka kb : Int)
    (hka : ka = 0 ∨ ka = 1 ∨ ka = 2 ∨ ka = 3) (hkb : kb = 0 ∨ kb = 1 ∨ kb = 2 ∨ kb = 3)
    (hWA : WA = if ka = 1 ∨ ka = 3 then h else w)
    (hHA : HA = if ka = 1 ∨ ka = 3 then w else h)
    (hWB : WB = if kb = 1 ∨ kb = 3 then HA else WA)
    (hHB : HB = if kb = 1 ∨ kb = 3 then WA else HA)
    (pA : ∀ u v, u < WA → v < HA →
      ValueAt bufA WA u v = RotateOrt_value s w WA HA ka u v) :
    WB = (if (ka + kb) % 4 = 1 ∨ (ka + kb) % 4 = 3 then h else w) ∧
      HB = (if (ka + kb) % 4 = 1 ∨ (ka + kb) % 4 = 3 then w else h) ∧
      ∀ x y, x < WB → y < HB →
        RotateOrt_value bufA WA WB HB kb x y =
          RotateOrt_value s w WB HB ((ka + kb) % 4) x y := by
  rcases hka with rfl | rfl | rfl | rfl <;> rcases hkb with rfl | rfl | rfl | rfl <;>
    norm_num at hWA hHA hWB hHB <;> subst hWA hHA hWB hHB <;>
    refine ⟨by norm_num, by norm_num, ?_⟩ <;> intro x y hx hy <;>
    norm_num [RotateOrt_value] at pA ⊢ <;>
    rw [pA _ _ (by omega) (by omega)] <;>
    congr 1 <;> omega

theorem RotateOrt_compose_angles (fresh1 fresh2 fresh3 : Nat → T)
    (src dst1 dst2 dst3 : TImage T) (ka kb : Int)
    (hsrc : src.IsValid = true) (hw : 1 ≤ src.m_width) (hh : 1 ≤ src.m_height)
    (h1 : usable dst1) (h2 : usable dst2) (h3 : usable dst3)
    (hka : ka = 0 ∨ ka = 1 ∨ ka = 2 ∨ ka = 3) (hkb : kb = 0 ∨ kb = 1 ∨ kb = 2 ∨ kb = 3) :
    ∃ A B C : TImage T,
      RotateOrt (some fresh1) dst1 src ka = some A ∧
      RotateOrt (some fresh2) dst2 A kb = some B ∧
      RotateOrt (some fresh3) dst3 src ((ka + kb) % 4) = some C ∧
      A.IsValid = true ∧
      A.m_width = (if ka = 1 ∨ ka = 3 then src.m_height else src.m_width) ∧
      A.m_height = (if ka = 1 ∨ ka = 3 then src.m_width else src.m_height) ∧
      (∀ x y, x < A.m_width → y < A.m_height →
        A.pixel x y =
          if ka = 1 then src.pixel (src.m_width - y - 1) x
          else if ka = 2 then src.pixel (src.m_width - x - 1) (src.m_height - y - 1)
          else if ka = 3 then src.pixel y (src.m_height - x - 1)
          else src.pixel x y) ∧
      B.IsValid = true ∧ C.IsValid = true ∧
      B.m_width = C.m_width ∧ B.m_height = C.m_height ∧
      ∀ x y, x < B.m_width → y < B.m_height → B.pixel x y = C.pixel x y := by
  obtain ⟨s, hs⟩ := Option.isSome_iff_exists.1 hsrc
  obtain ⟨bufA, hA, pA⟩ := RotateOrt_spec fresh1 dst1 src s hs hw hh h1 ka
  have hWA : 1 ≤ (if ka = 1 ∨ ka = 3 then src.m_height else src.m_width) := by
    split_ifs <;> assumption
  have hHA : 1 ≤ (if ka = 1 ∨ ka = 3 then src.m_width else src.m_height) := by
    split_ifs <;> assumption
  obtain ⟨bufB, hB, pB⟩ := RotateOrt_spec fresh2 dst2
    { m_data := some bufA,
      m_width := if ka = 1 ∨ ka = 3 then src.m_height else src.m_width,
      m_height := if ka = 1 ∨ ka = 3 then src.m_width else src.m_height }
    bufA rfl hWA hHA h2 kb
  obtain ⟨bufC, hC, pC⟩ := RotateOrt_spec fresh3 dst3 src s hs hw hh h3 ((ka + kb) % 4)
  obtain ⟨hW, hH, hv⟩ := RotateOrt_value_compose s bufA src.m_width src.m_height
    (if ka = 1 ∨ ka = 3 then src.m_height else src.m_width)
    (if ka = 1 ∨ ka = 3 then src.m_width else src.m_height)
    (if kb = 1 ∨ kb = 3 then (if ka = 1 ∨ ka = 3 then src.m_width else src.m_height)
      else (if ka = 1 ∨ ka = 3 then src.m_height else src.m_width))
    (if kb = 1 ∨ kb = 3 then (if ka = 1 ∨ ka = 3 then src.m_height else src.m_width)
      else (if ka = 1 ∨ ka = 3 then src.m_width else src.m_height))
    ka kb hka hkb rfl rfl rfl rfl pA
  refine ⟨_, _, _, hA, hB, hC, rfl, rfl, rfl, ?_, rfl, rfl, hW, hH, ?_⟩
  · intro x y hx hy
    simp only [pixel, hs, Option.map_some'] at hx hy ⊢
    rw [pA x y hx hy]
    rcases hka with rfl | rfl | rfl | rfl <;> simp [RotateOrt_value]
  · intro x y hx hy
    have hx1 : x < (if kb = 1 ∨ kb = 3 then
        (if ka = 1 ∨ ka = 3 then src.m_width else src.m_height)
        else (if ka = 1 ∨ ka = 3 then src.m_height else src.m_width)) := hx
    have hy1 : y < (if kb = 1 ∨ kb = 3 then
        (if ka = 1 ∨ ka = 3 then src.m_height else src.m_width)
        else (if ka = 1 ∨ ka = 3 then src.m_width else src.m_height)) := hy
    have e1 := pB x y hx1 hy1
    have e2 := hv x y hx1 hy1
    have e3 := pC x y (hW ▸ hx1) (hH ▸ hy1)
    rw [← hW, ← hH] at e3
    show some (ValueAt bufB _ x y) = some (ValueAt bufC _ x y)
    rw [← hW]
    exact congrArg some (e1.trans (e2.trans e3.symm))

/-- Claim C28: for a source image that holds a buffer and has positive extents `w`, `h`,
usable destinations and allocations that succeed, `RotateOrt` with code `a` gives the image
rotated by `a` right angles (code 1: extents `h`, `w` and element `(x, y)` the source's
`(w - y - 1, x)`; code 2: the source's `(w - x - 1, h - y - 1)`; code 3: extents `h`, `w`
and the source's `(y, h - x - 1)`; any other code: a copy), and the codes compose like
angles: rotating by `a` into a second image and rotating that by `b` into a third gives the
extents and elements of rotating the source by `(a + b) mod 4`, each code outside 1, 2, 3
counting as 0. -/
theorem RotateOrt_composes (fresh1 fresh2 fresh3 : Nat → T)
    (src dst1 dst2 dst3 : TImage T) (a b : Int)
    (hsrc : src.IsValid = true) (hw : 1 ≤ src.m_width) (hh : 1 ≤ src.m_height)
    (h1 : usable dst1) (h2 : usable dst2) (h3 : usable dst3) :
    ∃ A B C : TImage T,
      RotateOrt (some fresh1) dst1 src a = some A ∧
      RotateOrt (some fresh2) dst2 A b = some B ∧
      RotateOrt (some fresh3) dst3 src ((angle a + angle b) % 4) = some C ∧
      A.IsValid = true ∧
      A.m_width = (if angle a = 1 ∨ angle a = 3 then src.m_height else src.m_width) ∧
      A.m_height = (if angle a = 1 ∨ angle a = 3 then src.m_width else src.m_height) ∧
      (∀ x y, x < A.m_width → y < A.m_height →
        A.pixel x y =
          if angle a = 1 then src.pixel (src.m_width - y - 1) x
          else if angle a = 2 then src.pixel (src.m_width - x - 1) (src.m_height - y - 1)
          else if angle a = 3 then src.pixel y (src.m_height - x - 1)
          else src.pixel x y) ∧
      B.IsValid = true ∧ C.IsValid = true ∧
      B.m_width = C.m_width ∧ B.m_height = C.m_height ∧
      ∀ x y, x < B.m_width → y < B.m_height → B.pixel x y = C.pixel x y := by
  obtain ⟨A, B, C, hA, hB, hC, hrest⟩ :=
    RotateOrt_compose_angles fresh1 fresh2 fresh3 src dst1 dst2 dst3 (angle a) (angle b)
      hsrc hw hh h1 h2 h3 (angle_cases a) (angle_cases b)
  refine ⟨A, B, C, ?_, ?_, hC, hrest⟩
  · rw [RotateOrt_angle]
    exact hA
  · rw [RotateOrt_angle]
    exact hB

/-- Claim C28, witness: the 3 x 2 example image rotated by code 1 and then by code 3. -/
theorem RotateOrt_composes_witness :
    example3x2.IsValid = true ∧ usable exampleEmpty ∧
      ∃ A B C : TImage Nat,
        RotateOrt (some (fun _ => 0)) exampleEmpty example3x2 1 = some A ∧
        RotateOrt (some (fun _ => 0)) exampleEmpty A 3 = some B ∧
        RotateOrt (some (fun _ => 0)) exampleEmpty example3x2 ((angle 1 + angle 3) % 4) =
          some C ∧
        B.m_width = C.m_width ∧ B.m_height = C.m_height ∧
        ∀ x y, x < B.m_width → y < B.m_height → B.pixel x y = C.pixel x y :=
  ⟨by decide, by decide,
    let ⟨A, B, C, hA, hB, hC, _, _, _, _, _, _, hW, hH, hp⟩ :=
      RotateOrt_composes (fun _ => 0) (fun _ => 0) (fun _ => 0) example3x2 exampleEmpty
        exampleEmpty exampleEmpty 1 3 (by decide) (by decide) (by decide) (by decide)
        (by decide) (by decide)
    ⟨A, B, C, hA, hB, hC, hW, hH, hp⟩⟩

/-- The 3 x 2 example image rotated by each code: the extents and the elements row by
row. Code 1 turns the rows 0 1 2 / 3 4 5 into 2 5 / 1 4 / 0 3, code 2 into 5 4 3 / 2 1 0,
code 3 into 3 0 / 4 1 / 5 2, and code 7 copies. -/
theorem RotateOrt_example :
    (fun n => (RotateOrt (some (fun _ => 0)) exampleEmpty example3x2 n).map
        (fun A => (A.m_width, A.m_height,
          (List.range 6).map (fun i => A.pixel (i % A.m_width) (i / A.m_width))))) <$>
        [1, 2, 3, 7] =
      [some (2, 3, [some 2, some 5, some 1, some 4, some 0, some 3]),
       some (3, 2, [some 5, some 4, some 3, some 2, some 1, some 0]),
       some (2, 3, [some 3, some 0, some 4, some 1, some 5, some 2]),
       some (3, 2, [some 0, some 1, some 2, some 3, some 4, some 5])] := by
  decide

end TImage

/-! ## Ranges of persistent mips of a split texture -/

namespace DDSSplitted

end DDSSplitted

/-! ## Loading a streamable texture: the persistent mips only -/

theorem max_one_shiftRight_shiftRight (w a b : Nat) :
    max 1 ((max 1 (w >>> a)) >>> b) = max 1 (w >>> (a + b)) := by
  rw [Nat.shiftRight_add]
  rcases Nat.eq_zero_or_pos (w >>> a) with h0 | hpos
  · rw [h0]
    have h1 : (1 : Nat) >>> b ≤ 1 := DDSSplitted.shiftRight_le_self 1 b
    have h2 : (0 : Nat) >>> b = 0 := by simp
    rw [h2]
    have h3 : max 1 0 = 1 := by decide
    rw [h3]
    omega
  · have h1 : max 1 (w >>> a) = w >>> a := by omega
    rw [h1]

namespace DDSSplitted

theorem UnSplit_foldl_mips (tds : TextureDataSizeFn) (cap : Nat) (desc : DDSDesc)
    (pitch : Nat) (l : List Int) (st : UnSplitState) :
    ∀ e ∈ (l.foldl (GetFilesToRead_UnSplit_step tds cap desc pitch) st).pFiles,
      e ∈ st.pFiles ∨ e.nMipLevel ∈ l := by
  induction l generalizing st with
  | nil =>
    intro e he
    exact Or.inl he
  | cons m l ih =>
    intro e he
    simp only [List.foldl_cons] at he
    rcases ih _ e he with h | h
    · simp only [GetFilesToRead_UnSplit_step] at h
      split_ifs at h with hlt
      · rcases List.mem_append.1 h with h1 | h1
        · exact Or.inl h1
        · rw [List.mem_singleton] at h1
          rw [h1]
          exact Or.inr (List.mem_cons_self _ _)
      · exact Or.inl h
    · exact Or.inr (List.mem_cons_of_mem _ h)

theorem mem_mipRange (s e m : Int) (h : m ∈ mipRange s e) : s ≤ m ∧ m ≤ e := by
  unfold mipRange at h
  rw [List.mem_map] at h
  obtain ⟨k, hk, rfl⟩ := h
  rw [List.mem_range] at hk
  omega

theorem GetFilesToRead_mips (fm : FlagMasks) (tds : TextureDataSizeFn) (cap : Nat)
    (desc : DDSDesc) (s e : Int) :
    ∀ c ∈ (GetFilesToRead fm tds cap desc s e).1, s ≤ c.nMipLevel ∧ c.nMipLevel ≤ e := by
  intro c hc
  unfold GetFilesToRead at hc
  split_ifs at hc
  · rw [GetFilesToRead_Split_eq] at hc
    simp only [List.mem_map] at hc
    obtain ⟨m, hm, rfl⟩ := hc
    have hlev : (GetFilesToRead_Split_chunk fm tds desc
        (i8 (desc.nMips - desc.nMipsPersistent)) m).nMipLevel = m := by
      simp only [GetFilesToRead_Split_chunk]
      split_ifs <;> rfl
    rw [hlev]
    exact mem_mipRange s e m hm
  · simp only [GetFilesToRead_UnSplit] at hc
    rcases UnSplit_foldl_mips tds cap desc _ _ _ c hc with h | h
    · simp at h
    · exact mem_mipRange s e _ h

end DDSSplitted

namespace CImageDDSFile

theorem AdjustHeader_bounds (fm : FlagMasks) (cv : CRenderer) (img : CImageDDSFile)
    (hP0 : 0 ≤ img.m_NumPersistantMips) (hPN : img.m_NumPersistantMips ≤ img.m_NumMips)
    (hN : img.m_NumMips ≤ 127) :
    0 ≤ (AdjustHeader fm cv img).2 ∧
      (AdjustHeader fm cv img).1.m_NumMips + (AdjustHeader fm cv img).2 = img.m_NumMips ∧
      img.m_NumPersistantMips ≤ (AdjustHeader fm cv img).1.m_NumMips ∧
      (AdjustHeader fm cv img).1.m_NumPersistantMips = img.m_NumPersistantMips ∧
      (AdjustHeader fm cv img).1.m_Flags = img.m_Flags ∧
      (AdjustHeader fm cv img).1.m_Sides = img.m_Sides ∧
      (AdjustHeader fm cv img).1.m_eFormat = img.m_eFormat ∧
      (AdjustHeader fm cv img).1.m_eTileMode = img.m_eTileMode ∧
      (AdjustHeader fm cv img).1.m_Width =
        (if 0 < (AdjustHeader fm cv img).2 then
          max 1 (sar32 img.m_Width (AdjustHeader fm cv img).2) else img.m_Width) ∧
      (AdjustHeader fm cv img).1.m_Height =
        (if 0 < (AdjustHeader fm cv img).2 then
          max 1 (sar32 img.m_Height (AdjustHeader fm cv img).2) else img.m_Height) ∧
      (AdjustHeader fm cv img).1.m_Depth =
        (if 0 < (AdjustHeader fm cv img).2 then
          max 1 (sar32 img.m_Depth (AdjustHeader fm cv img).2) else img.m_Depth) := by
  by_cases h1 : hasFlag img.m_Flags fm.FIM_SUPPRESS_DOWNSCALING
  · simp [AdjustHeader, h1, hPN]
  · generalize hu : max (i8 cv.CV_r_texturesstreamingMinUsableMips)
      (i8 (img.m_NumMips - cv.CV_r_texturesstreamingSkipMips)) = u
    have hy1 : img.m_NumPersistantMips ≤ min (max u img.m_NumPersistantMips) img.m_NumMips :=
      le_min (le_max_right _ _) hPN
    have hy2 : min (max u img.m_NumPersistantMips) img.m_NumMips ≤ img.m_NumMips :=
      min_le_right _ _
    have hf : clamp_to u img.m_NumPersistantMips img.m_NumMips =
        min (max u img.m_NumPersistantMips) img.m_NumMips := by
      unfold clamp_to
      exact i8_of_small (by omega) (by omega)
    have hd : i8 (img.m_NumMips - min (max u img.m_NumPersistantMips) img.m_NumMips) =
        img.m_NumMips - min (max u img.m_NumPersistantMips) img.m_NumMips :=
      i8_of_small (by omega) (by omega)
    unfold AdjustHeader
    simp only [h1, not_false_eq_true, if_true, hu]
    rw [hf, hd]
    by_cases h2 : 0 < img.m_NumMips - min (max u img.m_NumPersistantMips) img.m_NumMips
    · rw [if_pos h2]
      dsimp only
      exact ⟨by omega, by omega, hy1, rfl, rfl, rfl, rfl, rfl, (if_pos h2).symm,
        (if_pos h2).symm, (if_pos h2).symm⟩
    · rw [if_neg h2]
      dsimp only
      exact ⟨by omega, by omega, hPN, rfl, rfl, rfl, rfl, rfl, (if_neg h2).symm,
        (if_neg h2).symm, (if_neg h2).symm⟩

end CImageDDSFile

/-! ## Capacities of the fixed-size arrays -/

namespace CImageDDSFile

theorem LoadFromFile_chunks_plan (fm : FlagMasks) (tds : TextureDataSizeFn) (cv : CRenderer)
    (img0 : CImageDDSFile) :
    (LoadFromFile_chunks fm tds cv img0).chunks =
      (LoadFromFile_plan fm tds cv img0).1.take (LoadFromFile_plan fm tds cv img0).2 := rfl

/-- Claim C31, failing inputs: for the valid 14-mip cube-map header (6 faces, 3 persistent
mips) `LoadFromFile` returns true and leaves `nConts = 66` requests, more than the 64
entries of the array `Load` passes, the parameter `nContsCap` being read nowhere; and for
the valid one-face header that announces 17 mips the planner returns `numChunks = 17`, so
the chunk loop runs past the 16 entries of `chunks`. -/
theorem LoadFromFile_exceeds_arrays :
    (LoadFromFile exampleHelpers exampleMasks DDSSplitted.exampleDXT1Size exampleCVars exampleFresh
        exampleCubeFile 0 0).ret = true ∧
      (LoadFromFile exampleHelpers exampleMasks DDSSplitted.exampleDXT1Size exampleCVars exampleFresh
        exampleCubeFile 0 0).st.img.m_Sides = 6 ∧
      (LoadFromFile exampleHelpers exampleMasks DDSSplitted.exampleDXT1Size exampleCVars exampleFresh
        exampleCubeFile 0 0).nConts = 66 ∧
      (SetHeaderFromMemory exampleHelpers exampleMasks exampleFresh
        { dwMagic := DDS_MAGIC, header := exampleHeader17 } { dxgiFormat := 0 } 0).2 = true ∧
      (SetHeaderFromMemory exampleHelpers exampleMasks exampleFresh
        { dwMagic := DDS_MAGIC, header := exampleHeader17 } { dxgiFormat := 0 }
        0).1.img.m_Sides = 1 ∧
      (LoadFromFile_plan exampleMasks DDSSplitted.exampleDXT1Size exampleCVars
        (SetHeaderFromMemory exampleHelpers exampleMasks exampleFresh
          { dwMagic := DDS_MAGIC, header := exampleHeader17 } { dxgiFormat := 0 }
          0).1.img).2 = 17 := by
  decide

end CImageDDSFile

namespace DDSSplitted

/-- Claim C32, failing inputs: for the 17-mip range 0..16 and a 16-entry array,
`GetFilesToRead` on the split descriptor writes 17 entries, the last one at index 16 beyond
the array, and on the unsplit descriptor it writes 16 entries and returns 17. -/
theorem GetFilesToRead_ignores_capacity :
    hasFlag exampleSplitDesc17.nFlags exampleMasks.FIM_SPLITTED ∧
      ((GetFilesToRead exampleMasks (TextureDataSize_uncompressed 4) 16 exampleSplitDesc17
        0 16).1.map (fun e => e.nMipLevel))[16]? = some 16 ∧
      (GetFilesToRead exampleMasks (TextureDataSize_uncompressed 4) 16 exampleSplitDesc17
        0 16).2 = 17 ∧
      ¬ hasFlag exampleDesc17.nFlags exampleMasks.FIM_SPLITTED ∧
      (GetFilesToRead exampleMasks (TextureDataSize_uncompressed 4) 16 exampleDesc17
        0 16).1.length = 16 ∧
      (GetFilesToRead exampleMasks (TextureDataSize_uncompressed 4) 16 exampleDesc17
        0 16).2 = 17 := by
  decide

end DDSSplitted

/-! ## `AdjustHeader`, the failure assertion, name injectivity, face counts -/

namespace CImageDDSFile

/-- Claim C33, counterexample: a valid header of 200 mips with a persistent-mip byte of 3 is
accepted with `m_NumPersistantMips = 3 ≤ m_NumMips = 200`; with both console variables 0
`AdjustHeader` then returns `int8(200 - 3) = -59`, which is negative and differs from
`m_NumMips - m_NumMips' = 0`. And a valid header whose width field is 2^31 is stored as
`m_Width = -2147483648`; `AdjustHeader` returns 0 and leaves that width, which is not
`max(1, m_Width >> 0) = 1`. -/
theorem AdjustHeader_delta_negative :
    (SetHeaderFromMemory exampleHelpers exampleMasks exampleFresh
        { dwMagic := DDS_MAGIC, header := exampleHeader200 } { dxgiFormat := 0 } 0).2 = true ∧
      (SetHeaderFromMemory exampleHelpers exampleMasks exampleFresh
        { dwMagic := DDS_MAGIC, header := exampleHeader200 }
        { dxgiFormat := 0 } 0).1.img.m_NumPersistantMips = 3 ∧
      (SetHeaderFromMemory exampleHelpers exampleMasks exampleFresh
        { dwMagic := DDS_MAGIC, header := exampleHeader200 }
        { dxgiFormat := 0 } 0).1.img.m_NumMips = 200 ∧
      (AdjustHeader exampleMasks exampleCVars
        (SetHeaderFromMemory exampleHelpers exampleMasks exampleFresh
          { dwMagic := DDS_MAGIC, header := exampleHeader200 }
          { dxgiFormat := 0 } 0).1.img).2 = -59 ∧
      (AdjustHeader exampleMasks exampleCVars
        (SetHeaderFromMemory exampleHelpers exampleMasks exampleFresh
          { dwMagic := DDS_MAGIC, header := exampleHeader200 }
          { dxgiFormat := 0 } 0).1.img).1.m_NumMips = 200 ∧
      (SetHeaderFromMemory exampleHelpers exampleMasks exampleFresh
        { dwMagic := DDS_MAGIC, header := exampleHeaderWide } { dxgiFormat := 0 } 0).2 = true ∧
      (SetHeaderFromMemory exampleHelpers exampleMasks exampleFresh
        { dwMagic := DDS_MAGIC, header := exampleHeaderWide }
        { dxgiFormat := 0 } 0).1.img.m_Width = -2147483648 ∧
      (AdjustHeader exampleMasks exampleCVars
        (SetHeaderFromMemory exampleHelpers exampleMasks exampleFresh
          { dwMagic := DDS_MAGIC, header := exampleHeaderWide }
          { dxgiFormat := 0 } 0).1.img).2 = 0 ∧
      (AdjustHeader exampleMasks exampleCVars
        (SetHeaderFromMemory exampleHelpers exampleMasks exampleFresh
          { dwMagic := DDS_MAGIC, header := exampleHeaderWide }
          { dxgiFormat := 0 } 0).1.img).1.m_Width = -2147483648 ∧
      max 1 (sar32 (-2147483648) 0) = 1 := by
  decide

/-- Claim C33 (amended): if `0 ≤ m_NumPersistantMips ≤ m_NumMips ≤ 127` holds before the
call then, for all values of the two console variables, `AdjustHeader` leaves
`m_NumPersistantMips ≤ m_NumMips' ≤ m_NumMips` and returns
`delta = m_NumMips - m_NumMips' ≥ 0`; when `delta > 0` width, height and depth become
`max(1, old >> delta)` and the mip count `m_NumMips - delta`, when `delta = 0` no member
changes, so an extent that was at least 1 is `max(1, old >> delta)` in both cases; the shift
takes its count modulo 32 and is the floor of `old / 2^delta` for `delta ≤ 31`; no other
member changes; with `FIM_SUPPRESS_DOWNSCALING` set the call returns 0 and changes
nothing. -/
theorem AdjustHeader_invariants (fm : FlagMasks) (cv : CRenderer) (img : CImageDDSFile)
    (hP0 : 0 ≤ img.m_NumPersistantMips) (hPN : img.m_NumPersistantMips ≤ img.m_NumMips)
    (hN : img.m_NumMips ≤ 127) :
    (AdjustHeader fm cv img).1.m_NumPersistantMips = img.m_NumPersistantMips ∧
      img.m_NumPersistantMips ≤ (AdjustHeader fm cv img).1.m_NumMips ∧
      (AdjustHeader fm cv img).1.m_NumMips ≤ img.m_NumMips ∧
      (AdjustHeader fm cv img).2 = img.m_NumMips - (AdjustHeader fm cv img).1.m_NumMips ∧
      0 ≤ (AdjustHeader fm cv img).2 ∧
      (AdjustHeader fm cv img).1 =
        (if 0 < (AdjustHeader fm cv img).2 then
          { img with
              m_Width := max 1 (sar32 img.m_Width (AdjustHeader fm cv img).2)
              m_Height := max 1 (sar32 img.m_Height (AdjustHeader fm cv img).2)
              m_Depth := max 1 (sar32 img.m_Depth (AdjustHeader fm cv img).2)
              m_NumMips := img.m_NumMips - (AdjustHeader fm cv img).2 }
        else img) ∧
      (1 ≤ img.m_Width → (AdjustHeader fm cv img).1.m_Width =
        max 1 (sar32 img.m_Width (AdjustHeader fm cv img).2)) ∧
      (1 ≤ img.m_Height → (AdjustHeader fm cv img).1.m_Height =
        max 1 (sar32 img.m_Height (AdjustHeader fm cv img).2)) ∧
      (1 ≤ img.m_Depth → (AdjustHeader fm cv img).1.m_Depth =
        max 1 (sar32 img.m_Depth (AdjustHeader fm cv img).2)) ∧
      (∀ x : Int, sar32 x (AdjustHeader fm cv img).2 =
        x / 2 ^ ((AdjustHeader fm cv img).2 % 32).toNat) ∧
      ((AdjustHeader fm cv img).2 ≤ 31 → ∀ x : Int,
        sar32 x (AdjustHeader fm cv img).2 = x / 2 ^ (AdjustHeader fm cv img).2.toNat) ∧
      (hasFlag img.m_Flags fm.FIM_SUPPRESS_DOWNSCALING →
        (AdjustHeader fm cv img).2 = 0 ∧ (AdjustHeader fm cv img).1 = img) := by
  obtain ⟨hd0, hsum, hPN1, hP1, -, -, -, -, hW, hH, hD⟩ :=
    AdjustHeader_bounds fm cv img hP0 hPN hN
  have hstate : (AdjustHeader fm cv img).1 =
      (if 0 < (AdjustHeader fm cv img).2 then
        { img with
            m_Width := max 1 (sar32 img.m_Width (AdjustHeader fm cv img).2)
            m_Height := max 1 (sar32 img.m_Height (AdjustHeader fm cv img).2)
            m_Depth := max 1 (sar32 img.m_Depth (AdjustHeader fm cv img).2)
            m_NumMips := img.m_NumMips - (AdjustHeader fm cv img).2 }
      else img) := by
    by_cases hpos : 0 < (AdjustHeader fm cv img).2
    · rw [if_pos hpos]
      have hN' : (AdjustHeader fm cv img).1.m_NumMips =
          img.m_NumMips - (AdjustHeader fm cv img).2 := by omega
      rw [← hN']
      by_cases h1 : hasFlag img.m_Flags fm.FIM_SUPPRESS_DOWNSCALING
      · have hz : (AdjustHeader fm cv img).2 = 0 := by
          simp [AdjustHeader, h1]
        omega
      · unfold AdjustHeader at hpos ⊢
        simp only [h1, not_false_eq_true, if_true] at hpos ⊢
        split_ifs at hpos ⊢ with h2
        · rfl
        · exact absurd hpos h2
    · rw [if_neg hpos]
      exact AdjustHeader_zero fm cv img (by omega)
  have hext : ∀ old new : Int,
      new = (if 0 < (AdjustHeader fm cv img).2 then
        max 1 (sar32 old (AdjustHeader fm cv img).2) else old) →
      1 ≤ old → new = max 1 (sar32 old (AdjustHeader fm cv img).2) := by
    intro old new hnew hold
    by_cases hpos : 0 < (AdjustHeader fm cv img).2
    · rw [hnew, if_pos hpos]
    · have hz : (AdjustHeader fm cv img).2 = 0 := by omega
      rw [hnew, if_neg hpos, hz, sar32_zero, max_eq_right hold]
  refine ⟨hP1, hPN1, by omega, by omega, hd0, hstate, hext _ _ hW, hext _ _ hH,
    hext _ _ hD, ?_, ?_, ?_⟩
  · intro x
    unfold sar32
    rw [Int.shiftRight_eq_div_pow]
    norm_cast
  · intro h31 x
    exact sar32_of_lt x _ hd0 (by omega)
  · intro hs
    have hz : (AdjustHeader fm cv img).2 = 0 := by
      simp [AdjustHeader, hs]
    exact ⟨hz, AdjustHeader_zero fm cv img hz⟩

/-- The shift of `AdjustHeader` takes its count modulo 32: for a 256 x 256 image of 40 mips
and `r_texturesstreamingSkipMips = 35` the call returns 35 and the width becomes
`256 >> (35 mod 32) = 32`. -/
theorem AdjustHeader_count_modulo_32 :
    (AdjustHeader exampleMasks
        { CV_r_texturesstreamingMinUsableMips := 0, CV_r_texturesstreamingSkipMips := 35 }
        { exampleImage with m_NumMips := 40 }).2 = 35 ∧
      (AdjustHeader exampleMasks
        { CV_r_texturesstreamingMinUsableMips := 0, CV_r_texturesstreamingSkipMips := 35 }
        { exampleImage with m_NumMips := 40 }).1.m_Width = 32 := by
  decide

/-- Claim C33, witness: the image read from the example header (256 x 256, 9 mips, 3
persistent) while the console variables skip two mips becomes 64 x 64 with 7 mips, and 2 is
returned. -/
theorem AdjustHeader_invariants_witness :
    (0 ≤ exampleImage.m_NumPersistantMips ∧
        exampleImage.m_NumPersistantMips ≤ exampleImage.m_NumMips ∧
        exampleImage.m_NumMips ≤ 127) ∧
      (AdjustHeader exampleMasks exampleSkipCVars exampleImage).2 = 2 ∧
      (AdjustHeader exampleMasks exampleSkipCVars exampleImage).1.m_Width = 64 ∧
      (AdjustHeader exampleMasks exampleSkipCVars exampleImage).2 =
        exampleImage.m_NumMips -
          (AdjustHeader exampleMasks exampleSkipCVars exampleImage).1.m_NumMips :=
  ⟨by decide, by decide, by decide,
    (AdjustHeader_invariants exampleMasks exampleSkipCVars exampleImage (by decide)
      (by decide) (by decide)).2.2.2.1⟩

end CImageDDSFile

namespace StreamingImage

/-- Claim C34, failing input: `Stream()`, then the initial read completes and starts two
continuation reads, then the first continuation completes with an I/O error. Its handler
takes the failure branch (it calls `RaiseComplete(nullptr)`) with the decremented pending
counter at 1, one read being still in flight, so `CRY_ASSERT(nPending == 0)` does not
hold. -/
theorem stream_failure_assert_violated :
    (StreamAsyncOnComplete (fun _ => true) (some exampleOutcome2)
        (handleAll (fun _ => true) (some exampleOutcome2) (Stream exampleIdle).1
          [{ dwUserData := 0, nError := 0 }]).1 1 1).2 =
        [StreamEvent.RaiseComplete false, StreamEvent.Release] ∧
      (handleAll (fun _ => true) (some exampleOutcome2) (Stream exampleIdle).1
          [{ dwUserData := 0, nError := 0 }]).1.m_nPending - 1 = 1 ∧
      (StreamAsyncOnComplete (fun _ => true) (some exampleOutcome2)
        (handleAll (fun _ => true) (some exampleOutcome2) (Stream exampleIdle).1
          [{ dwUserData := 0, nError := 0 }]).1 1 1).1.m_nPending = 1 ∧
      readsInFlight (fun _ => true) (some exampleOutcome2) exampleIdle
        [{ dwUserData := 0, nError := 0 }, { dwUserData := 1, nError := 1 }] = 1 := by
  decide

end StreamingImage

namespace DDSSplitted

theorem chunkOfSuffix_numericSuffix (n : Nat) (hn : n < 100) (tail : String)
    (htail : tail = "" ∨ tail = "a" ∨ tail = ".a") :
    chunkOfSuffix (numericSuffix n ++ tail) = n := by
  rcases htail with rfl | rfl | rfl <;> interval_cases n <;> rfl

theorem String_append_left_cancel (base s t : String) (h : base ++ s = base ++ t) : s = t := by
  have hd := congrArg String.data h
  simp only [String.data_append] at hd
  exact String.ext (List.append_cancel_left hd)

/-- Claim C35: for masks that are two distinct single bits, every base name and every flag
word that contains the split flag (with or without the alpha flag), two different chunk
numbers below 100 give two different file names. -/
theorem MakeName_injective (fm : FlagMasks) (hfm : fm.SingleBits) (base : String)
    (nFlags n m : Nat) (hs : hasFlag nFlags fm.FIM_SPLITTED)
    (hn : n < 100) (hm : m < 100) (hne : n ≠ m) :
    MakeName fm base n nFlags ≠ MakeName fm base m nFlags := by
  intro heq
  rw [MakeName_split fm hfm base n nFlags hn hs, MakeName_split fm hfm base m nFlags hm hs,
    String.append_assoc, String.append_assoc] at heq
  have hsuf := String_append_left_cancel _ _ _ heq
  have hdec := congrArg chunkOfSuffix hsuf
  have tails : ∀ k : Nat, (if hasFlag nFlags fm.FIM_ALPHA then (if k = 0 then ".a" else "a")
      else "") = "" ∨ (if hasFlag nFlags fm.FIM_ALPHA then (if k = 0 then ".a" else "a")
      else "") = "a" ∨ (if hasFlag nFlags fm.FIM_ALPHA then (if k = 0 then ".a" else "a")
      else "") = ".a" := by
    intro k
    split_ifs
    · exact Or.inr (Or.inr rfl)
    · exact Or.inr (Or.inl rfl)
    · exact Or.inl rfl
  rw [chunkOfSuffix_numericSuffix n hn _ (tails n),
    chunkOfSuffix_numericSuffix m hm _ (tails m)] at hdec
  exact hne hdec

/-- Claim C35, witness: with the split and alpha flags the chunks 1 and 10 are named
`base.1a` and `base.10a`. -/
theorem MakeName_injective_witness :
    exampleMasks.SingleBits ∧ hasFlag 4104 exampleMasks.FIM_SPLITTED ∧
      MakeName exampleMasks "base" 1 4104 = "base.1a" ∧
      MakeName exampleMasks "base" 10 4104 = "base.10a" ∧
      MakeName exampleMasks "base" 1 4104 ≠ MakeName exampleMasks "base" 10 4104 :=
  ⟨exampleMasks_singleBits, by decide, by decide, by decide,
    MakeName_injective exampleMasks exampleMasks_singleBits "base" 4104 1 10 (by decide)
      (by decide) (by decide) (by decide)⟩

/-- Claim C36, failing input: a valid header marked as a cube map by
`DDS_SURFACE_FLAGS_CUBEMAP` and `DDS_CUBEMAP_ALLFACES` whose image flags lack
`EIF_Cubemap`. `SetHeaderFromMemory` derives `m_Sides = 6`, while `SeekToAttachedImage`
takes `numSlices = 1`: it skips one face (43704 bytes) and reads its 1024-byte array at
position 128 + 43704, not behind the six faces at 128 + 6 * 43704 where the attached image
is, and returns false. -/
theorem SeekToAttachedImage_face_count_differs :
    (CImageDDSFile.SetHeaderFromMemory exampleHelpers exampleMasks exampleFresh
        { dwMagic := DDS_MAGIC, header := exampleSurfaceCubeHeader } { dxgiFormat := 0 }
        0).2 = true ∧
      (CImageDDSFile.SetHeaderFromMemory exampleHelpers exampleMasks exampleFresh
        { dwMagic := DDS_MAGIC, header := exampleSurfaceCubeHeader } { dxgiFormat := 0 }
        0).1.img.m_Sides = 6 ∧
      ¬ hasFlag (exampleHelpers.GetImageFlags exampleSurfaceCubeHeader)
        exampleHelpers.EIF_Cubemap ∧
      exampleDXT1Size 256 256 1 9 1 1 ETEX_TileMode.eTM_None = 43704 ∧
      (SeekToAttachedImage exampleHelpers exampleDXT1Size exampleGetAttachedImage
        exampleCubeStream).1 = false ∧
      (SeekToAttachedImage exampleHelpers exampleDXT1Size exampleGetAttachedImage
        exampleCubeStream).2.pos = 128 + 43704 ∧
      exampleGetAttachedImage (exampleCubeStream.readWindow (128 + 6 * 43704)).2 = some 4 := by
  decide

end DDSSplitted

/-! ## `TImage::SetSubImage` -/

namespace TImage

variable {T : Type}

theorem SetSubImage_loops_apply (src : Nat → T) (srcWidth W x1 y1 width height : Nat)
    (buf : Nat → T) (hfit : x1 + width ≤ W) (u v : Nat) (hu : u < W) :
    SetSubImage_loops src srcWidth W x1 y1 width height buf (u + v * W) =
      if x1 ≤ u ∧ u < x1 + width ∧ y1 ≤ v ∧ v < y1 + height then
        ValueAt src srcWidth (u - x1) (v - y1)
      else buf (u + v * W) := by
  unfold SetSubImage_loops
  induction height with
  | zero =>
    have hno : ¬ (x1 ≤ u ∧ u < x1 + width ∧ y1 ≤ v ∧ v < y1 + 0) := by omega
    rw [if_neg hno]
    rfl
  | succ n ih =>
    rw [List.range_succ, List.foldl_append, List.foldl_cons, List.foldl_nil]
    have hrow : ∀ b : Nat → T,
        (List.range width).foldl
          (fun b1 x => store b1 ((x1 + x) + (y1 + n) * W) (ValueAt src srcWidth x n)) b =
        (List.range width).foldl
          (fun b1 x => store b1 (x + (x1 + (y1 + n) * W)) (ValueAt src srcWidth x n)) b := by
      intro b
      have hidx : ∀ x : Nat, (x1 + x) + (y1 + n) * W = x + (x1 + (y1 + n) * W) := by
        intro x
        ring
      simp only [hidx]
    rw [hrow, foldl_store_row, ih]
    by_cases hv : v = y1 + n
    · subst hv
      by_cases hin : x1 ≤ u ∧ u < x1 + width
      · have h1 : x1 + (y1 + n) * W ≤ u + (y1 + n) * W ∧
            u + (y1 + n) * W < x1 + (y1 + n) * W + width := by omega
        have h2 : x1 ≤ u ∧ u < x1 + width ∧ y1 ≤ y1 + n ∧ y1 + n < y1 + (n + 1) := by omega
        have h3 : u + (y1 + n) * W - (x1 + (y1 + n) * W) = u - x1 := by omega
        have h4 : y1 + n - y1 = n := by omega
        rw [if_pos h1, if_pos h2, h3, h4]
      · have h1 : ¬ (x1 + (y1 + n) * W ≤ u + (y1 + n) * W ∧
            u + (y1 + n) * W < x1 + (y1 + n) * W + width) := by omega
        have h2 : ¬ (x1 ≤ u ∧ u < x1 + width ∧ y1 ≤ y1 + n ∧ y1 + n < y1 + (n + 1)) := by
          omega
        have h3 : ¬ (x1 ≤ u ∧ u < x1 + width ∧ y1 ≤ y1 + n ∧ y1 + n < y1 + n) := by omega
        rw [if_neg h1, if_neg h2, if_neg h3]
    · have h1 : ¬ (x1 + (y1 + n) * W ≤ u + v * W ∧
          u + v * W < x1 + (y1 + n) * W + width) := by
        rcases Nat.lt_or_gt_of_ne hv with hlt | hgt
        · have hm : (v + 1) * W ≤ (y1 + n) * W := Nat.mul_le_mul_right W hlt
          rw [Nat.succ_mul] at hm
          omega
        · have hm : (y1 + n + 1) * W ≤ v * W := Nat.mul_le_mul_right W hgt
          rw [Nat.succ_mul] at hm
          omega
      rw [if_neg h1]
      by_cases h2 : x1 ≤ u ∧ u < x1 + width ∧ y1 ≤ v ∧ v < y1 + n
      · have h3 : x1 ≤ u ∧ u < x1 + width ∧ y1 ≤ v ∧ v < y1 + (n + 1) := by omega
        rw [if_pos h2, if_pos h3]
      · have h3 : ¬ (x1 ≤ u ∧ u < x1 + width ∧ y1 ≤ v ∧ v < y1 + (n + 1)) := by omega
        rw [if_neg h2, if_neg h3]

/-- What `SetSubImage` does for every origin: with `ox = max(x1, 0)`, `oy = max(y1, 0)` and
the clipped extents `w`, `h` of lines 199-212, the element `(u, v)` of the destination
becomes the sub-image element `(u - ox, v - oy)` when `ox ≤ u < ox + w` and
`oy ≤ v < oy + h`, and keeps its value otherwise. For an origin that is not negative this is
the clipped paste; for a negative `x1` or `y1` the source is not advanced by the clipped
columns or rows. -/
theorem SetSubImage_pixels (self subImage : TImage T) (x1 y1 : Int) (buf src : Nat → T)
    (hself : self.m_data = some buf) (hsub : subImage.m_data = some src) :
    ∃ r : TImage T, SetSubImage self subImage x1 y1 = some r ∧
      r.m_width = self.m_width ∧ r.m_height = self.m_height ∧
      ∀ u v : Nat, u < self.m_width → v < self.m_height →
        r.pixel u v =
          if max x1 0 ≤ (u : Int) ∧
              (u : Int) < min (max x1 0 + (subImage.m_width + min x1 0)) self.m_width ∧
              max y1 0 ≤ (v : Int) ∧
              (v : Int) < min (max y1 0 + (subImage.m_height + min y1 0)) self.m_height then
            subImage.pixel (u - (max x1 0).toNat) (v - (max y1 0).toNat)
          else self.pixel u v := by
  have hox : (if x1 < 0 then (0 : Int) else x1) = max x1 0 := by
    split_ifs <;> omega
  have hoy : (if y1 < 0 then (0 : Int) else y1) = max y1 0 := by
    split_ifs <;> omega
  have hw1 : (if x1 < 0 then (subImage.m_width : Int) + x1 else (subImage.m_width : Int)) =
      (subImage.m_width : Int) + min x1 0 := by
    split_ifs <;> omega
  have hh1 : (if y1 < 0 then (subImage.m_height : Int) + y1 else (subImage.m_height : Int)) =
      (subImage.m_height : Int) + min y1 0 := by
    split_ifs <;> omega
  unfold SetSubImage
  simp only [hself, hsub, hox, hoy, hw1, hh1]
  generalize hX : max x1 0 = X
  generalize hY : max y1 0 = Y
  generalize hA : (subImage.m_width : Int) + min x1 0 = A
  generalize hB : (subImage.m_height : Int) + min y1 0 = B
  have hX0 : 0 ≤ X := by omega
  have hY0 : 0 ≤ Y := by omega
  generalize hw2 : (if X + A > (self.m_width : Int) then (self.m_width : Int) - X else A) = w2
  generalize hh2 : (if Y + B > (self.m_height : Int) then (self.m_height : Int) - Y else B)
    = h2
  have hw2e : X + w2 = min (X + A) self.m_width := by
    rw [← hw2]
    split_ifs <;> omega
  have hh2e : Y + h2 = min (Y + B) self.m_height := by
    rw [← hh2]
    split_ifs <;> omega
  by_cases hret : w2 ≤ 0 ∨ h2 ≤ 0
  · rw [if_pos hret]
    refine ⟨self, rfl, rfl, rfl, ?_⟩
    intro u v _ _
    have hno : ¬ (X ≤ (u : Int) ∧ (u : Int) < min (X + A) self.m_width ∧
        Y ≤ (v : Int) ∧ (v : Int) < min (Y + B) self.m_height) := by
      rw [← hw2e, ← hh2e]
      omega
    rw [if_neg hno]
  · rw [if_neg hret]
    refine ⟨_, rfl, rfl, rfl, ?_⟩
    intro u v hu _
    simp only [pixel, hself, hsub, Option.map_some']
    show some (SetSubImage_loops src subImage.m_width self.m_width X.toNat Y.toNat w2.toNat
      h2.toNat buf (u + v * self.m_width)) = _
    have hfit : X.toNat + w2.toNat ≤ self.m_width := by
      have : X + w2 ≤ self.m_width := by
        rw [hw2e]
        exact min_le_right _ _
      omega
    rw [SetSubImage_loops_apply src subImage.m_width self.m_width X.toNat Y.toNat w2.toNat
      h2.toNat buf hfit u v hu]
    by_cases hin : X ≤ (u : Int) ∧ (u : Int) < min (X + A) self.m_width ∧
        Y ≤ (v : Int) ∧ (v : Int) < min (Y + B) self.m_height
    · have hin1 : X.toNat ≤ u ∧ u < X.toNat + w2.toNat ∧ Y.toNat ≤ v ∧
          v < Y.toNat + h2.toNat := by
        rw [← hw2e, ← hh2e] at hin
        omega
      rw [if_pos hin, if_pos hin1]
    · have hin1 : ¬ (X.toNat ≤ u ∧ u < X.toNat + w2.toNat ∧ Y.toNat ≤ v ∧
          v < Y.toNat + h2.toNat) := by
        rw [← hw2e, ← hh2e] at hin
        omega
      rw [if_neg hin, if_neg hin1]
      rfl

/-- Claim C37, failing input: the 2 x 1 sub-image 10, 20 pasted at the origin (-1, 0)
into the 3 x 1 image 0, 1, 2. The sub-image element (1, 0), value 20, has the target
(0, 0) inside the destination, but the destination becomes 10, 1, 2: the clipping at lines
201-204 moves the origin to 0 and shortens the width without skipping the clipped column of
the source, so element (0, 0) is written to (0, 0). Pasted at the origin (1, 0) the same
sub-image gives 0, 10, 20. -/
theorem SetSubImage_negative_origin :
    (SetSubImage example3x1 example2x1 (-1) 0).map
        (fun r => (List.range 3).map (fun i => r.pixel i 0)) =
        some [some 10, some 1, some 2] ∧
      example2x1.pixel 1 0 = some 20 ∧
      (SetSubImage example3x1 example2x1 1 0).map
        (fun r => (List.range 3).map (fun i => r.pixel i 0)) =
        some [some 0, some 10, some 20] := by
  decide

end TImage

/-! ## The example load, from the header to the requests -/

namespace CImageDDSFile

open DDSSplitted

/-- What `LoadFromFile` returns when it succeeds: the header was valid and accepted, and the
results are those of the chunk loop run on the accepted image members. -/
theorem LoadFromFile_ok (h : DDSHelpers) (fm : FlagMasks) (tds : TextureDataSizeFn)
    (cv : CRenderer) (st : HeaderState) (file : FileInput) (nFlags nConts0 : Nat)
    (hret : (LoadFromFile h fm tds cv st file nFlags nConts0).ret = true) :
    (headerRead fm file nFlags).IsValid h = true ∧
      (SetHeaderFromMemory h fm { st with img := { st.img with m_nStartSeek := file.Tell } }
        (headerRead fm file nFlags) file.ddsExtendedHeader nFlags).2 = true ∧
      (LoadFromFile h fm tds cv st file nFlags nConts0).st.img =
        (LoadFromFile_chunks fm tds cv (parsedImage h fm st file nFlags)).img ∧
      (LoadFromFile h fm tds cv st file nFlags nConts0).nConts =
        (LoadFromFile_chunks fm tds cv (parsedImage h fm st file nFlags)).nConts ∧
      (LoadFromFile h fm tds cv st file nFlags nConts0).chunks =
        (LoadFromFile_chunks fm tds cv (parsedImage h fm st file nFlags)).chunks ∧
      (LoadFromFile h fm tds cv st file nFlags nConts0).trace =
        (LoadFromFile_chunks fm tds cv (parsedImage h fm st file nFlags)).trace ∧
      (LoadFromFile h fm tds cv st file nFlags nConts0).memorySet =
        some (LoadFromFile_chunks fm tds cv (parsedImage h fm st file nFlags)).nImageSideSize := by
  unfold LoadFromFile at hret ⊢
  unfold parsedImage
  by_cases hfv : file.IsValid = true
  · by_cases hseek : hasFlag nFlags fm.FIM_ALPHA ∧ ¬ hasFlag nFlags fm.FIM_SPLITTED ∧
        file.SeekToAttachedImage = false
    · simp [hfv, hseek] at hret
    · by_cases hv : (headerRead fm file nFlags).IsValid h = true
      · by_cases hp : (SetHeaderFromMemory h fm
            { st with img := { st.img with m_nStartSeek := file.Tell } }
            (headerRead fm file nFlags) file.ddsExtendedHeader nFlags).2 = true
        · simp [hfv, hseek, hv, hp]
        · simp [hfv, hseek, hv, hp] at hret
      · simp [hfv, hseek, hv] at hret
  · simp [hfv] at hret

/-- The extents, format and start offset after a successful call of `SetHeaderFromMemory`. -/
theorem SetHeaderFromMemory_extents (h : DDSHelpers) (fm : FlagMasks) (st : HeaderState)
    (dds : DDS_FILE_DESC) (ddx : DDS_HEADER_DXT10) (nFlags : Nat)
    (hret : (SetHeaderFromMemory h fm st dds ddx nFlags).2 = true) :
    (SetHeaderFromMemory h fm st dds ddx nFlags).1.img.m_Width =
        i32 ((max 1 dds.header.dwWidth : Nat) : Int) ∧
      (SetHeaderFromMemory h fm st dds ddx nFlags).1.img.m_Height =
        i32 ((max 1 dds.header.dwHeight : Nat) : Int) ∧
      (SetHeaderFromMemory h fm st dds ddx nFlags).1.img.m_Depth =
        i32 ((max 1 dds.header.dwDepth : Nat) : Int) := by
  by_cases hv : dds.IsValid h = true
  · by_cases hfmt : h.GetFormatByDesc dds.header.ddspf ddx.dxgiFormat = h.eTF_Unknown
    · simp [SetHeaderFromMemory, hv, hfmt] at hret
    · simp only [SetHeaderFromMemory, hv, hfmt]
      simp only [not_true_eq_false, if_false]
      exact ⟨trivial, trivial, trivial⟩
  · simp [SetHeaderFromMemory, hv] at hret

/-- With `r_texturesstreamingSkipMips = 0` the header is not adjusted. -/
theorem AdjustHeader_skip_zero (fm : FlagMasks) (cv : CRenderer) (img : CImageDDSFile)
    (hskip : cv.CV_r_texturesstreamingSkipMips = 0)
    (hP0 : 0 ≤ img.m_NumPersistantMips) (hPN : img.m_NumPersistantMips ≤ img.m_NumMips)
    (hN : img.m_NumMips ≤ 127) :
    AdjustHeader fm cv img = (img, 0) := by
  have hz : (AdjustHeader fm cv img).2 = 0 := by
    by_cases h1 : hasFlag img.m_Flags fm.FIM_SUPPRESS_DOWNSCALING
    · simp [AdjustHeader, h1]
    · have hiN : i8 (img.m_NumMips - 0) = img.m_NumMips := by
        rw [sub_zero]
        exact i8_of_small (by omega) hN
      have ha : i8 cv.CV_r_texturesstreamingMinUsableMips ≤ 127 := by
        unfold i8
        omega
      have hf : clamp_to (max (i8 cv.CV_r_texturesstreamingMinUsableMips) img.m_NumMips)
          img.m_NumPersistantMips img.m_NumMips = img.m_NumMips := by
        unfold clamp_to
        have hm : min (max (max (i8 cv.CV_r_texturesstreamingMinUsableMips) img.m_NumMips)
            img.m_NumPersistantMips) img.m_NumMips = img.m_NumMips :=
          min_eq_right (le_trans (le_max_right _ _) (le_max_left _ _))
        rw [hm]
        exact i8_of_small (by omega) hN
      unfold AdjustHeader
      simp only [h1, not_false_eq_true, if_true, hskip, hiN, hf, sub_self]
      have h0 : i8 0 = 0 := by decide
      simp [h0]
  exact Prod.ext (AdjustHeader_zero fm cv img hz) hz

theorem trace_nRead (tds : TextureDataSizeFn) (desc : DDSDesc)
    (S N : Nat) (delta first : Int) (cs : List ChunkInfo) (d : Nat) :
    (LoadFromFile_trace tds desc S N delta first d cs).map LoadAction.nRead =
      (cs.map (fun c => c.nMipLevel)).flatMap
        (fun m => List.replicate S (surfaceSize32 tds desc m)) := by
  induction cs generalizing d with
  | nil => simp [LoadFromFile_trace]
  | cons c cs ih =>
    simp only [LoadFromFile_trace, List.map_append, ih, List.map_cons, List.flatMap_cons]
    congr 1
    by_cases h : i8 (c.nMipLevel - delta) < first
    · simp [LoadFromFile_sides, h, LoadAction.nRead, Function.comp_def]
    · simp [LoadFromFile_sides, h, LoadAction.nRead, Function.comp_def]

/-- The chunk loop on an unsplit one-face 256 x 256 image of 9 mips, 3 of them persistent,
without stream-prepare flag and without adjustment of the header. -/
theorem LoadFromFile_chunks_full_load (fm : FlagMasks) (tds : TextureDataSizeFn)
    (cv : CRenderer) (img0 : CImageDDSFile)
    (hW : img0.m_Width = 256) (hH : img0.m_Height = 256) (hD : img0.m_Depth = 1)
    (hM : img0.m_NumMips = 9) (hP : img0.m_NumPersistantMips = 3) (hS : img0.m_Sides = 1)
    (hns : ¬ hasFlag img0.m_Flags fm.FIM_SPLITTED)
    (hnp : ¬ hasFlag img0.m_Flags fm.FIM_STREAM_PREPARE)
    (hadj : AdjustHeader fm cv img0 = (img0, 0)) :
    (LoadFromFile_chunks fm tds cv img0).img = img0 ∧
      (LoadFromFile_chunks fm tds cv img0).chunks.map (fun c => c.nMipLevel) =
        [0, 1, 2, 3, 4, 5, 6, 7, 8] ∧
      (LoadFromFile_chunks fm tds cv img0).trace.map LoadAction.isCont =
        [true, true, true, true, true, true, false, false, false] ∧
      (LoadFromFile_chunks fm tds cv img0).trace.map LoadAction.nRead =
        [u32 (tds 256 256 1 1 1 img0.m_eFormat img0.m_eTileMode),
         u32 (tds 128 128 1 1 1 img0.m_eFormat img0.m_eTileMode),
         u32 (tds 64 64 1 1 1 img0.m_eFormat img0.m_eTileMode),
         u32 (tds 32 32 1 1 1 img0.m_eFormat img0.m_eTileMode),
         u32 (tds 16 16 1 1 1 img0.m_eFormat img0.m_eTileMode),
         u32 (tds 8 8 1 1 1 img0.m_eFormat img0.m_eTileMode),
         u32 (tds 4 4 1 1 1 img0.m_eFormat img0.m_eTileMode),
         u32 (tds 2 2 1 1 1 img0.m_eFormat img0.m_eTileMode),
         u32 (tds 1 1 1 1 1 img0.m_eFormat img0.m_eTileMode)] ∧
      (LoadFromFile_chunks fm tds cv img0).pConts.map (fun r => r.nRead) =
        [u32 (tds 256 256 1 1 1 img0.m_eFormat img0.m_eTileMode),
         u32 (tds 128 128 1 1 1 img0.m_eFormat img0.m_eTileMode),
         u32 (tds 64 64 1 1 1 img0.m_eFormat img0.m_eTileMode),
         u32 (tds 32 32 1 1 1 img0.m_eFormat img0.m_eTileMode),
         u32 (tds 16 16 1 1 1 img0.m_eFormat img0.m_eTileMode),
         u32 (tds 8 8 1 1 1 img0.m_eFormat img0.m_eTileMode)] := by
  have hr : mipRange 0 8 = [0, 1, 2, 3, 4, 5, 6, 7, 8] := by decide
  have hflag : ¬ hasFlag (snapshot img0).nFlags fm.FIM_SPLITTED := hns
  have hplan : (GetFilesToRead fm tds 16 (snapshot img0) 0 8).2 = 9 ∧
      (GetFilesToRead fm tds 16 (snapshot img0) 0 8).1.map (fun c => c.nMipLevel) =
        [0, 1, 2, 3, 4, 5, 6, 7, 8] := by
    simp only [GetFilesToRead, hflag, if_false, GetFilesToRead_UnSplit, hr, List.foldl_cons,
      List.foldl_nil, GetFilesToRead_UnSplit_step]
    simp
  have hi9 : i8 9 = 9 := by decide
  have hi0 : i8 (9 - 9) = 0 := by decide
  have hi00 : i8 (0 + 0) = 0 := by decide
  have hi8 : i8 (9 + 0 - 1) = 8 := by decide
  have himg : (LoadFromFile_chunks fm tds cv img0).img = img0 := by
    simp only [LoadFromFile_chunks, hadj]
  have hchunks : (LoadFromFile_chunks fm tds cv img0).chunks.map (fun c => c.nMipLevel) =
      [0, 1, 2, 3, 4, 5, 6, 7, 8] := by
    simp only [LoadFromFile_chunks, hadj, hnp, if_false, hM, hi9, hi0, hi00, hi8, hplan.1]
    rw [List.take_of_length_le]
    · exact hplan.2
    · have := congrArg List.length hplan.2
      simp only [List.length_map, List.length_cons, List.length_nil] at this
      omega
  have htrace := LoadFromFile_chunks_trace fm tds cv img0
  rw [himg, hadj, hM, hP, hS] at htrace
  have hsW : (snapshot img0).nWidth = 256 := by
    show u16OfInt img0.m_Width = 256
    rw [hW]
    decide
  have hsH : (snapshot img0).nHeight = 256 := by
    show u16OfInt img0.m_Height = 256
    rw [hH]
    decide
  have hsD : (snapshot img0).nDepth = 1 := by
    show u16OfInt img0.m_Depth = 1
    rw [hD]
    decide
  have hsF : (snapshot img0).eFormat = img0.m_eFormat := rfl
  have hsT : (snapshot img0).eTileMode = img0.m_eTileMode := rfl
  refine ⟨himg, hchunks, ?_, ?_, ?_⟩
  · rw [htrace, trace_isCont, hchunks]
    dsimp only
    decide
  · rw [htrace, trace_nRead, hchunks]
    simp only [surfaceSize32, hsW, hsH, hsD, hsF, hsT, List.flatMap_cons, List.flatMap_nil]
    simp [maxU32]
  · unfold LoadResult.pConts
    rw [htrace, trace_pConts_nRead, hchunks]
    simp only [surfaceSize32, hsW, hsH, hsD, hsF, hsT, List.flatMap_cons, List.flatMap_nil]
    simp [i8, maxU32]

/-- C9 (as the code has it): for an unsplit container whose header gives width 256, height
256, depth 1, 9 mips and, under the engine tag, a persistent-mip byte of 2, with one face
and `etexNumLastMips = 3`, the header reader stores 3 persistent mips; a successful full
load (no stream-prepare flag, `r_texturesstreamingSkipMips = 0`) plans one chunk per mip
0..8, reads mips 6, 7 and 8 immediately and emits six continuation requests, for the mips
0..5, the request for mip `m` having the byte length of that single mip,
`TextureDataSize(256 >> m, 256 >> m, 1, 1, 1, format, tileMode)`. -/
theorem LoadFromFile_full_load (h : DDSHelpers) (fm : FlagMasks) (tds : TextureDataSizeFn)
    (cv : CRenderer) (st : HeaderState) (file : FileInput) (nFlags nConts0 : Nat)
    (res : LoadFromFileResult) (hres : res = LoadFromFile h fm tds cv st file nFlags nConts0)
    (hret : res.ret = true)
    (hW : (headerRead fm file nFlags).header.dwWidth = 256)
    (hH : (headerRead fm file nFlags).header.dwHeight = 256)
    (hD : (headerRead fm file nFlags).header.dwDepth = 1)
    (hM : (headerRead fm file nFlags).header.dwMipMapCount = 9)
    (hT : (headerRead fm file nFlags).header.dwTextureStage = h.CRYF)
    (hB : (headerRead fm file nFlags).header.bNumPersistentMips = 2)
    (hlast : h.etexNumLastMips = 3)
    (hS : res.st.img.m_Sides = 1)
    (hns : ¬ hasFlag res.st.img.m_Flags fm.FIM_SPLITTED)
    (hnp : ¬ hasFlag res.st.img.m_Flags fm.FIM_STREAM_PREPARE)
    (hskip : cv.CV_r_texturesstreamingSkipMips = 0) :
    res.st.img.m_NumMips = 9 ∧ res.st.img.m_NumPersistantMips = 3 ∧
      res.chunks.map (fun c => c.nMipLevel) = [0, 1, 2, 3, 4, 5, 6, 7, 8] ∧
      res.trace.map LoadAction.isCont =
        [true, true, true, true, true, true, false, false, false] ∧
      res.nConts = 6 ∧
      res.pConts.map (fun r => r.nRead) =
        [u32 (tds 256 256 1 1 1 res.st.img.m_eFormat res.st.img.m_eTileMode),
         u32 (tds 128 128 1 1 1 res.st.img.m_eFormat res.st.img.m_eTileMode),
         u32 (tds 64 64 1 1 1 res.st.img.m_eFormat res.st.img.m_eTileMode),
         u32 (tds 32 32 1 1 1 res.st.img.m_eFormat res.st.img.m_eTileMode),
         u32 (tds 16 16 1 1 1 res.st.img.m_eFormat res.st.img.m_eTileMode),
         u32 (tds 8 8 1 1 1 res.st.img.m_eFormat res.st.img.m_eTileMode)] ∧
      res.trace.map LoadAction.nRead =
        [u32 (tds 256 256 1 1 1 res.st.img.m_eFormat res.st.img.m_eTileMode),
         u32 (tds 128 128 1 1 1 res.st.img.m_eFormat res.st.img.m_eTileMode),
         u32 (tds 64 64 1 1 1 res.st.img.m_eFormat res.st.img.m_eTileMode),
         u32 (tds 32 32 1 1 1 res.st.img.m_eFormat res.st.img.m_eTileMode),
         u32 (tds 16 16 1 1 1 res.st.img.m_eFormat res.st.img.m_eTileMode),
         u32 (tds 8 8 1 1 1 res.st.img.m_eFormat res.st.img.m_eTileMode),
         u32 (tds 4 4 1 1 1 res.st.img.m_eFormat res.st.img.m_eTileMode),
         u32 (tds 2 2 1 1 1 res.st.img.m_eFormat res.st.img.m_eTileMode),
         u32 (tds 1 1 1 1 1 res.st.img.m_eFormat res.st.img.m_eTileMode)] := by
  subst hres
  obtain ⟨-, hp, himg, hn, hc, ht, -⟩ :=
    LoadFromFile_ok h fm tds cv st file nFlags nConts0 hret
  obtain ⟨hmN, hmP⟩ := SetHeaderFromMemory_mips h fm _ _ _ nFlags hp
  obtain ⟨heW, heH, heD⟩ := SetHeaderFromMemory_extents h fm _ _ _ nFlags hp
  have hN : (parsedImage h fm st file nFlags).m_NumMips = 9 := by
    unfold parsedImage
    rw [hmN]
    simp [DDS_HEADER.GetMipCount, hM]
  have hP : (parsedImage h fm st file nFlags).m_NumPersistantMips = 3 := by
    unfold parsedImage
    rw [hmP, if_pos hT, hB, hlast]
    simp only [DDS_HEADER.GetMipCount, hM]
    decide
  have hW' : (parsedImage h fm st file nFlags).m_Width = 256 := by
    unfold parsedImage
    rw [heW, hW]
    decide
  have hH' : (parsedImage h fm st file nFlags).m_Height = 256 := by
    unfold parsedImage
    rw [heH, hH]
    decide
  have hD' : (parsedImage h fm st file nFlags).m_Depth = 1 := by
    unfold parsedImage
    rw [heD, hD]
    decide
  have hadj : AdjustHeader fm cv (parsedImage h fm st file nFlags) =
      (parsedImage h fm st file nFlags, 0) :=
    AdjustHeader_skip_zero fm cv _ hskip (by omega) (by omega) (by omega)
  have himg0 : (LoadFromFile_chunks fm tds cv (parsedImage h fm st file nFlags)).img =
      parsedImage h fm st file nFlags := by
    simp only [LoadFromFile_chunks, hadj]
  rw [himg, himg0] at hS hns hnp
  obtain ⟨-, h1, h2, h3, h4⟩ := LoadFromFile_chunks_full_load fm tds cv
    (parsedImage h fm st file nFlags) hW' hH' hD' hN hP hS hns hnp hadj
  have hlen : (LoadFromFile_chunks fm tds cv (parsedImage h fm st file nFlags)).nConts = 6 := by
    have := congrArg List.length h4
    simpa [LoadResult.nConts] using this
  rw [himg, himg0, hc, ht, hn]
  exact ⟨hN, hP, h1, h2, hlen, by
    unfold LoadFromFileResult.pConts
    rw [ht]
    exact h4, h3⟩

/-- Witness for `LoadFromFile_full_load`: the example file whose header has a persistent-mip
byte of 2. -/
theorem LoadFromFile_full_load_witness :
    (LoadFromFile exampleHelpers exampleMasks (TextureDataSize_uncompressed 4) exampleCVars
        exampleFresh exampleTwoPersistentFile 0 0).ret = true ∧
      (LoadFromFile exampleHelpers exampleMasks (TextureDataSize_uncompressed 4) exampleCVars
        exampleFresh exampleTwoPersistentFile 0 0).trace.map LoadAction.isCont =
          [true, true, true, true, true, true, false, false, false] :=
  ⟨by decide,
    (LoadFromFile_full_load exampleHelpers exampleMasks (TextureDataSize_uncompressed 4)
      exampleCVars exampleFresh exampleTwoPersistentFile 0 0 _ rfl (by decide) (by decide)
      (by decide) (by decide) (by decide) (by decide) (by decide) (by decide) (by decide)
      (by decide) (by decide) (by decide)).2.2.2.1⟩

end CImageDDSFile

/-! ## Loading a streamable texture -/

namespace DDSSplitted

end DDSSplitted

namespace CImageDDSFile

open DDSSplitted

end CImageDDSFile
